import Mathlib

/-!
# PR reviewer assignment service

A shallow embedding of the reviewer-assignment core of the service
(`internal/models`, `internal/repository`, `internal/service`,
`internal/handlers`) and the properties its specification states about it.

Modelling conventions

* The PostgreSQL database behind `pgxpool.Pool` is a value of type `Store`: one
  list of rows per table, in table order.  A `SELECT` without `ORDER BY` returns
  the matching rows in table order, an `INSERT` appends a row, an `UPDATE`
  rewrites the matching rows in place and a `DELETE` removes all matching rows.
* The table declarations are not part of the sources.  What they may reject is a
  parameter, `Schema`: for every `INSERT` the schema either accepts the row or
  answers with the driver's error message.  Every theorem holds for all schemas.
* Statements always reach the database: the only statement failures are the
  schema's rejections.  The health check alone is given the outcome `conn` of its
  round trip, the database or the driver's error.
* The handlers validate nothing, so a query can receive a text parameter the
  database refuses (PostgreSQL refuses a string holding U+0000).  The schema says
  which parameters are refused, `Schema.parameter`, and a read that takes an id of
  the request (`GetPR`, `GetUser`, `IsReviewerAssigned`, `SetUserActive`, `GetTeam`,
  the team lookup of `UpdateTeam`) then fails with the driver's error.  Where the
  same value next reaches an `INSERT` of the same transaction (`CreateTeam`,
  `CreatePR`) its refusal is the schema's rejection of that row: a schema accepts
  the `INSERT` of a team or of a pull request only under a key it accepts as a
  parameter (`Schema.teams_parameter`, `Schema.pull_requests_parameter`).
* `time.Now()` is a parameter `now : Nat`; timestamps are natural numbers.
* The process-wide random source of `math/rand` is a parameter `rnd : Source`, the
  stream of raw values it hands out; `rand.Intn n` reduces a raw value modulo `n`.
* A Go `(T, error)` result is an `Except Error T`; an operation that writes
  returns the store it leaves behind next to its result.
-/

namespace models

/-- Go struct `models.User`, also the row type of table `users`. -/
structure User where
  UserID : String
  Username : String
  TeamName : String
  IsActive : Bool
deriving DecidableEq, Repr, Inhabited

/-- Go struct `models.TeamMember`. -/
structure TeamMember where
  UserID : String
  Username : String
  IsActive : Bool
deriving DecidableEq, Repr, Inhabited

/-- Go struct `models.PullRequest`. -/
structure PullRequest where
  PullRequestID : String
  PullRequestName : String
  AuthorID : String
  Status : String
  AssignedReviewers : List String
  CreatedAt : Option Nat
  MergedAt : Option Nat
deriving DecidableEq, Repr, Inhabited

def ErrCodeTeamExists : String := "TEAM_EXISTS"
def ErrCodePRExists : String := "PR_EXISTS"
def ErrCodePRMerged : String := "PR_MERGED"
def ErrCodeNotAssigned : String := "NOT_ASSIGNED"
def ErrCodeNoCandidate : String := "NO_CANDIDATE"
def ErrCodeNotFound : String := "NOT_FOUND"

def StatusOpen : String := "OPEN"
def StatusMerged : String := "MERGED"

/-- Go struct `models.MergePRRequest`. -/
structure MergePRRequest where
  PullRequestID : String
deriving DecidableEq, Repr, Inhabited

/-- Go struct `models.ReassignRequest`. -/
structure ReassignRequest where
  PullRequestID : String
  OldUserID : String
deriving DecidableEq, Repr, Inhabited

end models

open models

/-! ## Errors -/

/-- Go `error` values the core produces.  `Errorf msg` is `fmt.Errorf` without `%w`
(`msg` is the formatted text); `Wrap head inner` is `fmt.Errorf` whose format ends in
`%w`: `head` is the formatted text in front of the wrapped error `inner`; `driver msg`
is an error reported by the database driver. -/
inductive GoError where
  | ErrNotFound
  | ErrAlreadyExists
  | driver (msg : String)
  | Errorf (msg : String)
  | Wrap (head : String) (inner : GoError)
deriving DecidableEq, Repr, Inhabited

namespace GoError

/-- Method `Error()` of a Go error: its message. -/
def Error : GoError → String
  | ErrNotFound => "not found"
  | ErrAlreadyExists => "already exists"
  | driver msg => msg
  | Errorf msg => msg
  | Wrap head inner => head ++ inner.Error

/-- Go `errors.Is err target` for a sentinel `target`: walk the `%w` chain. -/
def Is : GoError → GoError → Bool
  | Wrap head inner, target => (Wrap head inner == target) || Is inner target
  | err, target => err == target

end GoError

/-! ## The store -/

/-- Row of table `pull_requests`. -/
structure PullRequestRow where
  pull_request_id : String
  pull_request_name : String
  author_id : String
  status : String
  created_at : Option Nat
  merged_at : Option Nat
deriving DecidableEq, Repr, Inhabited

/-- Row of table `pull_request_reviewers`. -/
structure ReviewerRow where
  pull_request_id : String
  user_id : String
deriving DecidableEq, Repr, Inhabited

/-- Contents of the database: tables `teams` (column `team_name`), `users`,
`pull_requests` and `pull_request_reviewers`. -/
structure Store where
  teams : List String
  users : List User
  pull_requests : List PullRequestRow
  pull_request_reviewers : List ReviewerRow
deriving DecidableEq, Repr, Inhabited

/-- What the table declarations (not part of the sources) reject: for an `INSERT` into
a table, given the contents the statement sees, `none` accepts the row and `some msg`
rejects it with the driver's message `msg`; and for a text parameter of a query,
`parameter` says whether the database takes it (`none`) or refuses it with the
driver's message.  A value is refused in every statement alike: an `INSERT` that is
accepted carries a key that is accepted as a parameter. -/
structure Schema where
  teams : Store → String → Option String
  users : Store → User → Option String
  pull_requests : Store → PullRequestRow → Option String
  pull_request_reviewers : Store → ReviewerRow → Option String
  parameter : String → Option String
  teams_parameter : ∀ st name, teams st name = none → parameter name = none
  pull_requests_parameter :
    ∀ st row, pull_requests st row = none → parameter row.pull_request_id = none

/-- A transaction `tx` of `pool.Begin` with the deferred `tx.Rollback`: when the body
returns an error the writes are dropped, otherwise `tx.Commit` keeps them. -/
def withTx (st : Store) (body : Store → Except GoError Store) : Except GoError Unit × Store :=
  match body st with
  | .ok st' => (.ok (), st')
  | .error err => (.error err, st)

/-- Random source of `math/rand`: the `k`-th raw value it hands out. -/
abbrev Source := Nat → Nat

/-- Go `rand.Intn n` on the `k`-th draw of the source (`n > 0`). -/
def Intn (rnd : Source) (k n : Nat) : Nat := rnd k % n

/-- Go `rand.Shuffle n swap` (Fisher-Yates, as in the standard library): for
`i = n-1` down to `1`, draw `j = Intn (i+1)` and call `swap i j`.  The first argument
is the current `i`, `k` is the number of draws made so far and `s` is the state the
callback `swap` acts on. -/
def ShuffleFrom {σ : Type} (rnd : Source) (swap : σ → Nat → Nat → σ) : Nat → Nat → σ → σ
  | 0, _, s => s
  | i + 1, k, s => ShuffleFrom rnd swap i (k + 1) (swap s (i + 1) (Intn rnd k (i + 2)))

/-- Go `rand.Shuffle n swap`. -/
def Shuffle {σ : Type} (rnd : Source) (n : Nat) (swap : σ → Nat → Nat → σ) (s : σ) : σ :=
  ShuffleFrom rnd swap (n - 1) 0 s

namespace repository

/-- The query `SELECT user_id FROM pull_request_reviewers WHERE pull_request_id = $1`
with its row loop. -/
def selectReviewers (st : Store) (prID : String) : List String :=
  (st.pull_request_reviewers.filter (fun row => row.pull_request_id == prID)).map
    (fun row => row.user_id)

/-- Method `Repository.GetUser`: the driver's error when the id is refused, else the
first row of `users` with the id, or `ErrNotFound`. -/
def GetUser (db : Schema) (st : Store) (userID : String) : Except GoError User :=
  match db.parameter userID with
  | some msg => .error (GoError.driver msg)
  | none =>
    match st.users.find? (fun u => u.UserID == userID) with
    | none => .error GoError.ErrNotFound
    | some user => .ok user

/-- Method `Repository.GetActiveTeamMembers`: the rows of `users` with
`team_name = $1 AND is_active = true AND user_id != $2`.  The service passes it values
read from a row of `users`, or the literal `""`, never an id of the request. -/
def GetActiveTeamMembers (st : Store) (teamName excludeUserID : String) : Except GoError (List User) :=
  .ok (st.users.filter
    (fun u => u.TeamName == teamName && u.IsActive == true && u.UserID != excludeUserID))

/-- Method `Repository.GetPR`: the driver's error when the id is refused, else the row
of the PR, or `ErrNotFound`, then the reviewer query (with the same id). -/
def GetPR (db : Schema) (st : Store) (prID : String) : Except GoError PullRequest :=
  match db.parameter prID with
  | some msg => .error (GoError.driver msg)
  | none =>
    match st.pull_requests.find? (fun row => row.pull_request_id == prID) with
    | none => .error GoError.ErrNotFound
    | some row =>
      .ok { PullRequestID := row.pull_request_id
            PullRequestName := row.pull_request_name
            AuthorID := row.author_id
            Status := row.status
            AssignedReviewers := selectReviewers st prID
            CreatedAt := row.created_at
            MergedAt := row.merged_at }

/-- Method `Repository.MergePR`: the `UPDATE ... RETURNING` statement, then the reviewer
query.  The service calls it with an id that `GetPR` has just read. -/
def MergePR (st : Store) (now : Nat) (prID : String) : Except GoError PullRequest × Store :=
  let st' : Store :=
    { st with pull_requests := st.pull_requests.map (fun row =>
        if row.pull_request_id == prID then
          { row with status := StatusMerged, merged_at := some now }
        else row) }
  match st'.pull_requests.find? (fun row => row.pull_request_id == prID) with
  | none => (.error GoError.ErrNotFound, st')
  | some row =>
    (.ok { PullRequestID := row.pull_request_id
           PullRequestName := row.pull_request_name
           AuthorID := row.author_id
           Status := row.status
           AssignedReviewers := selectReviewers st' prID
           CreatedAt := row.created_at
           MergedAt := row.merged_at }, st')

/-- Method `Repository.IsReviewerAssigned`: the driver's error when one of the two ids
is refused, else the `SELECT EXISTS` over the reviewer rows. -/
def IsReviewerAssigned (db : Schema) (st : Store) (prID userID : String) : Except GoError Bool :=
  match db.parameter prID with
  | some msg => .error (GoError.driver msg)
  | none =>
    match db.parameter userID with
    | some msg => .error (GoError.driver msg)
    | none =>
      .ok (st.pull_request_reviewers.any
        (fun row => row.pull_request_id == prID && row.user_id == userID))

/-- The statement `INSERT INTO pull_request_reviewers (pull_request_id, user_id)`. -/
def insertReviewer (db : Schema) (st : Store) (row : ReviewerRow) : Except GoError Store :=
  match db.pull_request_reviewers st row with
  | some msg => .error (GoError.driver msg)
  | none => .ok { st with pull_request_reviewers := st.pull_request_reviewers ++ [row] }

/-- Method `Repository.ReassignReviewer`: in one transaction, the `DELETE` of the old
reviewer row, the check of `RowsAffected`, and the `INSERT` of the new row.  The
service calls it with ids that `GetPR` and `IsReviewerAssigned` have just read and
with the id of a row of `users`. -/
def ReassignReviewer (db : Schema) (st : Store) (prID oldUserID newUserID : String) :
    Except GoError Unit × Store :=
  withTx st fun tx =>
    let kept := tx.pull_request_reviewers.filter
      (fun row => !(row.pull_request_id == prID && row.user_id == oldUserID))
    let rowsAffected := tx.pull_request_reviewers.length - kept.length
    if rowsAffected == 0 then
      .error (GoError.Errorf "reviewer not found in PR")
    else
      insertReviewer db { tx with pull_request_reviewers := kept }
        { pull_request_id := prID, user_id := newUserID }

end repository

namespace service

/-- The callback handed to `rand.Shuffle` in `selectRandomReviewers`:
`shuffled[i], shuffled[j] = shuffled[j], shuffled[i]`.  Go panics on an index out of
range; `rand.Shuffle` only passes `j ≤ i < len(shuffled)`. -/
def swap (shuffled : List User) (i j : Nat) : List User :=
  match shuffled[i]?, shuffled[j]? with
  | some a, some b => (shuffled.set i b).set j a
  | _, _ => shuffled

/-- Function `selectRandomReviewers`. -/
def selectRandomReviewers (rnd : Source) (candidates : List User) (maxCount : Nat) : List User :=
  if candidates.length == 0 then
    []
  else
    let count := if candidates.length < maxCount then candidates.length else maxCount
    let shuffled := Shuffle rnd candidates.length swap candidates
    shuffled.take count

/-- Method `Service.MergePR`. -/
def MergePR (db : Schema) (st : Store) (now : Nat) (req : MergePRRequest) :
    Except GoError PullRequest × Store :=
  match repository.GetPR db st req.PullRequestID with
  | .error err =>
    if err.Is GoError.ErrNotFound then
      (.error (GoError.Wrap (ErrCodeNotFound ++ ": ") err), st)
    else
      (.error err, st)
  | .ok pr =>
    if pr.Status == StatusMerged then
      (.ok pr, st)
    else
      repository.MergePR st now req.PullRequestID

/-- A Go `map[string]bool`: a missing key reads as `false`. -/
abbrev BoolMap := String → Bool

/-- The assignment `m[key] = true`. -/
def setTrue (m : BoolMap) (key : String) : BoolMap :=
  fun k => if k == key then true else m k

/-- The exclusion map `ReassignReviewer` builds: the old reviewer, the author of the PR
and every reviewer of the PR. -/
def excludeMap (oldUserID authorID : String) (assignedReviewers : List String) : BoolMap :=
  assignedReviewers.foldl (fun m reviewerID => setTrue m reviewerID)
    (setTrue (setTrue (fun _ => false) oldUserID) authorID)

/-- The filter loop of `ReassignReviewer`: append every candidate the map does not
exclude. -/
def filterCandidates (exclude : BoolMap) (candidates : List User) : List User :=
  candidates.foldl
    (fun filtered candidate =>
      if !exclude candidate.UserID then filtered ++ [candidate] else filtered)
    []

/-- Method `Service.ReassignReviewer`; the result pairs the refreshed PR with the id of the
replacement. -/
def ReassignReviewer (db : Schema) (st : Store) (rnd : Source) (req : ReassignRequest) :
    Except GoError (PullRequest × String) × Store :=
  match repository.GetPR db st req.PullRequestID with
  | .error err =>
    if err.Is GoError.ErrNotFound then
      (.error (GoError.Wrap (ErrCodeNotFound ++ ": PR not found: ") err), st)
    else
      (.error err, st)
  | .ok pr =>
    if pr.Status == StatusMerged then
      (.error (GoError.Errorf (ErrCodePRMerged ++ ": cannot reassign on merged PR")), st)
    else
      match repository.IsReviewerAssigned db st req.PullRequestID req.OldUserID with
      | .error err => (.error err, st)
      | .ok isAssigned =>
        if !isAssigned then
          (.error (GoError.Errorf
            (ErrCodeNotAssigned ++ ": reviewer is not assigned to this PR")), st)
        else
          match repository.GetUser db st req.OldUserID with
          | .error err =>
            if err.Is GoError.ErrNotFound then
              (.error (GoError.Wrap (ErrCodeNotFound ++ ": old reviewer not found: ") err), st)
            else
              (.error err, st)
          | .ok oldReviewer =>
            match repository.GetActiveTeamMembers st oldReviewer.TeamName "" with
            | .error err => (.error err, st)
            | .ok candidates =>
              let filtered := filterCandidates
                (excludeMap req.OldUserID pr.AuthorID pr.AssignedReviewers) candidates
              if h : filtered.length = 0 then
                (.error (GoError.Errorf
                  (ErrCodeNoCandidate ++ ": no active replacement candidate in team")), st)
              else
                let newReviewer := filtered.get
                  ⟨Intn rnd 0 filtered.length, Nat.mod_lt _ (Nat.pos_of_ne_zero h)⟩
                match repository.ReassignReviewer db st req.PullRequestID req.OldUserID
                    newReviewer.UserID with
                | (.error err, st') => (.error err, st')
                | (.ok _, st') =>
                  match repository.GetPR db st' req.PullRequestID with
                  | .error err => (.error err, st')
                  | .ok updatedPR => (.ok (updatedPR, newReviewer.UserID), st')

end service

namespace handlers

/-- Go `strings.HasPrefix s pfx`. -/
def HasPrefix (s pfx : String) : Bool := pfx.data.isPrefixOf s.data

/-- Function `parseErrorCode`. -/
def parseErrorCode (err : GoError) : String :=
  let errMsg := err.Error
  ([ErrCodeTeamExists, ErrCodePRExists, ErrCodePRMerged, ErrCodeNotAssigned,
    ErrCodeNoCandidate, ErrCodeNotFound].find? (fun code => HasPrefix errMsg code)).getD
    "INTERNAL_ERROR"

end handlers

/-! ## Sample data -/

namespace sample

def mkUser (id : String) (active : Bool) : User :=
  { UserID := id, Username := id, TeamName := "backend", IsActive := active }

/-- The candidates of `TestReassignmentExclusionLogic`. -/
def u1to5 : List User :=
  [mkUser "u1" true, mkUser "u2" true, mkUser "u3" true, mkUser "u4" true, mkUser "u5" true]

/-- A schema without constraints. -/
def anySchema : Schema :=
  { teams := fun _ _ => none
    users := fun _ _ => none
    pull_requests := fun _ _ => none
    pull_request_reviewers := fun _ _ => none
    parameter := fun _ => none
    teams_parameter := fun _ _ _ => rfl
    pull_requests_parameter := fun _ _ _ => rfl }

/-- A schema whose table `pull_request_reviewers` rejects a row it already holds. -/
def keyedSchema : Schema :=
  { anySchema with
    pull_request_reviewers := fun st row =>
      if st.pull_request_reviewers.contains row then
        some "duplicate key value violates unique constraint"
      else none }

/-- PostgreSQL refuses a text value that holds the character U+0000. -/
def nulRefusal (s : String) : Option String :=
  if s.data.contains (Char.ofNat 0) then
    some "invalid byte sequence for encoding UTF8: 0x00"
  else none

/-- A schema without constraints that, as PostgreSQL does, refuses a key that holds the
character U+0000, as a parameter of a query and in the row of an `INSERT`. -/
def nulSchema : Schema :=
  { teams := fun _ name => nulRefusal name
    users := fun _ u => nulRefusal u.UserID
    pull_requests := fun _ row => nulRefusal row.pull_request_id
    pull_request_reviewers := fun _ row => nulRefusal row.user_id
    parameter := nulRefusal
    teams_parameter := fun _ _ h => h
    pull_requests_parameter := fun _ _ h => h }

/-- An id that holds the character U+0000, as a JSON request body can carry it. -/
def nulId : String := String.mk ['i', 'd', Char.ofNat 0]

/-- Team `backend` with `u1`..`u5`, one open PR `pr1` of `u1` reviewed by `u2`, `u3`. -/
def store1 : Store :=
  { teams := ["backend"]
    users := u1to5
    pull_requests :=
      [{ pull_request_id := "pr1", pull_request_name := "first", author_id := "u1",
         status := StatusOpen, created_at := some 1, merged_at := none }]
    pull_request_reviewers :=
      [{ pull_request_id := "pr1", user_id := "u2" },
       { pull_request_id := "pr1", user_id := "u3" }] }

/-- Reviewer rows of `store1` after `u2` was replaced with `u5` on `pr1`. -/
def store1After : Store :=
  { store1 with
    pull_request_reviewers :=
      [{ pull_request_id := "pr1", user_id := "u3" },
       { pull_request_id := "pr1", user_id := "u5" }] }

/-- The PR `pr1` as `GetPR` reads it from `store1After`. -/
def pr1After : PullRequest :=
  { PullRequestID := "pr1", PullRequestName := "first", AuthorID := "u1",
    Status := StatusOpen, AssignedReviewers := ["u3", "u5"], CreatedAt := some 1,
    MergedAt := none }

/-- Team `backend` with `u1`..`u5` and one merged PR `pr2` of `u1` reviewed by `u2`. -/
def store2 : Store :=
  { teams := ["backend"]
    users := u1to5
    pull_requests :=
      [{ pull_request_id := "pr2", pull_request_name := "second", author_id := "u1",
         status := StatusMerged, created_at := some 1, merged_at := some 5 }]
    pull_request_reviewers := [{ pull_request_id := "pr2", user_id := "u2" }] }

/-- The PR `pr2` as `GetPR` reads it from `store2`. -/
def pr2 : PullRequest :=
  { PullRequestID := "pr2", PullRequestName := "second", AuthorID := "u1",
    Status := StatusMerged, AssignedReviewers := ["u2"], CreatedAt := some 1,
    MergedAt := some 5 }

/-- The PR `pr1` as `GetPR` reads it from `store1`. -/
def pr1 : PullRequest :=
  { PullRequestID := "pr1", PullRequestName := "first", AuthorID := "u1",
    Status := StatusOpen, AssignedReviewers := ["u2", "u3"], CreatedAt := some 1,
    MergedAt := none }

/-- Team `backend` with `u1`, `u2` and an active member whose user id is the empty
string (the create-team request accepts any string as `user_id`); one open PR `pr1` of
`u1` reviewed by `u2`. -/
def store3 : Store :=
  { teams := ["backend"]
    users := [mkUser "u1" true, mkUser "u2" true, mkUser "" true]
    pull_requests :=
      [{ pull_request_id := "pr1", pull_request_name := "first", author_id := "u1",
         status := StatusOpen, created_at := some 1, merged_at := none }]
    pull_request_reviewers := [{ pull_request_id := "pr1", user_id := "u2" }] }

/-- The PR `pr1` as `GetPR` reads it from `store3`. -/
def pr3 : PullRequest :=
  { PullRequestID := "pr1", PullRequestName := "first", AuthorID := "u1",
    Status := StatusOpen, AssignedReviewers := ["u2"], CreatedAt := some 1,
    MergedAt := none }

/-- The store `store1` after `pr1` was merged at time `10`. -/
def store1Merged : Store :=
  { store1 with
    pull_requests :=
      [{ pull_request_id := "pr1", pull_request_name := "first", author_id := "u1",
         status := StatusMerged, created_at := some 1, merged_at := some 10 }] }

/-- The PR `pr1` as merged at time `10`. -/
def pr1Merged : PullRequest :=
  { PullRequestID := "pr1", PullRequestName := "first", AuthorID := "u1",
    Status := StatusMerged, AssignedReviewers := ["u2", "u3"], CreatedAt := some 1,
    MergedAt := some 10 }

end sample

/-- The candidate pool of a reassignment in the words of the specification: the active
users of the old reviewer's team, without the old reviewer, the author of the PR and
every reviewer currently assigned to the PR. -/
def specCandidatePool (st : Store) (pr : PullRequest) (oldReviewer : User) : List User :=
  st.users.filter (fun u =>
    u.TeamName == oldReviewer.TeamName && u.IsActive
      && u.UserID != oldReviewer.UserID && u.UserID != pr.AuthorID
      && !(pr.AssignedReviewers.contains u.UserID))

/-! ## Teams, users and PR creation -/

namespace models

/-- Go struct `models.Team`. -/
structure Team where
  TeamName : String
  Members : List TeamMember
deriving DecidableEq, Repr, Inhabited

/-- Go struct `models.CreateTeamRequest`. -/
structure CreateTeamRequest where
  TeamName : String
  Members : List TeamMember
deriving DecidableEq, Repr, Inhabited

/-- Go struct `models.SetIsActiveRequest`. -/
structure SetIsActiveRequest where
  UserID : String
  IsActive : Bool
deriving DecidableEq, Repr, Inhabited

/-- Go struct `models.CreatePRRequest`. -/
structure CreatePRRequest where
  PullRequestID : String
  PullRequestName : String
  AuthorID : String
deriving DecidableEq, Repr, Inhabited

end models

namespace repository

/-- The statement `INSERT INTO users ... ON CONFLICT (user_id) DO UPDATE SET username,
team_name, is_active`: a row with the id is overwritten in place, otherwise the row is
appended. -/
def upsertUser (db : Schema) (st : Store) (row : User) : Except GoError Store :=
  match db.users st row with
  | some msg => .error (GoError.driver msg)
  | none =>
    if st.users.any (fun u => u.UserID == row.UserID) then
      .ok { st with users := st.users.map (fun u => if u.UserID == row.UserID then row else u) }
    else
      .ok { st with users := st.users ++ [row] }

/-- The member loop of `Repository.CreateTeam` and `Repository.UpdateTeam`: one upsert
per member, stopping at the first error. -/
def upsertMembers (db : Schema) (teamName : String) : Store → List TeamMember → Except GoError Store
  | st, [] => .ok st
  | st, member :: rest =>
    match upsertUser db st
        { UserID := member.UserID, Username := member.Username, TeamName := teamName,
          IsActive := member.IsActive } with
    | .error err => .error err
    | .ok st' => upsertMembers db teamName st' rest

/-- Method `Repository.CreateTeam`.  A team name the database refuses is not the name
of a stored team, and the `INSERT` of the team rejects it (`Schema.teams_parameter`). -/
def CreateTeam (db : Schema) (st : Store) (teamName : String) (members : List TeamMember) :
    Except GoError Unit × Store :=
  withTx st fun tx =>
    if tx.teams.any (fun t => t == teamName) then
      .error (GoError.Errorf (ErrCodeTeamExists ++ ": team_name already exists"))
    else
      match db.teams tx teamName with
      | some msg => .error (GoError.driver msg)
      | none => upsertMembers db teamName { tx with teams := tx.teams ++ [teamName] } members

/-- Method `Repository.UpdateTeam`. -/
def UpdateTeam (db : Schema) (st : Store) (teamName : String) (members : List TeamMember) :
    Except GoError Unit × Store :=
  withTx st fun tx =>
    match db.parameter teamName with
    | some msg => .error (GoError.driver msg)
    | none =>
      if !(tx.teams.any (fun t => t == teamName)) then
        .error (GoError.Errorf (ErrCodeNotFound ++ ": team not found"))
      else
        upsertMembers db teamName tx members

/-- Method `Repository.GetTeam`; `ORDER BY user_id` is an insertion sort by the order of
strings. -/
def GetTeam (db : Schema) (st : Store) (teamName : String) : Except GoError Team :=
  match db.parameter teamName with
  | some msg => .error (GoError.driver msg)
  | none =>
    if !(st.teams.any (fun t => t == teamName)) then
      .error GoError.ErrNotFound
    else
      .ok { TeamName := teamName
            Members := ((st.users.filter (fun u => u.TeamName == teamName)).insertionSort
              (fun a b => a.UserID ≤ b.UserID)).map
              (fun u => { UserID := u.UserID, Username := u.Username, IsActive := u.IsActive }) }

/-- Method `Repository.SetUserActive`: the `UPDATE users SET is_active ... RETURNING`. -/
def SetUserActive (db : Schema) (st : Store) (userID : String) (isActive : Bool) :
    Except GoError User × Store :=
  match db.parameter userID with
  | some msg => (.error (GoError.driver msg), st)
  | none =>
    let st' : Store :=
      { st with users := st.users.map (fun u =>
          if u.UserID == userID then { u with IsActive := isActive } else u) }
    match st'.users.find? (fun u => u.UserID == userID) with
    | none => (.error GoError.ErrNotFound, st')
    | some user => (.ok user, st')

/-- The statement `INSERT INTO pull_requests (pull_request_id, pull_request_name,
author_id, status, created_at)`. -/
def insertPullRequest (db : Schema) (st : Store) (row : PullRequestRow) : Except GoError Store :=
  match db.pull_requests st row with
  | some msg => .error (GoError.driver msg)
  | none => .ok { st with pull_requests := st.pull_requests ++ [row] }

/-- The reviewer loop of `Repository.CreatePR`: one insert per reviewer, stopping at the
first error. -/
def insertReviewers (db : Schema) (prID : String) : Store → List String → Except GoError Store
  | st, [] => .ok st
  | st, reviewerID :: rest =>
    match insertReviewer db st { pull_request_id := prID, user_id := reviewerID } with
    | .error err => .error err
    | .ok st' => insertReviewers db prID st' rest

/-- Method `Repository.CreatePR`; `now` is the `time.Now()` it takes.  A PR id the
database refuses is not the id of a stored PR, and the `INSERT` of the PR rejects it
(`Schema.pull_requests_parameter`). -/
def CreatePR (db : Schema) (st : Store) (now : Nat) (pr : PullRequest) (reviewers : List String) :
    Except GoError Unit × Store :=
  withTx st fun tx =>
    if tx.pull_requests.any (fun row => row.pull_request_id == pr.PullRequestID) then
      .error GoError.ErrAlreadyExists
    else
      match insertPullRequest db tx
          { pull_request_id := pr.PullRequestID, pull_request_name := pr.PullRequestName,
            author_id := pr.AuthorID, status := StatusOpen, created_at := some now,
            merged_at := none } with
      | .error err => .error err
      | .ok tx' => insertReviewers db pr.PullRequestID tx' reviewers

/-- The round trip of the health check's query: `conn` is the database when the pool
reaches it and the driver's error when it does not. -/
def probeActiveTeamMembers (conn : Except GoError Store) (teamName excludeUserID : String) :
    Except GoError (List User) :=
  match conn with
  | .error err => .error err
  | .ok st => GetActiveTeamMembers st teamName excludeUserID

end repository

namespace service

/-- Method `Service.CreateTeam`. -/
def CreateTeam (db : Schema) (st : Store) (req : CreateTeamRequest) : Except GoError Team × Store :=
  match repository.CreateTeam db st req.TeamName req.Members with
  | (.error err, st') => (.error err, st')
  | (.ok _, st') => (repository.GetTeam db st' req.TeamName, st')

/-- Method `Service.UpdateTeam`. -/
def UpdateTeam (db : Schema) (st : Store) (req : CreateTeamRequest) : Except GoError Team × Store :=
  match repository.UpdateTeam db st req.TeamName req.Members with
  | (.error err, st') => (.error err, st')
  | (.ok _, st') => (repository.GetTeam db st' req.TeamName, st')

/-- Method `Service.SetUserActive`. -/
def SetUserActive (db : Schema) (st : Store) (req : SetIsActiveRequest) :
    Except GoError User × Store :=
  match repository.SetUserActive db st req.UserID req.IsActive with
  | (.error err, st') =>
    if err.Is GoError.ErrNotFound then
      (.error (GoError.Wrap (ErrCodeNotFound ++ ": ") err), st')
    else
      (.error err, st')
  | (.ok user, st') => (.ok user, st')

/-- Method `Service.CreatePR`. -/
def CreatePR (db : Schema) (st : Store) (rnd : Source) (now : Nat) (req : CreatePRRequest) :
    Except GoError PullRequest × Store :=
  match repository.GetUser db st req.AuthorID with
  | .error err =>
    if err.Is GoError.ErrNotFound then
      (.error (GoError.Wrap (ErrCodeNotFound ++ ": author not found: ") err), st)
    else
      (.error err, st)
  | .ok author =>
    match repository.GetActiveTeamMembers st author.TeamName author.UserID with
    | .error err => (.error err, st)
    | .ok candidates =>
      let reviewers := selectRandomReviewers rnd candidates 2
      let reviewerIDs := reviewers.map (fun r => r.UserID)
      let pr : PullRequest :=
        { PullRequestID := req.PullRequestID
          PullRequestName := req.PullRequestName
          AuthorID := req.AuthorID
          Status := StatusOpen
          AssignedReviewers := reviewerIDs
          CreatedAt := none
          MergedAt := none }
      match repository.CreatePR db st now pr reviewerIDs with
      | (.error err, st') =>
        if err.Is GoError.ErrAlreadyExists then
          (.error (GoError.Wrap (ErrCodePRExists ++ ": ") err), st')
        else
          (.error err, st')
      | (.ok _, st') => (repository.GetPR db st' req.PullRequestID, st')

/-- Method `Service.HealthCheck`: the result of the query is dropped (`_, _ =`) and `nil`
is returned. -/
def HealthCheck (conn : Except GoError Store) : Except GoError Unit :=
  let _ := repository.probeActiveTeamMembers conn "__healthcheck__" "__healthcheck__"
  .ok ()

end service

namespace handlers

/-- Function `getHTTPStatusForError`, with the values of `http.StatusBadRequest`,
`http.StatusNotFound`, `http.StatusConflict` and `http.StatusInternalServerError`. -/
def getHTTPStatusForError (code : String) : Nat :=
  if code == ErrCodeTeamExists || code == ErrCodePRExists then 400
  else if code == ErrCodeNotFound then 404
  else if code == ErrCodePRMerged || code == ErrCodeNotAssigned || code == ErrCodeNoCandidate
  then 409
  else 500

/-- The error branch shared by the handlers `CreateTeam`, `UpdateTeam`, `GetTeam`,
`SetUserActive`, `MergePR` and `ReassignReviewer`: the status and the code handed to
`respondError`. -/
def errorResponse (err : GoError) : Nat × String :=
  let code := parseErrorCode err
  let status := getHTTPStatusForError code
  (status, code)

/-- The error branch of the handler `CreatePR`: as above, but `PR_EXISTS` is answered
with `http.StatusConflict`. -/
def CreatePRErrorResponse (err : GoError) : Nat × String :=
  let code := parseErrorCode err
  let status := getHTTPStatusForError code
  let status := if code == ErrCodePRExists then 409 else status
  (status, code)

/-- The handler `HealthCheck`: the status it answers with, and the error code
(`respondError`) or the `status` field of the `HealthResponse`. -/
def HealthCheck (conn : Except GoError Store) : Nat × String :=
  match service.HealthCheck conn with
  | .error _ => (503, "UNHEALTHY")
  | .ok _ => (200, "healthy")

end handlers

/-! ## Sequences of operations -/

/-- One call of a service operation that can write, with the random source and the
clock reading it runs with. -/
inductive Op where
  | CreateTeam (req : CreateTeamRequest)
  | UpdateTeam (req : CreateTeamRequest)
  | SetUserActive (req : SetIsActiveRequest)
  | CreatePR (rnd : Source) (now : Nat) (req : CreatePRRequest)
  | MergePR (now : Nat) (req : MergePRRequest)
  | ReassignReviewer (rnd : Source) (req : ReassignRequest)

/-- The store a call leaves behind. -/
def step (db : Schema) (st : Store) : Op → Store
  | .CreateTeam req => (service.CreateTeam db st req).2
  | .UpdateTeam req => (service.UpdateTeam db st req).2
  | .SetUserActive req => (service.SetUserActive db st req).2
  | .CreatePR rnd now req => (service.CreatePR db st rnd now req).2
  | .MergePR now req => (service.MergePR db st now req).2
  | .ReassignReviewer rnd req => (service.ReassignReviewer db st rnd req).2

/-- The store after a sequence of calls, executed one after another. -/
def run (db : Schema) (st : Store) (ops : List Op) : Store :=
  ops.foldl (step db) st

/-- The database before the first call: four empty tables. -/
def emptyStore : Store :=
  { teams := [], users := [], pull_requests := [], pull_request_reviewers := [] }

/-- No pull request of the store has its author among its assigned reviewers. -/
def NoSelfReview (st : Store) : Prop :=
  ∀ p ∈ st.pull_requests, p.author_id ∉ repository.selectReviewers st p.pull_request_id

/-- Every reviewer list of the store holds no user id twice and at most two ids. -/
def ReviewerSetsOk (st : Store) : Prop :=
  ∀ prID, (repository.selectReviewers st prID).Nodup
    ∧ (repository.selectReviewers st prID).length ≤ 2

/-- The invariant the service operations keep: PR ids and user ids are unique, every
assignment row belongs to a stored PR, nobody reviews an own PR, and the reviewer
lists are duplicate free with at most two entries. -/
structure Consistent (st : Store) : Prop where
  prIds : (st.pull_requests.map (fun p => p.pull_request_id)).Nodup
  userIds : (st.users.map (fun u => u.UserID)).Nodup
  noOrphan : ∀ r ∈ st.pull_request_reviewers,
    ∃ p ∈ st.pull_requests, p.pull_request_id = r.pull_request_id
  noSelfReview : NoSelfReview st
  reviewerSets : ReviewerSetsOk st

namespace sample

/-- The request of the end-to-end scenario: team `backend` with `A` and `B` active and
`C` inactive. -/
def backendRequest : CreateTeamRequest :=
  { TeamName := "backend"
    Members :=
      [{ UserID := "A", Username := "A", IsActive := true },
       { UserID := "B", Username := "B", IsActive := true },
       { UserID := "C", Username := "C", IsActive := false }] }

/-- The store after `CreateTeam backendRequest` on the empty store. -/
def backendStore : Store :=
  { teams := ["backend"]
    users := [mkUser "A" true, mkUser "B" true, mkUser "C" false]
    pull_requests := []
    pull_request_reviewers := [] }

/-- The request that creates `PR1` for author `A`. -/
def pr1Request : CreatePRRequest :=
  { PullRequestID := "PR1", PullRequestName := "first", AuthorID := "A" }

/-- The PR `PR1` as created at time `7`. -/
def createdPR1 : PullRequest :=
  { PullRequestID := "PR1", PullRequestName := "first", AuthorID := "A",
    Status := StatusOpen, AssignedReviewers := ["B"], CreatedAt := some 7,
    MergedAt := none }

/-- The store `backendStore` after `PR1` was created at time `7`. -/
def backendStoreWithPR1 : Store :=
  { backendStore with
    pull_requests :=
      [{ pull_request_id := "PR1", pull_request_name := "first", author_id := "A",
         status := StatusOpen, created_at := some 7, merged_at := none }]
    pull_request_reviewers := [{ pull_request_id := "PR1", user_id := "B" }] }

end sample

/-! ## Reviewer selection -/

theorem set_cons_perm {α : Type} (l : List α) (i : Nat) (a b : α) (h : l[i]? = some a) :
    (a :: l.set i b).Perm (b :: l) := by
  induction l generalizing i with
  | nil => simp at h
  | cons x xs ih =>
    cases i with
    | zero =>
      simp at h
      subst h
      simpa using List.Perm.swap b x xs
    | succ n =>
      simp at h
      have h1 := ih n h
      simp only [List.set_cons_succ]
      exact (List.Perm.swap x a _).trans ((h1.cons x).trans (List.Perm.swap b x _))

theorem swap_perm (l : List User) (i j : Nat) : (service.swap l i j).Perm l := by
  unfold service.swap
  split
  · rename_i a b hi hj
    have h1 := set_cons_perm l i a b hi
    have hj2 : (l.set i b)[j]? = some b := by
      by_cases hij : i = j
      · subst hij
        have hlt : i < l.length := by
          rcases List.getElem?_eq_some_iff.1 hi with ⟨hlt, _⟩
          exact hlt
        simp [List.getElem?_set_self, hlt]
      · rw [List.getElem?_set_ne hij]
        exact hj
    have h2 := set_cons_perm (l.set i b) j b a hj2
    exact ((h2.trans h1).cons_inv)
  · exact List.Perm.refl l

theorem ShuffleFrom_perm (rnd : Source) (i k : Nat) (s : List User) :
    (ShuffleFrom rnd service.swap i k s).Perm s := by
  induction i generalizing k s with
  | zero => exact List.Perm.refl s
  | succ n ih =>
    simp only [ShuffleFrom]
    exact (ih _ _).trans (swap_perm _ _ _)

theorem Shuffle_perm (rnd : Source) (n : Nat) (s : List User) :
    (Shuffle rnd n service.swap s).Perm s :=
  ShuffleFrom_perm rnd (n - 1) 0 s

/-- C1: for every candidate list, every maximal count and every random source,
`selectRandomReviewers` returns exactly `min maxCount (len candidates)` users; the
empty list for no candidates, and as many as there are candidates when these are at
most `maxCount`. -/
theorem selectRandomReviewers_length (rnd : Source) (candidates : List User) (maxCount : Nat) :
    (service.selectRandomReviewers rnd candidates maxCount).length
        = min maxCount candidates.length
      ∧ (candidates = [] → service.selectRandomReviewers rnd candidates maxCount = [])
      ∧ (candidates.length ≤ maxCount →
          (service.selectRandomReviewers rnd candidates maxCount).length = candidates.length) := by
  have hlen : (service.selectRandomReviewers rnd candidates maxCount).length
      = min maxCount candidates.length := by
    unfold service.selectRandomReviewers
    split
    · rename_i h
      simp at h
      simp [h]
    · simp only [List.length_take, (Shuffle_perm rnd _ candidates).length_eq]
      split <;> omega
  refine ⟨hlen, ?_, ?_⟩
  · intro h
    subst h
    rfl
  · intro h
    rw [hlen]
    omega

theorem selectRandomReviewers_length_witness :
    (service.selectRandomReviewers (fun k => k + 3) sample.u1to5 2).length
        = min 2 sample.u1to5.length
      ∧ (sample.u1to5 = [] → service.selectRandomReviewers (fun k => k + 3) sample.u1to5 2 = [])
      ∧ (sample.u1to5.length ≤ 2 →
          (service.selectRandomReviewers (fun k => k + 3) sample.u1to5 2).length
            = sample.u1to5.length) :=
  selectRandomReviewers_length (fun k => k + 3) sample.u1to5 2

theorem selectRandomReviewers_subperm (rnd : Source) (candidates : List User) (maxCount : Nat) :
    (service.selectRandomReviewers rnd candidates maxCount).Subperm candidates := by
  unfold service.selectRandomReviewers
  split
  · exact List.nil_subperm
  · exact (List.take_sublist _ _).subperm.trans (Shuffle_perm rnd _ candidates).subperm

/-- C2: for every candidate list, maximal count and random source the result of
`selectRandomReviewers` is a sub-multiset of the candidates: every returned user is a
candidate and none is returned more often than it occurs among the candidates; when
the candidate ids are pairwise distinct, so are the returned ids, and each of them is
the id of a candidate. -/
theorem selectRandomReviewers_submultiset (rnd : Source) (candidates : List User)
    (maxCount : Nat) :
    (service.selectRandomReviewers rnd candidates maxCount).Subperm candidates
      ∧ (∀ u, (service.selectRandomReviewers rnd candidates maxCount).count u
            ≤ candidates.count u)
      ∧ (∀ u ∈ service.selectRandomReviewers rnd candidates maxCount, u ∈ candidates)
      ∧ ((candidates.map (fun u => u.UserID)).Nodup →
          ((service.selectRandomReviewers rnd candidates maxCount).map
              (fun u => u.UserID)).Nodup
            ∧ ∀ id ∈ (service.selectRandomReviewers rnd candidates maxCount).map
                (fun u => u.UserID), id ∈ candidates.map (fun u => u.UserID)) := by
  have hsub := selectRandomReviewers_subperm rnd candidates maxCount
  refine ⟨hsub, fun u => hsub.count_le u, fun u hu => hsub.subset hu, ?_⟩
  intro hnd
  obtain ⟨l, hp, hs⟩ := hsub
  refine ⟨?_, ?_⟩
  · exact ((hp.map _).nodup_iff).1 ((hs.map _).nodup hnd)
  · intro id hid
    rcases List.mem_map.1 hid with ⟨u, hu, rfl⟩
    exact List.mem_map.2 ⟨u, hs.subset (hp.symm.subset hu), rfl⟩

theorem selectRandomReviewers_submultiset_witness :
    (service.selectRandomReviewers (fun k => 2 * k + 1) sample.u1to5 2).Subperm sample.u1to5
      ∧ (∀ u, (service.selectRandomReviewers (fun k => 2 * k + 1) sample.u1to5 2).count u
            ≤ sample.u1to5.count u)
      ∧ (∀ u ∈ service.selectRandomReviewers (fun k => 2 * k + 1) sample.u1to5 2,
            u ∈ sample.u1to5)
      ∧ ((sample.u1to5.map (fun u => u.UserID)).Nodup →
          ((service.selectRandomReviewers (fun k => 2 * k + 1) sample.u1to5 2).map
              (fun u => u.UserID)).Nodup
            ∧ ∀ id ∈ (service.selectRandomReviewers (fun k => 2 * k + 1) sample.u1to5 2).map
                (fun u => u.UserID), id ∈ sample.u1to5.map (fun u => u.UserID)) :=
  selectRandomReviewers_submultiset (fun k => 2 * k + 1) sample.u1to5 2

/-! ## Reassignment: the exclusion filter -/

theorem foldl_setTrue (revs : List String) (m : service.BoolMap) (x : String) :
    (revs.foldl (fun m reviewerID => service.setTrue m reviewerID) m) x = true
      ↔ m x = true ∨ x ∈ revs := by
  induction revs generalizing m with
  | nil => simp
  | cons r rs ih =>
    simp only [List.foldl_cons, ih, List.mem_cons, service.setTrue]
    by_cases hx : x = r
    · simp [hx]
    · simp [hx]

theorem excludeMap_true_iff (oldUserID authorID : String) (revs : List String) (x : String) :
    service.excludeMap oldUserID authorID revs x = true
      ↔ x = oldUserID ∨ x = authorID ∨ x ∈ revs := by
  unfold service.excludeMap
  rw [foldl_setTrue]
  simp only [service.setTrue]
  by_cases h1 : x = authorID
  · simp [h1]
  · by_cases h2 : x = oldUserID
    · simp [h2]
    · simp [h1, h2]

theorem filterCandidates_foldl (exclude : service.BoolMap) (candidates acc : List User) :
    candidates.foldl
        (fun filtered candidate =>
          if !exclude candidate.UserID then filtered ++ [candidate] else filtered) acc
      = acc ++ candidates.filter (fun c => !exclude c.UserID) := by
  induction candidates generalizing acc with
  | nil => simp
  | cons c cs ih =>
    simp only [List.foldl_cons, ih, List.filter_cons]
    by_cases hc : exclude c.UserID = true
    · simp [hc]
    · simp [hc]

theorem filterCandidates_eq_filter (exclude : service.BoolMap) (candidates : List User) :
    service.filterCandidates exclude candidates
      = candidates.filter (fun c => !exclude c.UserID) := by
  unfold service.filterCandidates
  rw [filterCandidates_foldl]
  simp

theorem mem_filterCandidates (oldUserID authorID : String) (revs : List String)
    (candidates : List User) (u : User) :
    u ∈ service.filterCandidates (service.excludeMap oldUserID authorID revs) candidates
      ↔ u ∈ candidates ∧ u.UserID ≠ oldUserID ∧ u.UserID ≠ authorID ∧ u.UserID ∉ revs := by
  rw [filterCandidates_eq_filter, List.mem_filter]
  have h := excludeMap_true_iff oldUserID authorID revs u.UserID
  constructor
  · rintro ⟨hu, hx⟩
    have hx2 : ¬ (service.excludeMap oldUserID authorID revs u.UserID = true) := by
      simpa using hx
    rw [h] at hx2
    exact ⟨hu, fun e => hx2 (Or.inl e), fun e => hx2 (Or.inr (Or.inl e)),
      fun e => hx2 (Or.inr (Or.inr e))⟩
  · rintro ⟨hu, h1, h2, h3⟩
    refine ⟨hu, ?_⟩
    have hx2 : ¬ (service.excludeMap oldUserID authorID revs u.UserID = true) := by
      rw [h]
      rintro (e | e | e)
      · exact h1 e
      · exact h2 e
      · exact h3 e
    simpa using hx2

/-! ## Reassignment: what a successful call went through -/

theorem GetActiveTeamMembers_ok (st : Store) (teamName excludeUserID : String) :
    repository.GetActiveTeamMembers st teamName excludeUserID
      = .ok (st.users.filter (fun u =>
          u.TeamName == teamName && u.IsActive == true && u.UserID != excludeUserID)) := rfl

theorem ReassignReviewer_ok_inv (db : Schema) (st st' : Store) (rnd : Source)
    (req : ReassignRequest) (pr : PullRequest) (n : String)
    (h : service.ReassignReviewer db st rnd req = (.ok (pr, n), st')) :
    ∃ pr0 oldReviewer candidates newReviewer,
      repository.GetPR db st req.PullRequestID = .ok pr0
        ∧ pr0.Status ≠ StatusMerged
        ∧ repository.IsReviewerAssigned db st req.PullRequestID req.OldUserID = .ok true
        ∧ repository.GetUser db st req.OldUserID = .ok oldReviewer
        ∧ repository.GetActiveTeamMembers st oldReviewer.TeamName "" = .ok candidates
        ∧ newReviewer ∈ service.filterCandidates
            (service.excludeMap req.OldUserID pr0.AuthorID pr0.AssignedReviewers) candidates
        ∧ newReviewer.UserID = n
        ∧ repository.ReassignReviewer db st req.PullRequestID req.OldUserID n = (.ok (), st')
        ∧ repository.GetPR db st' req.PullRequestID = .ok pr := by
  unfold service.ReassignReviewer at h
  split at h
  · split at h <;> simp at h
  · rename_i pr0 hpr
    split at h
    · simp at h
    · rename_i hst
      split at h
      · simp at h
      · rename_i isAssigned hassigned
        split at h
        · simp at h
        · rename_i hass
          split at h
          · split at h <;> simp at h
          · rename_i oldReviewer hold
            split at h
            · simp at h
            · rename_i candidates hcands
              simp only at h
              split at h
              · simp at h
              · rename_i hne
                split at h
                · simp at h
                · rename_i u st2 hre
                  split at h
                  · simp at h
                  · rename_i updatedPR hupd
                    simp only [Prod.mk.injEq, Except.ok.injEq] at h
                    obtain ⟨⟨h1, h2⟩, h3⟩ := h
                    subst h1 h3
                    refine ⟨pr0, oldReviewer, candidates, _, hpr, ?_, ?_, hold, hcands,
                      List.get_mem _ _ _, h2, ?_, hupd⟩
                    · simpa using hst
                    · have hb : isAssigned = true := by simpa using hass
                      rw [hassigned, hb]
                    · rw [← h2]
                      cases u
                      exact hre

theorem GetPR_ok_row {db : Schema} (st : Store) (prID : String) (pr : PullRequest)
    (h : repository.GetPR db st prID = .ok pr) :
    ∃ row, st.pull_requests.find? (fun row => row.pull_request_id == prID) = some row
      ∧ row.pull_request_id = prID
      ∧ pr = { PullRequestID := row.pull_request_id
               PullRequestName := row.pull_request_name
               AuthorID := row.author_id
               Status := row.status
               AssignedReviewers := repository.selectReviewers st prID
               CreatedAt := row.created_at
               MergedAt := row.merged_at } := by
  unfold repository.GetPR at h
  split at h
  · simp at h
  · split at h
    · simp at h
    · rename_i row hrow
      simp only [Except.ok.injEq] at h
      refine ⟨row, hrow, ?_, h.symm⟩
      simpa using List.find?_some hrow

theorem GetPR_ok_accepted {db : Schema} (st : Store) (prID : String) (pr : PullRequest)
    (h : repository.GetPR db st prID = .ok pr) : db.parameter prID = none := by
  unfold repository.GetPR at h
  split at h
  · simp at h
  · assumption

theorem GetUser_ok_accepted {db : Schema} (st : Store) (userID : String) (user : User)
    (h : repository.GetUser db st userID = .ok user) : db.parameter userID = none := by
  unfold repository.GetUser at h
  split at h
  · simp at h
  · assumption

/-- A read whose parameter the database refuses returns the driver's error. -/
theorem GetPR_refused {db : Schema} (st : Store) (prID msg : String)
    (h : db.parameter prID = some msg) :
    repository.GetPR db st prID = .error (GoError.driver msg) := by
  unfold repository.GetPR
  rw [h]

theorem GetUser_refused {db : Schema} (st : Store) (userID msg : String)
    (h : db.parameter userID = some msg) :
    repository.GetUser db st userID = .error (GoError.driver msg) := by
  unfold repository.GetUser
  rw [h]

theorem GetUser_ok_find {db : Schema} (st : Store) (userID : String) (user : User)
    (h : repository.GetUser db st userID = .ok user) :
    st.users.find? (fun u => u.UserID == userID) = some user := by
  unfold repository.GetUser at h
  split at h
  · simp at h
  · split at h
    · simp at h
    · rename_i u hu
      simp only [Except.ok.injEq] at h
      rw [← h]
      exact hu

/-- A read whose parameter the database accepts answers by the rows alone. -/
theorem GetPR_accepted {db : Schema} (st : Store) (prID : String)
    (h : db.parameter prID = none) :
    repository.GetPR db st prID
      = match st.pull_requests.find? (fun row => row.pull_request_id == prID) with
        | none => .error GoError.ErrNotFound
        | some row =>
          .ok { PullRequestID := row.pull_request_id
                PullRequestName := row.pull_request_name
                AuthorID := row.author_id
                Status := row.status
                AssignedReviewers := repository.selectReviewers st prID
                CreatedAt := row.created_at
                MergedAt := row.merged_at } := by
  unfold repository.GetPR
  rw [h]

theorem GetUser_accepted {db : Schema} (st : Store) (userID : String)
    (h : db.parameter userID = none) :
    repository.GetUser db st userID
      = match st.users.find? (fun u => u.UserID == userID) with
        | none => .error GoError.ErrNotFound
        | some user => .ok user := by
  unfold repository.GetUser
  rw [h]

theorem GetPR_ok_reviewers {db : Schema} (st : Store) (prID : String) (pr : PullRequest)
    (h : repository.GetPR db st prID = .ok pr) :
    pr.AssignedReviewers = repository.selectReviewers st prID := by
  obtain ⟨row, _, _, hpr⟩ := GetPR_ok_row st prID pr h
  rw [hpr]

/-- C3: when `ReassignReviewer` succeeds with replacement `n`, then `n` is not the old
reviewer, not the author of the PR, not one of the reviewers the PR had before the
call, and `n` is the id of an active user whose team is the team of the old reviewer.
The filter step keeps exactly the candidates whose id is outside the exclusion set
(old reviewer, author, current reviewers), in their original order; on the data of
`TestReassignmentExclusionLogic` it leaves exactly `u4` and `u5`. -/
theorem ReassignReviewer_replacement_eligible (db : Schema) (st st' : Store) (rnd : Source)
    (req : ReassignRequest) (pr : PullRequest) (n : String)
    (h : service.ReassignReviewer db st rnd req = (.ok (pr, n), st')) :
    (∃ pr0 oldReviewer,
        repository.GetPR db st req.PullRequestID = .ok pr0
          ∧ repository.GetUser db st req.OldUserID = .ok oldReviewer
          ∧ n ≠ req.OldUserID
          ∧ n ≠ pr0.AuthorID
          ∧ n ∉ pr0.AssignedReviewers
          ∧ n ∉ repository.selectReviewers st req.PullRequestID
          ∧ ∃ u ∈ st.users, u.UserID = n ∧ u.IsActive = true
              ∧ u.TeamName = oldReviewer.TeamName)
      ∧ (∀ (oldUserID authorID : String) (revs : List String) (candidates : List User),
          service.filterCandidates (service.excludeMap oldUserID authorID revs) candidates
            = candidates.filter (fun c => decide (c.UserID ∉ oldUserID :: authorID :: revs)))
      ∧ service.filterCandidates (service.excludeMap "u2" "u1" ["u2", "u3"]) sample.u1to5
          = [sample.mkUser "u4" true, sample.mkUser "u5" true] := by
  refine ⟨?_, ?_, by decide⟩
  · obtain ⟨pr0, oldReviewer, candidates, newReviewer, hpr, _, _, hold, hcands, hmem, hn, _, _⟩ :=
      ReassignReviewer_ok_inv db st st' rnd req pr n h
    rw [mem_filterCandidates] at hmem
    obtain ⟨hc, h1, h2, h3⟩ := hmem
    rw [GetActiveTeamMembers_ok] at hcands
    simp only [Except.ok.injEq] at hcands
    rw [← hcands, List.mem_filter] at hc
    obtain ⟨hu, hf⟩ := hc
    simp only [Bool.and_eq_true, beq_iff_eq] at hf
    subst hn
    refine ⟨pr0, oldReviewer, hpr, hold, h1, h2, h3, ?_, newReviewer, hu, rfl, hf.1.2, hf.1.1⟩
    rw [← GetPR_ok_reviewers st _ pr0 hpr]
    exact h3
  · intro oldUserID authorID revs candidates
    rw [filterCandidates_eq_filter]
    apply List.filter_congr
    intro c _
    have hx := excludeMap_true_iff oldUserID authorID revs c.UserID
    by_cases hc : service.excludeMap oldUserID authorID revs c.UserID = true
    · have := hx.1 hc
      simp [hc, this]
    · have hne : ¬ (c.UserID = oldUserID ∨ c.UserID = authorID ∨ c.UserID ∈ revs) :=
        fun e => hc (hx.2 e)
      simp only [Bool.not_eq_true] at hc
      simp only [hc, Bool.not_false, List.mem_cons, true_eq_decide_iff]
      exact hne

theorem ReassignReviewer_replacement_eligible_witness :
    service.ReassignReviewer sample.anySchema sample.store1 (fun _ => 1) ⟨"pr1", "u2"⟩
        = (.ok (sample.pr1After, "u5"), sample.store1After)
      ∧ ∃ pr0 oldReviewer,
        repository.GetPR sample.anySchema sample.store1 "pr1" = .ok pr0
          ∧ repository.GetUser sample.anySchema sample.store1 "u2" = .ok oldReviewer
          ∧ "u5" ≠ "u2"
          ∧ "u5" ≠ pr0.AuthorID
          ∧ "u5" ∉ pr0.AssignedReviewers
          ∧ "u5" ∉ repository.selectReviewers sample.store1 "pr1"
          ∧ ∃ u ∈ sample.store1.users, u.UserID = "u5" ∧ u.IsActive = true
              ∧ u.TeamName = oldReviewer.TeamName :=
  ⟨by rfl,
    (ReassignReviewer_replacement_eligible sample.anySchema sample.store1 sample.store1After
      (fun _ => 1) ⟨"pr1", "u2"⟩ sample.pr1After "u5" (by rfl)).1⟩

/-! ## Reassignment: the precondition checks -/

theorem GetPR_notFound {db : Schema} (st : Store) (prID : String)
    (hacc : db.parameter prID = none)
    (h : ∀ row ∈ st.pull_requests, row.pull_request_id ≠ prID) :
    repository.GetPR db st prID = .error GoError.ErrNotFound := by
  unfold repository.GetPR
  rw [hacc]
  dsimp only
  have hnone : st.pull_requests.find? (fun row => row.pull_request_id == prID) = none := by
    rw [List.find?_eq_none]
    intro row hrow
    simpa using h row hrow
  rw [hnone]

theorem GetUser_notFound {db : Schema} (st : Store) (userID : String)
    (hacc : db.parameter userID = none)
    (h : ∀ u ∈ st.users, u.UserID ≠ userID) :
    repository.GetUser db st userID = .error GoError.ErrNotFound := by
  unfold repository.GetUser
  rw [hacc]
  dsimp only
  have hnone : st.users.find? (fun u => u.UserID == userID) = none := by
    rw [List.find?_eq_none]
    intro u hu
    simpa using h u hu
  rw [hnone]

theorem IsReviewerAssigned_eq {db : Schema} (st : Store) (prID userID : String)
    (hp : db.parameter prID = none) (hu : db.parameter userID = none) :
    repository.IsReviewerAssigned db st prID userID
      = .ok (decide (userID ∈ repository.selectReviewers st prID)) := by
  unfold repository.IsReviewerAssigned repository.selectReviewers
  rw [hp, hu]
  dsimp only
  congr 1
  rw [Bool.eq_iff_iff]
  simp only [List.any_eq_true, Bool.and_eq_true, beq_iff_eq, decide_eq_true_eq, List.mem_map,
    List.mem_filter]
  constructor
  · rintro ⟨row, hrow, h1, h2⟩
    exact ⟨row, ⟨hrow, h1⟩, h2⟩
  · rintro ⟨row, ⟨hrow, h1⟩, h2⟩
    exact ⟨row, hrow, h1, h2⟩

/-- What `IsReviewerAssigned` answered when it answered: both ids were taken, and the
answer says whether the user is among the reviewer rows of the PR. -/
theorem IsReviewerAssigned_ok {db : Schema} (st : Store) (prID userID : String) (b : Bool)
    (h : repository.IsReviewerAssigned db st prID userID = .ok b) :
    db.parameter prID = none ∧ db.parameter userID = none
      ∧ b = decide (userID ∈ repository.selectReviewers st prID) := by
  cases hp : db.parameter prID with
  | some msg =>
    unfold repository.IsReviewerAssigned at h
    rw [hp] at h
    simp at h
  | none =>
    cases hu : db.parameter userID with
    | some msg =>
      unfold repository.IsReviewerAssigned at h
      rw [hp, hu] at h
      simp at h
    | none =>
      rw [IsReviewerAssigned_eq st prID userID hp hu] at h
      simp only [Except.ok.injEq] at h
      exact ⟨rfl, rfl, h.symm⟩

theorem IsReviewerAssigned_refused {db : Schema} (st : Store) (prID userID msg : String)
    (hp : db.parameter prID = none) (hu : db.parameter userID = some msg) :
    repository.IsReviewerAssigned db st prID userID = .error (GoError.driver msg) := by
  unfold repository.IsReviewerAssigned
  rw [hp, hu]

theorem ReassignReviewer_of_refusedPR (db : Schema) (st : Store) (rnd : Source)
    (req : ReassignRequest) (msg : String)
    (h : db.parameter req.PullRequestID = some msg) :
    service.ReassignReviewer db st rnd req = (.error (GoError.driver msg), st) := by
  unfold service.ReassignReviewer
  rw [GetPR_refused st _ msg h]
  rfl

theorem ReassignReviewer_of_noPR (db : Schema) (st : Store) (rnd : Source)
    (req : ReassignRequest)
    (hacc : db.parameter req.PullRequestID = none)
    (h : ∀ row ∈ st.pull_requests, row.pull_request_id ≠ req.PullRequestID) :
    service.ReassignReviewer db st rnd req
      = (.error (GoError.Wrap (ErrCodeNotFound ++ ": PR not found: ") GoError.ErrNotFound), st) := by
  unfold service.ReassignReviewer
  rw [GetPR_notFound st _ hacc h]
  rfl

theorem ReassignReviewer_of_merged (db : Schema) (st : Store) (rnd : Source)
    (req : ReassignRequest) (pr0 : PullRequest)
    (hpr : repository.GetPR db st req.PullRequestID = .ok pr0)
    (hm : pr0.Status = StatusMerged) :
    service.ReassignReviewer db st rnd req
      = (.error (GoError.Errorf (ErrCodePRMerged ++ ": cannot reassign on merged PR")), st) := by
  unfold service.ReassignReviewer
  rw [hpr]
  simp [hm]

theorem ReassignReviewer_of_notAssigned (db : Schema) (st : Store) (rnd : Source)
    (req : ReassignRequest) (pr0 : PullRequest)
    (hpr : repository.GetPR db st req.PullRequestID = .ok pr0)
    (hm : pr0.Status ≠ StatusMerged)
    (hold : db.parameter req.OldUserID = none)
    (ha : req.OldUserID ∉ repository.selectReviewers st req.PullRequestID) :
    service.ReassignReviewer db st rnd req
      = (.error (GoError.Errorf
          (ErrCodeNotAssigned ++ ": reviewer is not assigned to this PR")), st) := by
  unfold service.ReassignReviewer
  rw [hpr, IsReviewerAssigned_eq st _ _ (GetPR_ok_accepted st _ pr0 hpr) hold]
  simp [hm, ha]

theorem ReassignReviewer_of_refusedUser (db : Schema) (st : Store) (rnd : Source)
    (req : ReassignRequest) (pr0 : PullRequest) (msg : String)
    (hpr : repository.GetPR db st req.PullRequestID = .ok pr0)
    (hm : pr0.Status ≠ StatusMerged)
    (hold : db.parameter req.OldUserID = some msg) :
    service.ReassignReviewer db st rnd req = (.error (GoError.driver msg), st) := by
  unfold service.ReassignReviewer
  rw [hpr, IsReviewerAssigned_refused st _ _ msg (GetPR_ok_accepted st _ pr0 hpr) hold]
  simp [hm]

theorem ReassignReviewer_of_noUser (db : Schema) (st : Store) (rnd : Source)
    (req : ReassignRequest) (pr0 : PullRequest)
    (hpr : repository.GetPR db st req.PullRequestID = .ok pr0)
    (hm : pr0.Status ≠ StatusMerged)
    (hold : db.parameter req.OldUserID = none)
    (ha : req.OldUserID ∈ repository.selectReviewers st req.PullRequestID)
    (hu : ∀ u ∈ st.users, u.UserID ≠ req.OldUserID) :
    service.ReassignReviewer db st rnd req
      = (.error (GoError.Wrap (ErrCodeNotFound ++ ": old reviewer not found: ")
          GoError.ErrNotFound), st) := by
  unfold service.ReassignReviewer
  rw [hpr, IsReviewerAssigned_eq st _ _ (GetPR_ok_accepted st _ pr0 hpr) hold,
    GetUser_notFound st _ hold hu]
  simp [hm, ha]
  rfl

theorem ReassignReviewer_of_noCandidate (db : Schema) (st : Store) (rnd : Source)
    (req : ReassignRequest) (pr0 : PullRequest) (oldReviewer : User) (candidates : List User)
    (hpr : repository.GetPR db st req.PullRequestID = .ok pr0)
    (hm : pr0.Status ≠ StatusMerged)
    (ha : req.OldUserID ∈ repository.selectReviewers st req.PullRequestID)
    (hu : repository.GetUser db st req.OldUserID = .ok oldReviewer)
    (hc : repository.GetActiveTeamMembers st oldReviewer.TeamName "" = .ok candidates)
    (hf : service.filterCandidates
        (service.excludeMap req.OldUserID pr0.AuthorID pr0.AssignedReviewers) candidates = []) :
    service.ReassignReviewer db st rnd req
      = (.error (GoError.Errorf
          (ErrCodeNoCandidate ++ ": no active replacement candidate in team")), st) := by
  unfold service.ReassignReviewer
  rw [hpr, IsReviewerAssigned_eq st _ _ (GetPR_ok_accepted st _ pr0 hpr)
    (GetUser_ok_accepted st _ oldReviewer hu), hu]
  simp [hm, ha, hc, hf]

/-- C4, as stated, fails on a PR id the database refuses: no PR of `store1` has the id
`nulId`, which holds U+0000, and `ReassignReviewer` answers with the driver's error,
whose code is `INTERNAL_ERROR`, not with an error of code `NOT_FOUND`. -/
theorem ReassignReviewer_check_order_counterexample :
    (∀ row ∈ sample.store1.pull_requests, row.pull_request_id ≠ sample.nulId)
      ∧ service.ReassignReviewer sample.nulSchema sample.store1 (fun _ => 0)
          ⟨sample.nulId, "u2"⟩
        = (.error (GoError.driver "invalid byte sequence for encoding UTF8: 0x00"),
            sample.store1)
      ∧ handlers.parseErrorCode (GoError.driver "invalid byte sequence for encoding UTF8: 0x00")
          = "INTERNAL_ERROR"
      ∧ ¬ (∃ err, (service.ReassignReviewer sample.nulSchema sample.store1 (fun _ => 0)
            ⟨sample.nulId, "u2"⟩).1 = .error err
          ∧ handlers.parseErrorCode err = ErrCodeNotFound) := by
  have hres : service.ReassignReviewer sample.nulSchema sample.store1 (fun _ => 0)
      ⟨sample.nulId, "u2"⟩
      = (.error (GoError.driver "invalid byte sequence for encoding UTF8: 0x00"),
          sample.store1) := by rfl
  refine ⟨by decide, hres, by decide, ?_⟩
  rintro ⟨err, herr, hcode⟩
  rw [hres] at herr
  simp only [Except.error.injEq] at herr
  rw [← herr] at hcode
  exact absurd hcode (by decide)

/-- C4, amended: `ReassignReviewer` checks in this order: a PR id the database refuses
gives the driver's error as it is; else no such PR gives `NOT_FOUND`; else a merged PR
gives `PR_MERGED`; else an old user id the database refuses gives the driver's error as
it is; else an old user who is not a reviewer of the PR gives `NOT_ASSIGNED`; else an
old user who does not exist gives `NOT_FOUND`; else an empty candidate pool gives
`NO_CANDIDATE`.  Each error is returned whatever the later checks would say, and the
store is left as it was; a merged PR with an old user who is not assigned yields
`PR_MERGED`. -/
theorem ReassignReviewer_check_order (db : Schema) (st : Store) (rnd : Source)
    (req : ReassignRequest) :
    (∀ msg, db.parameter req.PullRequestID = some msg →
        service.ReassignReviewer db st rnd req = (.error (GoError.driver msg), st))
      ∧ (db.parameter req.PullRequestID = none →
          (∀ row ∈ st.pull_requests, row.pull_request_id ≠ req.PullRequestID) →
          ∃ err, service.ReassignReviewer db st rnd req = (.error err, st)
            ∧ handlers.parseErrorCode err = ErrCodeNotFound)
      ∧ (∀ pr0, repository.GetPR db st req.PullRequestID = .ok pr0 →
          (pr0.Status = StatusMerged →
            ∃ err, service.ReassignReviewer db st rnd req = (.error err, st)
              ∧ handlers.parseErrorCode err = ErrCodePRMerged)
          ∧ (pr0.Status ≠ StatusMerged →
            (∀ msg, db.parameter req.OldUserID = some msg →
              service.ReassignReviewer db st rnd req = (.error (GoError.driver msg), st))
            ∧ (db.parameter req.OldUserID = none →
              (req.OldUserID ∉ pr0.AssignedReviewers →
                ∃ err, service.ReassignReviewer db st rnd req = (.error err, st)
                  ∧ handlers.parseErrorCode err = ErrCodeNotAssigned)
              ∧ (req.OldUserID ∈ pr0.AssignedReviewers →
                ((∀ u ∈ st.users, u.UserID ≠ req.OldUserID) →
                  ∃ err, service.ReassignReviewer db st rnd req = (.error err, st)
                    ∧ handlers.parseErrorCode err = ErrCodeNotFound)
                ∧ (∀ oldReviewer candidates,
                    repository.GetUser db st req.OldUserID = .ok oldReviewer →
                    repository.GetActiveTeamMembers st oldReviewer.TeamName ""
                      = .ok candidates →
                    service.filterCandidates
                      (service.excludeMap req.OldUserID pr0.AuthorID pr0.AssignedReviewers)
                      candidates = [] →
                    ∃ err, service.ReassignReviewer db st rnd req = (.error err, st)
                      ∧ handlers.parseErrorCode err = ErrCodeNoCandidate)))))
      ∧ (∃ err, service.ReassignReviewer sample.anySchema sample.store2 rnd ⟨"pr2", "u9"⟩
            = (.error err, sample.store2)
          ∧ handlers.parseErrorCode err = ErrCodePRMerged) := by
  refine ⟨?_, ?_, ?_, ?_⟩
  · intro msg hmsg
    exact ReassignReviewer_of_refusedPR db st rnd req msg hmsg
  · intro hacc h
    exact ⟨_, ReassignReviewer_of_noPR db st rnd req hacc h, by decide⟩
  · intro pr0 hpr
    have hrev := GetPR_ok_reviewers st _ pr0 hpr
    refine ⟨fun hm => ⟨_, ReassignReviewer_of_merged db st rnd req pr0 hpr hm, by decide⟩, ?_⟩
    intro hm
    refine ⟨fun msg hmsg => ReassignReviewer_of_refusedUser db st rnd req pr0 msg hpr hm hmsg,
      ?_⟩
    intro hold
    refine ⟨fun ha => ⟨_, ReassignReviewer_of_notAssigned db st rnd req pr0 hpr hm hold
      (hrev ▸ ha), by decide⟩, ?_⟩
    intro ha
    refine ⟨fun hu => ⟨_, ReassignReviewer_of_noUser db st rnd req pr0 hpr hm hold (hrev ▸ ha)
      hu, by decide⟩, ?_⟩
    intro oldReviewer candidates hu hc hf
    exact ⟨_, ReassignReviewer_of_noCandidate db st rnd req pr0 oldReviewer candidates hpr hm
      (hrev ▸ ha) hu hc hf, by decide⟩
  · exact ⟨_, ReassignReviewer_of_merged sample.anySchema sample.store2 rnd ⟨"pr2", "u9"⟩
      sample.pr2 rfl rfl, by decide⟩

/-- C5: when the PR exists and is merged, `ReassignReviewer` fails with an error whose
code is `PR_MERGED`, whoever the old user is, and the store, with it the reviewers of
the PR, is unchanged. -/
theorem ReassignReviewer_merged_fails (db : Schema) (st : Store) (rnd : Source)
    (req : ReassignRequest) (pr0 : PullRequest)
    (hpr : repository.GetPR db st req.PullRequestID = .ok pr0)
    (hm : pr0.Status = StatusMerged) :
    (∃ err, (service.ReassignReviewer db st rnd req).1 = .error err
        ∧ handlers.parseErrorCode err = ErrCodePRMerged)
      ∧ (service.ReassignReviewer db st rnd req).2 = st
      ∧ repository.GetPR db (service.ReassignReviewer db st rnd req).2 req.PullRequestID = .ok pr0
      ∧ repository.selectReviewers (service.ReassignReviewer db st rnd req).2 req.PullRequestID
          = pr0.AssignedReviewers := by
  rw [ReassignReviewer_of_merged db st rnd req pr0 hpr hm]
  exact ⟨⟨_, rfl, by decide⟩, rfl, hpr, (GetPR_ok_reviewers st _ pr0 hpr).symm⟩

theorem ReassignReviewer_merged_fails_witness :
    repository.GetPR sample.anySchema sample.store2 "pr2" = .ok sample.pr2
      ∧ sample.pr2.Status = StatusMerged
      ∧ (∃ err, (service.ReassignReviewer sample.anySchema sample.store2 (fun _ => 0)
            ⟨"pr2", "u2"⟩).1 = .error err
          ∧ handlers.parseErrorCode err = ErrCodePRMerged)
      ∧ (service.ReassignReviewer sample.anySchema sample.store2 (fun _ => 0)
            ⟨"pr2", "u2"⟩).2 = sample.store2 :=
  ⟨rfl, rfl,
    (ReassignReviewer_merged_fails sample.anySchema sample.store2 (fun _ => 0) ⟨"pr2", "u2"⟩
      sample.pr2 rfl rfl).1,
    (ReassignReviewer_merged_fails sample.anySchema sample.store2 (fun _ => 0) ⟨"pr2", "u2"⟩
      sample.pr2 rfl rfl).2.1⟩

/-- C6, as stated, fails on an old user id the database refuses: `pr1` of `store1` is
open and `nulId`, which holds U+0000, is not among its reviewers, and
`ReassignReviewer` answers with the driver's error, whose code is `INTERNAL_ERROR`,
not with an error of code `NOT_ASSIGNED`. -/
theorem ReassignReviewer_notAssigned_fails_counterexample :
    repository.GetPR sample.nulSchema sample.store1 "pr1" = .ok sample.pr1
      ∧ sample.pr1.Status = StatusOpen
      ∧ sample.nulId ∉ sample.pr1.AssignedReviewers
      ∧ service.ReassignReviewer sample.nulSchema sample.store1 (fun _ => 0)
          ⟨"pr1", sample.nulId⟩
        = (.error (GoError.driver "invalid byte sequence for encoding UTF8: 0x00"),
            sample.store1)
      ∧ handlers.parseErrorCode (GoError.driver "invalid byte sequence for encoding UTF8: 0x00")
          = "INTERNAL_ERROR"
      ∧ ¬ (∃ err, (service.ReassignReviewer sample.nulSchema sample.store1 (fun _ => 0)
            ⟨"pr1", sample.nulId⟩).1 = .error err
          ∧ handlers.parseErrorCode err = ErrCodeNotAssigned) := by
  have hres : service.ReassignReviewer sample.nulSchema sample.store1 (fun _ => 0)
      ⟨"pr1", sample.nulId⟩
      = (.error (GoError.driver "invalid byte sequence for encoding UTF8: 0x00"),
          sample.store1) := by rfl
  refine ⟨rfl, rfl, by decide, hres, by decide, ?_⟩
  rintro ⟨err, herr, hcode⟩
  rw [hres] at herr
  simp only [Except.error.injEq] at herr
  rw [← herr] at hcode
  exact absurd hcode (by decide)

/-- C6, amended: when the PR exists and is open and the old user is not among its
assigned reviewers, then, if the database accepts the old user id as a query
parameter, `ReassignReviewer` fails with an error whose code is `NOT_ASSIGNED`, and if
the database refuses it, `ReassignReviewer` fails with the driver's error as it is.
In both cases the store is unchanged: teams, users, pull requests and assignments are
as before. -/
theorem ReassignReviewer_notAssigned_fails (db : Schema) (st : Store) (rnd : Source)
    (req : ReassignRequest) (pr0 : PullRequest)
    (hpr : repository.GetPR db st req.PullRequestID = .ok pr0)
    (hopen : pr0.Status = StatusOpen)
    (ha : req.OldUserID ∉ pr0.AssignedReviewers) :
    (db.parameter req.OldUserID = none →
        ∃ err, (service.ReassignReviewer db st rnd req).1 = .error err
          ∧ handlers.parseErrorCode err = ErrCodeNotAssigned)
      ∧ (∀ msg, db.parameter req.OldUserID = some msg →
          (service.ReassignReviewer db st rnd req).1 = .error (GoError.driver msg))
      ∧ (service.ReassignReviewer db st rnd req).2 = st
      ∧ (service.ReassignReviewer db st rnd req).2.teams = st.teams
      ∧ (service.ReassignReviewer db st rnd req).2.users = st.users
      ∧ (service.ReassignReviewer db st rnd req).2.pull_requests = st.pull_requests
      ∧ (service.ReassignReviewer db st rnd req).2.pull_request_reviewers
          = st.pull_request_reviewers := by
  have hm : pr0.Status ≠ StatusMerged := by
    rw [hopen]
    decide
  have ha2 : req.OldUserID ∉ repository.selectReviewers st req.PullRequestID := by
    rw [← GetPR_ok_reviewers st _ pr0 hpr]
    exact ha
  cases hold : db.parameter req.OldUserID with
  | none =>
    rw [ReassignReviewer_of_notAssigned db st rnd req pr0 hpr hm hold ha2]
    exact ⟨fun _ => ⟨_, rfl, by decide⟩, fun msg hmsg => by simp at hmsg,
      rfl, rfl, rfl, rfl, rfl⟩
  | some msg0 =>
    rw [ReassignReviewer_of_refusedUser db st rnd req pr0 msg0 hpr hm hold]
    refine ⟨fun h => by simp at h, ?_, rfl, rfl, rfl, rfl, rfl⟩
    intro msg hmsg
    simp only [Option.some.injEq] at hmsg
    rw [hmsg]

theorem ReassignReviewer_notAssigned_fails_witness :
    repository.GetPR sample.anySchema sample.store1 "pr1" = .ok sample.pr1
      ∧ sample.pr1.Status = StatusOpen
      ∧ "u4" ∉ sample.pr1.AssignedReviewers
      ∧ sample.anySchema.parameter "u4" = none
      ∧ (∃ err, (service.ReassignReviewer sample.anySchema sample.store1 (fun _ => 0)
            ⟨"pr1", "u4"⟩).1 = .error err
          ∧ handlers.parseErrorCode err = ErrCodeNotAssigned)
      ∧ (service.ReassignReviewer sample.anySchema sample.store1 (fun _ => 0)
            ⟨"pr1", "u4"⟩).2 = sample.store1 :=
  ⟨rfl, rfl, by decide, rfl,
    (ReassignReviewer_notAssigned_fails sample.anySchema sample.store1 (fun _ => 0)
      ⟨"pr1", "u4"⟩ sample.pr1 rfl rfl (by decide)).1 rfl,
    (ReassignReviewer_notAssigned_fails sample.anySchema sample.store1 (fun _ => 0)
      ⟨"pr1", "u4"⟩ sample.pr1 rfl rfl (by decide)).2.2.1⟩

/-! ## Reassignment: the empty candidate pool -/

theorem GetUser_ok_id {db : Schema} (st : Store) (userID : String) (user : User)
    (h : repository.GetUser db st userID = .ok user) : user.UserID = userID := by
  simpa using List.find?_some (GetUser_ok_find st userID user h)

theorem mem_specCandidatePool (st : Store) (pr : PullRequest) (oldReviewer u : User) :
    u ∈ specCandidatePool st pr oldReviewer
      ↔ u ∈ st.users ∧ u.TeamName = oldReviewer.TeamName ∧ u.IsActive = true
          ∧ u.UserID ≠ oldReviewer.UserID ∧ u.UserID ≠ pr.AuthorID
          ∧ u.UserID ∉ pr.AssignedReviewers := by
  unfold specCandidatePool
  simp only [List.mem_filter, Bool.and_eq_true, beq_iff_eq, bne_iff_ne, ne_eq,
    Bool.not_eq_true', List.contains_eq_any_beq, List.any_eq_false, beq_iff_eq]
  constructor
  · rintro ⟨hu, ⟨⟨⟨⟨h1, h2⟩, h3⟩, h4⟩, h5⟩⟩
    refine ⟨hu, h1, h2, h3, h4, ?_⟩
    intro hmem
    exact h5 _ hmem rfl
  · rintro ⟨hu, h1, h2, h3, h4, h5⟩
    refine ⟨hu, ⟨⟨⟨⟨h1, h2⟩, h3⟩, h4⟩, ?_⟩⟩
    intro x hx hxe
    exact h5 (hxe ▸ hx)

/-- The pool the code draws from is the pool of the specification without the users
whose id is the empty string. -/
theorem mem_filtered_iff (st : Store) (pr0 : PullRequest) (oldReviewer u : User)
    (candidates : List User)
    (hc : repository.GetActiveTeamMembers st oldReviewer.TeamName "" = .ok candidates) :
    u ∈ service.filterCandidates
        (service.excludeMap oldReviewer.UserID pr0.AuthorID pr0.AssignedReviewers) candidates
      ↔ u ∈ specCandidatePool st pr0 oldReviewer ∧ u.UserID ≠ "" := by
  rw [GetActiveTeamMembers_ok] at hc
  simp only [Except.ok.injEq] at hc
  rw [mem_filterCandidates, mem_specCandidatePool, ← hc, List.mem_filter]
  simp only [Bool.and_eq_true, beq_iff_eq, bne_iff_ne, ne_eq]
  tauto

/-- The `DELETE FROM pull_request_reviewers WHERE pull_request_id = $1 AND user_id = $2`
affects no row exactly when the old user is not among the reviewers of the PR. -/
theorem rowsAffected_eq_zero_iff (st : Store) (prID oldUserID : String) :
    (st.pull_request_reviewers.length
        - (st.pull_request_reviewers.filter
            (fun row => !(row.pull_request_id == prID && row.user_id == oldUserID))).length
      == 0) = true
      ↔ oldUserID ∉ repository.selectReviewers st prID := by
  have hle := List.length_filter_le
    (fun row : ReviewerRow => !(row.pull_request_id == prID && row.user_id == oldUserID))
    st.pull_request_reviewers
  have hiff := List.filter_length_eq_length
    (p := fun row : ReviewerRow => !(row.pull_request_id == prID && row.user_id == oldUserID))
    (l := st.pull_request_reviewers)
  rw [beq_iff_eq]
  unfold repository.selectReviewers
  simp only [List.mem_map, List.mem_filter, beq_iff_eq, not_exists, not_and, and_imp]
  constructor
  · intro h0 row hrow hid hold
    have hall := hiff.1 (by omega)
    have := hall row hrow
    simp [hid, hold] at this
  · intro hno
    have hall : ∀ a ∈ st.pull_request_reviewers,
        (!(a.pull_request_id == prID && a.user_id == oldUserID)) = true := by
      intro a ha
      by_cases h1 : a.pull_request_id = prID
      · have := hno a ha h1
        simp [h1, this]
      · simp [h1]
    have := hiff.2 hall
    omega

/-- The three outcomes of `Repository.ReassignReviewer`. -/
theorem repo_ReassignReviewer_cases (db : Schema) (st : Store) (prID oldUserID newUserID : String) :
    (oldUserID ∉ repository.selectReviewers st prID
        ∧ repository.ReassignReviewer db st prID oldUserID newUserID
          = (.error (GoError.Errorf "reviewer not found in PR"), st))
      ∨ (oldUserID ∈ repository.selectReviewers st prID
        ∧ ∃ msg, repository.ReassignReviewer db st prID oldUserID newUserID
          = (.error (GoError.driver msg), st))
      ∨ (oldUserID ∈ repository.selectReviewers st prID
        ∧ repository.ReassignReviewer db st prID oldUserID newUserID
          = (.ok (), { st with pull_request_reviewers :=
              (st.pull_request_reviewers.filter
                (fun row => !(row.pull_request_id == prID && row.user_id == oldUserID))
              ++ [{ pull_request_id := prID, user_id := newUserID }]) })) := by
  by_cases h0 : oldUserID ∈ repository.selectReviewers st prID
  · have hz := (rowsAffected_eq_zero_iff st prID oldUserID).not.2 (not_not.2 h0)
    cases hdb : db.pull_request_reviewers
        { st with pull_request_reviewers := (st.pull_request_reviewers.filter
            (fun row => !(row.pull_request_id == prID && row.user_id == oldUserID))) }
        { pull_request_id := prID, user_id := newUserID } with
    | none =>
      refine Or.inr (Or.inr ⟨h0, ?_⟩)
      unfold repository.ReassignReviewer withTx repository.insertReviewer
      simp only [hz, if_false, Bool.false_eq_true, hdb]
    | some msg =>
      refine Or.inr (Or.inl ⟨h0, msg, ?_⟩)
      unfold repository.ReassignReviewer withTx repository.insertReviewer
      simp only [hz, if_false, Bool.false_eq_true, hdb]
  · have hz := (rowsAffected_eq_zero_iff st prID oldUserID).2 h0
    refine Or.inl ⟨h0, ?_⟩
    unfold repository.ReassignReviewer withTx
    simp only [hz, if_true]

theorem GetPR_of_same_pull_requests {db : Schema} (st st' : Store) (prID : String) (pr0 : PullRequest)
    (hsame : st'.pull_requests = st.pull_requests)
    (hpr : repository.GetPR db st prID = .ok pr0) :
    repository.GetPR db st' prID
      = .ok { pr0 with AssignedReviewers := repository.selectReviewers st' prID } := by
  obtain ⟨row, hrow, _, hpr0⟩ := GetPR_ok_row st prID pr0 hpr
  rw [GetPR_accepted st' prID (GetPR_ok_accepted st prID pr0 hpr), hsame, hrow, hpr0]

theorem GetPR_with_reviewers {db : Schema} (st : Store) (rows : List ReviewerRow) (prID : String)
    (pr0 : PullRequest) (hpr : repository.GetPR db st prID = .ok pr0) :
    repository.GetPR db { st with pull_request_reviewers := rows } prID
      = .ok { pr0 with AssignedReviewers :=
          repository.selectReviewers { st with pull_request_reviewers := rows } prID } :=
  GetPR_of_same_pull_requests st _ prID pr0 rfl hpr

/-- Once the checks have passed and the filtered pool is not empty, `ReassignReviewer`
picks a member of the pool; the call fails only when the schema rejects the new
reviewer row, and otherwise it returns the refreshed PR and the picked id. -/
theorem ReassignReviewer_of_candidates (db : Schema) (st : Store) (rnd : Source)
    (req : ReassignRequest) (pr0 : PullRequest) (oldReviewer : User) (candidates : List User)
    (hpr : repository.GetPR db st req.PullRequestID = .ok pr0)
    (hm : pr0.Status ≠ StatusMerged)
    (ha : req.OldUserID ∈ repository.selectReviewers st req.PullRequestID)
    (hu : repository.GetUser db st req.OldUserID = .ok oldReviewer)
    (hc : repository.GetActiveTeamMembers st oldReviewer.TeamName "" = .ok candidates)
    (hf : service.filterCandidates
        (service.excludeMap req.OldUserID pr0.AuthorID pr0.AssignedReviewers) candidates ≠ []) :
    ∃ newReviewer ∈ service.filterCandidates
        (service.excludeMap req.OldUserID pr0.AuthorID pr0.AssignedReviewers) candidates,
      (∃ msg, service.ReassignReviewer db st rnd req = (.error (GoError.driver msg), st))
        ∨ ∃ st', st' = { st with pull_request_reviewers :=
              (st.pull_request_reviewers.filter (fun row =>
                  !(row.pull_request_id == req.PullRequestID && row.user_id == req.OldUserID))
                ++ [{ pull_request_id := req.PullRequestID, user_id := newReviewer.UserID }]) }
            ∧ service.ReassignReviewer db st rnd req
              = (.ok ({ pr0 with AssignedReviewers :=
                    repository.selectReviewers st' req.PullRequestID },
                  newReviewer.UserID), st') := by
  have hlen : ¬ (service.filterCandidates
      (service.excludeMap req.OldUserID pr0.AuthorID pr0.AssignedReviewers) candidates).length
      = 0 := fun h0 => hf (List.length_eq_zero.1 h0)
  refine ⟨(service.filterCandidates
      (service.excludeMap req.OldUserID pr0.AuthorID pr0.AssignedReviewers) candidates).get
      ⟨Intn rnd 0 _, Nat.mod_lt _ (Nat.pos_of_ne_zero hlen)⟩, List.get_mem _ _ _, ?_⟩
  have hunf : service.ReassignReviewer db st rnd req
      = match repository.ReassignReviewer db st req.PullRequestID req.OldUserID
          ((service.filterCandidates
            (service.excludeMap req.OldUserID pr0.AuthorID pr0.AssignedReviewers) candidates).get
            ⟨Intn rnd 0 _, Nat.mod_lt _ (Nat.pos_of_ne_zero hlen)⟩).UserID with
        | (.error err, st') => (.error err, st')
        | (.ok _, st') =>
          match repository.GetPR db st' req.PullRequestID with
          | .error err => (.error err, st')
          | .ok updatedPR =>
            (.ok (updatedPR, ((service.filterCandidates
              (service.excludeMap req.OldUserID pr0.AuthorID pr0.AssignedReviewers)
              candidates).get
              ⟨Intn rnd 0 _, Nat.mod_lt _ (Nat.pos_of_ne_zero hlen)⟩).UserID), st') := by
    unfold service.ReassignReviewer
    rw [hpr, IsReviewerAssigned_eq st _ _ (GetPR_ok_accepted st _ pr0 hpr)
      (GetUser_ok_accepted st _ oldReviewer hu), hu]
    simp [hm, ha, hc, hlen]
  rcases repo_ReassignReviewer_cases db st req.PullRequestID req.OldUserID
      ((service.filterCandidates
        (service.excludeMap req.OldUserID pr0.AuthorID pr0.AssignedReviewers) candidates).get
        ⟨Intn rnd 0 _, Nat.mod_lt _ (Nat.pos_of_ne_zero hlen)⟩).UserID with
    ⟨hno, _⟩ | ⟨_, msg, hmsg⟩ | ⟨_, hok⟩
  · exact absurd ha hno
  · left
    exact ⟨msg, by rw [hunf, hmsg]⟩
  · right
    refine ⟨_, rfl, ?_⟩
    rw [hunf, hok]
    simp only
    rw [GetPR_with_reviewers st _ req.PullRequestID pr0 hpr]

/-- With the PR open, the old user assigned and existing: `ReassignReviewer` fails with
the no-candidate error exactly when every member of the specification's pool has the
empty string as id, and then the store is unchanged. -/
theorem ReassignReviewer_noCandidate_iff (db : Schema) (st : Store) (rnd : Source)
    (req : ReassignRequest) (pr0 : PullRequest) (oldReviewer : User)
    (hpr : repository.GetPR db st req.PullRequestID = .ok pr0)
    (hopen : pr0.Status = StatusOpen)
    (ha : req.OldUserID ∈ pr0.AssignedReviewers)
    (hu : repository.GetUser db st req.OldUserID = .ok oldReviewer) :
    ((service.ReassignReviewer db st rnd req).1
        = .error (GoError.Errorf
            (ErrCodeNoCandidate ++ ": no active replacement candidate in team"))
      ↔ ∀ u ∈ specCandidatePool st pr0 oldReviewer, u.UserID = "")
      ∧ ((service.ReassignReviewer db st rnd req).1
          = .error (GoError.Errorf
              (ErrCodeNoCandidate ++ ": no active replacement candidate in team"))
        → (service.ReassignReviewer db st rnd req).2 = st) := by
  have hm : pr0.Status ≠ StatusMerged := by
    rw [hopen]
    decide
  have ha2 : req.OldUserID ∈ repository.selectReviewers st req.PullRequestID :=
    GetPR_ok_reviewers st _ pr0 hpr ▸ ha
  have hid := GetUser_ok_id st _ _ hu
  have hc := GetActiveTeamMembers_ok st oldReviewer.TeamName ""
  have hmemf := fun u => mem_filtered_iff st pr0 oldReviewer u _ hc
  rw [hid] at hmemf
  by_cases hf : service.filterCandidates
      (service.excludeMap req.OldUserID pr0.AuthorID pr0.AssignedReviewers)
      (st.users.filter (fun u =>
          u.TeamName == oldReviewer.TeamName && u.IsActive == true && u.UserID != "")) = []
  · have hres := ReassignReviewer_of_noCandidate db st rnd req pr0 oldReviewer _ hpr hm ha2 hu
      hc hf
    rw [hres]
    refine ⟨⟨fun _ u hu2 => ?_, fun _ => rfl⟩, fun _ => rfl⟩
    by_contra hne
    have := (hmemf u).2 ⟨hu2, hne⟩
    rw [hf] at this
    simp at this
  · obtain ⟨newReviewer, hmem, hcase⟩ :=
      ReassignReviewer_of_candidates db st rnd req pr0 oldReviewer _ hpr hm ha2 hu hc hf
    have hpool := (hmemf newReviewer).1 hmem
    have hnot : ¬ ∀ u ∈ specCandidatePool st pr0 oldReviewer, u.UserID = "" :=
      fun hall => hpool.2 (hall _ hpool.1)
    rcases hcase with ⟨msg, hmsg⟩ | ⟨st', _, hok⟩
    · rw [hmsg]
      refine ⟨⟨fun h => ?_, fun h => absurd h hnot⟩, fun _ => rfl⟩
      simp at h
    · rw [hok]
      refine ⟨⟨fun h => ?_, fun h => absurd h hnot⟩, fun h => ?_⟩
      · simp at h
      · simp at h

/-- C7, at a store in which the only eligible replacement has the empty string as user
id: the PR is open, `u2` is its reviewer and an existing user, the pool of the
specification holds one user, and `ReassignReviewer` still fails with the no-candidate
error (code `NO_CANDIDATE`), leaving the store as it was, for every random source and
every schema that accepts the ids `pr1` and `u2` as parameters.  `GetActiveTeamMembers` is
called with `""` for "exclude nobody", and its query `user_id != $2` then drops the
user whose id is `""`. -/
theorem ReassignReviewer_emptyId_noCandidate :
    repository.GetPR sample.anySchema sample.store3 "pr1" = .ok sample.pr3
      ∧ sample.pr3.Status = StatusOpen
      ∧ "u2" ∈ sample.pr3.AssignedReviewers
      ∧ repository.GetUser sample.anySchema sample.store3 "u2" = .ok (sample.mkUser "u2" true)
      ∧ specCandidatePool sample.store3 sample.pr3 (sample.mkUser "u2" true)
          = [sample.mkUser "" true]
      ∧ (∀ (db : Schema) (rnd : Source),
          db.parameter "pr1" = none → db.parameter "u2" = none →
          service.ReassignReviewer db sample.store3 rnd ⟨"pr1", "u2"⟩
            = (.error (GoError.Errorf
                (ErrCodeNoCandidate ++ ": no active replacement candidate in team")),
              sample.store3))
      ∧ (∀ rnd : Source,
          service.ReassignReviewer sample.anySchema sample.store3 rnd ⟨"pr1", "u2"⟩
            = (.error (GoError.Errorf
                (ErrCodeNoCandidate ++ ": no active replacement candidate in team")),
              sample.store3))
      ∧ handlers.parseErrorCode (GoError.Errorf
          (ErrCodeNoCandidate ++ ": no active replacement candidate in team"))
          = ErrCodeNoCandidate := by
  refine ⟨rfl, rfl, by decide, rfl, by decide, ?_, fun _ => rfl, by decide⟩
  intro db rnd hp hu
  have hpr : repository.GetPR db sample.store3 "pr1" = .ok sample.pr3 := by
    rw [GetPR_accepted _ _ hp]
    rfl
  have hus : repository.GetUser db sample.store3 "u2" = .ok (sample.mkUser "u2" true) := by
    rw [GetUser_accepted _ _ hu]
    rfl
  exact ReassignReviewer_of_noCandidate db sample.store3 rnd ⟨"pr1", "u2"⟩ sample.pr3
    (sample.mkUser "u2" true) _ hpr (by decide) (by decide) hus rfl rfl

/-! ## Reassignment: the effect of a successful call -/

theorem selectReviewers_after_delete (rows : List ReviewerRow) (prID oldUserID p : String) :
    ((rows.filter (fun row => !(row.pull_request_id == prID && row.user_id == oldUserID))).filter
        (fun row => row.pull_request_id == p)).map (fun row => row.user_id)
      = if p = prID then
          ((rows.filter (fun row => row.pull_request_id == p)).map
            (fun row => row.user_id)).filter (fun x => x != oldUserID)
        else (rows.filter (fun row => row.pull_request_id == p)).map (fun row => row.user_id) := by
  by_cases hp : p = prID
  · simp only [hp, if_true, List.filter_filter, List.filter_map]
    congr 1
    apply List.filter_congr
    intro a _
    rw [Bool.eq_iff_iff]
    simp only [Function.comp, Bool.and_eq_true, beq_iff_eq, bne_iff_ne, ne_eq,
      Bool.not_eq_true', Bool.and_eq_false_iff, beq_eq_false_iff_ne]
    tauto
  · simp only [hp, if_false, List.filter_filter]
    congr 1
    apply List.filter_congr
    intro a _
    by_cases h1 : a.pull_request_id = p
    · have h3 : ¬ a.pull_request_id = prID := fun e => hp (h1 ▸ e)
      simp [h1, h3, hp]
    · simp [h1]

theorem selectReviewers_after_reassign (st : Store) (prID oldUserID newUserID p : String) :
    repository.selectReviewers
        { st with pull_request_reviewers :=
            (st.pull_request_reviewers.filter
              (fun row => !(row.pull_request_id == prID && row.user_id == oldUserID))
            ++ [{ pull_request_id := prID, user_id := newUserID }]) } p
      = if p = prID then
          (repository.selectReviewers st p).filter (fun x => x != oldUserID) ++ [newUserID]
        else repository.selectReviewers st p := by
  unfold repository.selectReviewers
  simp only [List.filter_append, List.map_append, selectReviewers_after_delete]
  by_cases hp : p = prID
  · simp [hp]
  · have hp2 : ¬ prID = p := fun e => hp e.symm
    simp [hp, hp2, List.filter_cons]

theorem card_after_replace (R : List String) (oldUserID n : String)
    (hold : oldUserID ∈ R) (hn : n ∉ R) :
    (R.filter (fun x => x != oldUserID) ++ [n]).toFinset.card = R.toFinset.card := by
  have hset : (R.filter (fun x => x != oldUserID) ++ [n]).toFinset
      = insert n (R.toFinset.erase oldUserID) := by
    ext x
    simp only [List.mem_toFinset, List.mem_append, List.mem_filter, bne_iff_ne, ne_eq,
      List.mem_singleton, Finset.mem_insert, Finset.mem_erase]
    tauto
  have hnot : n ∉ R.toFinset.erase oldUserID := by
    simp only [Finset.mem_erase, List.mem_toFinset, not_and]
    exact fun _ => hn
  rw [hset, Finset.card_insert_of_not_mem hnot,
    Finset.card_erase_of_mem (List.mem_toFinset.2 hold)]
  have hpos : 0 < R.toFinset.card := Finset.card_pos.2 ⟨oldUserID, List.mem_toFinset.2 hold⟩
  omega

/-- C8: when `ReassignReviewer` succeeds with the PR `pr` and the replacement `n`, the
stored reviewers of the PR are the former ones without the old reviewer, with `n`
added (as many as before); the returned PR lists exactly these, so it contains `n`
and not the old reviewer; the reviewers of every other PR are as before, and so are
the status, author, name and timestamps of this PR (the tables of teams, users and
pull requests are untouched). -/
theorem ReassignReviewer_success_effect (db : Schema) (st st' : Store) (rnd : Source)
    (req : ReassignRequest) (pr : PullRequest) (n : String)
    (h : service.ReassignReviewer db st rnd req = (.ok (pr, n), st')) :
    ∃ pr0, repository.GetPR db st req.PullRequestID = .ok pr0
      ∧ req.OldUserID ∈ repository.selectReviewers st req.PullRequestID
      ∧ n ∉ repository.selectReviewers st req.PullRequestID
      ∧ repository.selectReviewers st' req.PullRequestID
          = (repository.selectReviewers st req.PullRequestID).filter
              (fun x => x != req.OldUserID) ++ [n]
      ∧ (∀ x, x ∈ repository.selectReviewers st' req.PullRequestID
          ↔ (x ∈ repository.selectReviewers st req.PullRequestID ∧ x ≠ req.OldUserID) ∨ x = n)
      ∧ (repository.selectReviewers st' req.PullRequestID).toFinset.card
          = (repository.selectReviewers st req.PullRequestID).toFinset.card
      ∧ ((repository.selectReviewers st req.PullRequestID).Nodup →
          (repository.selectReviewers st' req.PullRequestID).Nodup
            ∧ (repository.selectReviewers st' req.PullRequestID).length
              = (repository.selectReviewers st req.PullRequestID).length)
      ∧ pr.AssignedReviewers = repository.selectReviewers st' req.PullRequestID
      ∧ n ∈ pr.AssignedReviewers
      ∧ req.OldUserID ∉ pr.AssignedReviewers
      ∧ (∀ p, p ≠ req.PullRequestID →
          repository.selectReviewers st' p = repository.selectReviewers st p)
      ∧ pr.PullRequestID = pr0.PullRequestID
      ∧ pr.Status = pr0.Status
      ∧ pr.AuthorID = pr0.AuthorID
      ∧ pr.PullRequestName = pr0.PullRequestName
      ∧ pr.CreatedAt = pr0.CreatedAt
      ∧ pr.MergedAt = pr0.MergedAt
      ∧ st'.pull_requests = st.pull_requests
      ∧ st'.users = st.users
      ∧ st'.teams = st.teams := by
  obtain ⟨pr0, oldReviewer, candidates, newReviewer, hpr, _, hassigned, _, _, hmem, hn, hrepo,
    hupd⟩ := ReassignReviewer_ok_inv db st st' rnd req pr n h
  rw [mem_filterCandidates] at hmem
  obtain ⟨_, hne, _, hnotin⟩ := hmem
  rw [hn] at hne hnotin
  rw [GetPR_ok_reviewers st _ pr0 hpr] at hnotin
  have hst : st' = { st with pull_request_reviewers :=
      (st.pull_request_reviewers.filter (fun row =>
          !(row.pull_request_id == req.PullRequestID && row.user_id == req.OldUserID))
        ++ [{ pull_request_id := req.PullRequestID, user_id := n }]) } := by
    rcases repo_ReassignReviewer_cases db st req.PullRequestID req.OldUserID n with
      ⟨_, he⟩ | ⟨_, msg, he⟩ | ⟨_, hok⟩
    · rw [he] at hrepo
      simp at hrepo
    · rw [he] at hrepo
      simp at hrepo
    · rw [hok] at hrepo
      simp only [Prod.mk.injEq, true_and] at hrepo
      exact hrepo.symm
  have hold : req.OldUserID ∈ repository.selectReviewers st req.PullRequestID := by
    have hb := (IsReviewerAssigned_ok st _ _ true hassigned).2.2
    simpa using hb.symm
  have hsel : ∀ p, repository.selectReviewers st' p
      = if p = req.PullRequestID then
          (repository.selectReviewers st p).filter (fun x => x != req.OldUserID) ++ [n]
        else repository.selectReviewers st p := by
    intro p
    rw [hst]
    exact selectReviewers_after_reassign st _ _ _ p
  have hsel0 := hsel req.PullRequestID
  simp only [if_true] at hsel0
  have hprEq : pr = { pr0 with AssignedReviewers :=
      repository.selectReviewers st' req.PullRequestID } := by
    have h2 := GetPR_of_same_pull_requests st st' req.PullRequestID pr0 (by rw [hst]) hpr
    rw [hupd] at h2
    simpa using h2
  have hmemiff : ∀ x, x ∈ repository.selectReviewers st' req.PullRequestID
      ↔ (x ∈ repository.selectReviewers st req.PullRequestID ∧ x ≠ req.OldUserID) ∨ x = n := by
    intro x
    rw [hsel0]
    simp only [List.mem_append, List.mem_filter, bne_iff_ne, ne_eq, List.mem_singleton]
  have hcard := card_after_replace _ req.OldUserID n hold hnotin
  rw [← hsel0] at hcard
  refine ⟨pr0, hpr, hold, hnotin, hsel0, hmemiff, hcard, ?_, ?_, ?_, ?_, ?_, ?_, ?_, ?_, ?_, ?_,
    ?_, ?_, ?_, ?_⟩
  · intro hnd
    have hnd2 : (repository.selectReviewers st' req.PullRequestID).Nodup := by
      rw [hsel0]
      refine List.Nodup.append (hnd.filter _) (List.nodup_singleton n) ?_
      intro x hx1 hx2
      rw [List.mem_singleton] at hx2
      subst hx2
      exact hnotin (List.mem_filter.1 hx1).1
    refine ⟨hnd2, ?_⟩
    rw [← List.toFinset_card_of_nodup hnd2, ← List.toFinset_card_of_nodup hnd]
    exact hcard
  · rw [hprEq]
  · rw [hprEq]
    exact (hmemiff n).2 (Or.inr rfl)
  · rw [hprEq]
    intro hin
    rcases (hmemiff _).1 hin with ⟨_, hx⟩ | hx
    · exact hx rfl
    · exact hne hx.symm
  · intro p hp
    rw [hsel p]
    simp [hp]
  · rw [hprEq]
  · rw [hprEq]
  · rw [hprEq]
  · rw [hprEq]
  · rw [hprEq]
  · rw [hprEq]
  · rw [hst]
  · rw [hst]
  · rw [hst]

theorem ReassignReviewer_success_effect_witness :
    service.ReassignReviewer sample.anySchema sample.store1 (fun _ => 1) ⟨"pr1", "u2"⟩
        = (.ok (sample.pr1After, "u5"), sample.store1After)
      ∧ repository.selectReviewers sample.store1 "pr1" = ["u2", "u3"]
      ∧ repository.selectReviewers sample.store1After "pr1" = ["u3", "u5"]
      ∧ ∃ pr0, repository.GetPR sample.anySchema sample.store1 "pr1" = .ok pr0
        ∧ "u2" ∈ repository.selectReviewers sample.store1 "pr1"
        ∧ "u5" ∉ repository.selectReviewers sample.store1 "pr1"
        ∧ repository.selectReviewers sample.store1After "pr1"
            = (repository.selectReviewers sample.store1 "pr1").filter
                (fun x => x != "u2") ++ ["u5"] :=
  ⟨by rfl, by decide, by decide,
    (ReassignReviewer_success_effect sample.anySchema sample.store1 sample.store1After
      (fun _ => 1) ⟨"pr1", "u2"⟩ sample.pr1After "u5" (by rfl)).imp
      (fun _ hp => ⟨hp.1, hp.2.1, hp.2.2.1, hp.2.2.2.1⟩)⟩

/-! ## Merge -/

/-- After `UPDATE pull_requests SET status = $1, merged_at = $2 WHERE pull_request_id = $3`
the first row with the id is the first such row from before, merged. -/
theorem find_merged_rows (rows : List PullRequestRow) (now : Nat) (prID : String) :
    (rows.map (fun row =>
        if row.pull_request_id == prID then
          { row with status := StatusMerged, merged_at := some now }
        else row)).find? (fun row => row.pull_request_id == prID)
      = (rows.find? (fun row => row.pull_request_id == prID)).map
          (fun row => { row with status := StatusMerged, merged_at := some now }) := by
  induction rows with
  | nil => rfl
  | cons r rs ih =>
    by_cases h : r.pull_request_id = prID
    · simp [List.find?_cons, h]
    · simp only [List.map_cons, List.find?_cons]
      have hb : (r.pull_request_id == prID) = false := by simpa using h
      simp only [hb, Bool.false_eq_true, if_false]
      exact ih

theorem repo_MergePR_of_exists {db : Schema} (st : Store) (now : Nat) (prID : String) (pr0 : PullRequest)
    (hpr : repository.GetPR db st prID = .ok pr0) :
    repository.MergePR st now prID
      = (.ok { pr0 with Status := StatusMerged, MergedAt := some now },
          { st with pull_requests := st.pull_requests.map (fun row =>
              if row.pull_request_id == prID then
                { row with status := StatusMerged, merged_at := some now }
              else row) }) := by
  obtain ⟨row, hrow, _, hpr0⟩ := GetPR_ok_row st prID pr0 hpr
  unfold repository.MergePR
  simp only [find_merged_rows, hrow, Option.map_some', hpr0]
  rfl

theorem MergePR_of_merged {db : Schema} (st : Store) (now : Nat) (req : MergePRRequest) (pr0 : PullRequest)
    (hpr : repository.GetPR db st req.PullRequestID = .ok pr0)
    (hm : pr0.Status = StatusMerged) :
    service.MergePR db st now req = (.ok pr0, st) := by
  unfold service.MergePR
  rw [hpr]
  simp [hm]

theorem MergePR_of_not_merged {db : Schema} (st : Store) (now : Nat) (req : MergePRRequest)
    (pr0 : PullRequest)
    (hpr : repository.GetPR db st req.PullRequestID = .ok pr0)
    (hm : pr0.Status ≠ StatusMerged) :
    service.MergePR db st now req
      = (.ok { pr0 with Status := StatusMerged, MergedAt := some now },
          { st with pull_requests := st.pull_requests.map (fun row =>
              if row.pull_request_id == req.PullRequestID then
                { row with status := StatusMerged, merged_at := some now }
              else row) }) := by
  unfold service.MergePR
  rw [hpr]
  have hb : (pr0.Status == StatusMerged) = false := by simpa using hm
  simp only [hb, Bool.false_eq_true, if_false]
  exact repo_MergePR_of_exists st now req.PullRequestID pr0 hpr

/-- After the `UPDATE` of `Repository.MergePR`, `GetPR` reads the merged PR. -/
theorem GetPR_after_merge {db : Schema} (st : Store) (now : Nat) (prID : String) (pr0 : PullRequest)
    (hpr : repository.GetPR db st prID = .ok pr0) :
    repository.GetPR db
        { st with pull_requests := st.pull_requests.map (fun row =>
            if row.pull_request_id == prID then
              { row with status := StatusMerged, merged_at := some now }
            else row) } prID
      = .ok { pr0 with Status := StatusMerged, MergedAt := some now } := by
  obtain ⟨row, hrow, _, hpr0⟩ := GetPR_ok_row st prID pr0 hpr
  rw [GetPR_accepted _ prID (GetPR_ok_accepted st prID pr0 hpr)]
  simp only [find_merged_rows, hrow, Option.map_some', hpr0]
  rfl

/-- C9, as stated, fails on a PR that is already merged: `pr2` was merged at time `5`;
`MergePR` at time `10` and again at time `20` succeeds both times, but the PR returned
does not carry the merge timestamp `10` of the first call. -/
theorem MergePR_twice_timestamp_counterexample :
    (∃ pr0, repository.GetPR sample.anySchema sample.store2 "pr2" = .ok pr0)
      ∧ (service.MergePR sample.anySchema sample.store2 10 ⟨"pr2"⟩).1 = .ok sample.pr2
      ∧ (service.MergePR sample.anySchema (service.MergePR sample.anySchema sample.store2 10 ⟨"pr2"⟩).2 20 ⟨"pr2"⟩).1
          = .ok sample.pr2
      ∧ sample.pr2.MergedAt = some 5
      ∧ ¬ (∃ pr, (service.MergePR sample.anySchema sample.store2 10 ⟨"pr2"⟩).1 = .ok pr
            ∧ (service.MergePR sample.anySchema (service.MergePR sample.anySchema sample.store2 10 ⟨"pr2"⟩).2 20 ⟨"pr2"⟩).1
                = .ok pr
            ∧ pr.Status = StatusMerged
            ∧ pr.MergedAt = some 10) := by
  refine ⟨⟨sample.pr2, rfl⟩, rfl, rfl, rfl, ?_⟩
  rintro ⟨pr, h1, _, _, h4⟩
  have hpr : pr = sample.pr2 := by
    have h := h1.symm.trans (show (service.MergePR sample.anySchema sample.store2 10 ⟨"pr2"⟩).1
      = .ok sample.pr2 from rfl)
    simpa using h
  rw [hpr] at h4
  exact absurd h4 (by decide)

/-- C9, amended: when the PR exists, `MergePR` at time `t1` and again at time `t2`
succeeds both times, the second call returns the same PR as the first, with status
`MERGED` and the reviewers, id, name, author and creation timestamp the PR had, and
the second call leaves the store unchanged.  The merge timestamp is `t1` when the PR
was not merged before the first call; when it was, the first call too returns the PR
and the store as they were, with the merge timestamp already stored. -/
theorem MergePR_idempotent (db : Schema) (st : Store) (t1 t2 : Nat) (req : MergePRRequest)
    (pr0 : PullRequest)
    (hpr : repository.GetPR db st req.PullRequestID = .ok pr0) :
    ∃ pr st1, service.MergePR db st t1 req = (.ok pr, st1)
      ∧ service.MergePR db st1 t2 req = (.ok pr, st1)
      ∧ pr.Status = StatusMerged
      ∧ pr.AssignedReviewers = pr0.AssignedReviewers
      ∧ pr.PullRequestID = pr0.PullRequestID
      ∧ pr.PullRequestName = pr0.PullRequestName
      ∧ pr.AuthorID = pr0.AuthorID
      ∧ pr.CreatedAt = pr0.CreatedAt
      ∧ (pr0.Status ≠ StatusMerged → pr.MergedAt = some t1)
      ∧ (pr0.Status = StatusMerged → pr = pr0 ∧ st1 = st) := by
  by_cases hm : pr0.Status = StatusMerged
  · refine ⟨pr0, st, MergePR_of_merged st t1 req pr0 hpr hm,
      MergePR_of_merged st t2 req pr0 hpr hm, hm, rfl, rfl, rfl, rfl, rfl,
      fun h => absurd hm h, fun _ => ⟨rfl, rfl⟩⟩
  · refine ⟨_, _, MergePR_of_not_merged st t1 req pr0 hpr hm, ?_, rfl, rfl, rfl, rfl, rfl, rfl,
      fun _ => rfl, fun h => absurd h hm⟩
    exact MergePR_of_merged _ t2 req _ (GetPR_after_merge st t1 req.PullRequestID pr0 hpr) rfl

theorem MergePR_idempotent_witness :
    repository.GetPR sample.anySchema sample.store1 "pr1" = .ok sample.pr1
      ∧ ∃ pr st1, service.MergePR sample.anySchema sample.store1 10 ⟨"pr1"⟩ = (.ok pr, st1)
        ∧ service.MergePR sample.anySchema st1 20 ⟨"pr1"⟩ = (.ok pr, st1)
        ∧ pr.Status = StatusMerged
        ∧ pr.AssignedReviewers = sample.pr1.AssignedReviewers
        ∧ pr.PullRequestID = sample.pr1.PullRequestID
        ∧ pr.PullRequestName = sample.pr1.PullRequestName
        ∧ pr.AuthorID = sample.pr1.AuthorID
        ∧ pr.CreatedAt = sample.pr1.CreatedAt
        ∧ (sample.pr1.Status ≠ StatusMerged → pr.MergedAt = some 10)
        ∧ (sample.pr1.Status = StatusMerged → pr = sample.pr1 ∧ st1 = sample.store1) :=
  ⟨rfl, MergePR_idempotent sample.anySchema sample.store1 10 20 ⟨"pr1"⟩ sample.pr1 rfl⟩

/-- C10: when the PR exists and is open, `MergePR` at time `now` returns it with status
`MERGED` and merge timestamp `now`, with the id, name, author, creation timestamp and
reviewers it had; afterwards the tables of teams, users and reviewer assignments are
as before, and the table of pull requests differs only in the status and the merge
timestamp of this PR, which `GetPR` now reads as returned. -/
theorem MergePR_open (db : Schema) (st : Store) (now : Nat) (req : MergePRRequest) (pr0 : PullRequest)
    (hpr : repository.GetPR db st req.PullRequestID = .ok pr0)
    (hopen : pr0.Status = StatusOpen) :
    ∃ pr st', service.MergePR db st now req = (.ok pr, st')
      ∧ pr.Status = StatusMerged
      ∧ pr.MergedAt = some now
      ∧ pr.PullRequestID = req.PullRequestID
      ∧ pr.PullRequestID = pr0.PullRequestID
      ∧ pr.PullRequestName = pr0.PullRequestName
      ∧ pr.AuthorID = pr0.AuthorID
      ∧ pr.CreatedAt = pr0.CreatedAt
      ∧ pr.AssignedReviewers = pr0.AssignedReviewers
      ∧ st'.teams = st.teams
      ∧ st'.users = st.users
      ∧ st'.pull_request_reviewers = st.pull_request_reviewers
      ∧ List.Forall₂
          (fun row row' =>
            row'.pull_request_id = row.pull_request_id
              ∧ row'.pull_request_name = row.pull_request_name
              ∧ row'.author_id = row.author_id
              ∧ row'.created_at = row.created_at
              ∧ (row.pull_request_id ≠ req.PullRequestID → row' = row)
              ∧ (row.pull_request_id = req.PullRequestID →
                  row'.status = StatusMerged ∧ row'.merged_at = some now))
          st.pull_requests st'.pull_requests
      ∧ repository.GetPR db st' req.PullRequestID = .ok pr := by
  have hm : pr0.Status ≠ StatusMerged := by
    rw [hopen]
    decide
  obtain ⟨row, _, hid, hpr0⟩ := GetPR_ok_row st req.PullRequestID pr0 hpr
  refine ⟨_, _, MergePR_of_not_merged st now req pr0 hpr hm, rfl, rfl, ?_, rfl, rfl, rfl, rfl,
    rfl, rfl, rfl, rfl, ?_, GetPR_after_merge st now req.PullRequestID pr0 hpr⟩
  · rw [hpr0]
    exact hid
  · rw [List.forall₂_map_right_iff, List.forall₂_same]
    intro r _
    by_cases h : r.pull_request_id = req.PullRequestID
    · simp [h]
    · simp [h]

theorem MergePR_open_witness :
    repository.GetPR sample.anySchema sample.store1 "pr1" = .ok sample.pr1
      ∧ sample.pr1.Status = StatusOpen
      ∧ service.MergePR sample.anySchema sample.store1 10 ⟨"pr1"⟩ = (.ok sample.pr1Merged, sample.store1Merged)
      ∧ ∃ pr st', service.MergePR sample.anySchema sample.store1 10 ⟨"pr1"⟩ = (.ok pr, st')
        ∧ pr.Status = StatusMerged
        ∧ pr.MergedAt = some 10 :=
  ⟨rfl, rfl, by rfl,
    (MergePR_open sample.anySchema sample.store1 10 ⟨"pr1"⟩ sample.pr1 rfl rfl).imp
      (fun _ hp => hp.imp (fun _ hq => ⟨hq.1, hq.2.1, hq.2.2.1⟩))⟩

/-! ## Merge: the missing PR -/

theorem GetPR_ok_of_exists {db : Schema} (st : Store) (prID : String)
    (hacc : db.parameter prID = none)
    (h : ∃ row ∈ st.pull_requests, row.pull_request_id = prID) :
    ∃ pr, repository.GetPR db st prID = .ok pr := by
  rw [GetPR_accepted st prID hacc]
  cases hf : st.pull_requests.find? (fun row => row.pull_request_id == prID) with
  | none =>
    rw [List.find?_eq_none] at hf
    obtain ⟨row, hrow, hid⟩ := h
    have := hf row hrow
    simp [hid] at this
  | some row => exact ⟨_, rfl⟩

theorem MergePR_of_noPR {db : Schema} (st : Store) (now : Nat) (req : MergePRRequest)
    (hacc : db.parameter req.PullRequestID = none)
    (h : ∀ row ∈ st.pull_requests, row.pull_request_id ≠ req.PullRequestID) :
    service.MergePR db st now req
      = (.error (GoError.Wrap (ErrCodeNotFound ++ ": ") GoError.ErrNotFound), st) := by
  unfold service.MergePR
  rw [GetPR_notFound st _ hacc h]
  rfl

/-- A PR id the database refuses makes `MergePR` return the driver's error as it is,
with the store as it was. -/
theorem MergePR_of_refused {db : Schema} (st : Store) (now : Nat) (req : MergePRRequest)
    (msg : String) (h : db.parameter req.PullRequestID = some msg) :
    service.MergePR db st now req = (.error (GoError.driver msg), st) := by
  unfold service.MergePR
  rw [GetPR_refused st _ msg h]
  rfl

/-- After `MergePR` on a PR that exists the call has succeeded. -/
theorem MergePR_ok_of_exists {db : Schema} (st : Store) (now : Nat) (req : MergePRRequest)
    (hacc : db.parameter req.PullRequestID = none)
    (h : ∃ row ∈ st.pull_requests, row.pull_request_id = req.PullRequestID) :
    ∃ pr st', service.MergePR db st now req = (.ok pr, st') := by
  obtain ⟨pr0, hpr⟩ := GetPR_ok_of_exists st _ hacc h
  by_cases hm : pr0.Status = StatusMerged
  · exact ⟨_, _, MergePR_of_merged st now req pr0 hpr hm⟩
  · exact ⟨_, _, MergePR_of_not_merged st now req pr0 hpr hm⟩

/-- C11, as stated, fails on a PR id the database refuses: no PR of `store1` has the id
`nulId`, which holds U+0000, and `MergePR` fails with the driver's error, whose code
is `INTERNAL_ERROR`, not with an error of code `NOT_FOUND`. -/
theorem MergePR_notFound_counterexample :
    (∀ row ∈ sample.store1.pull_requests, row.pull_request_id ≠ sample.nulId)
      ∧ service.MergePR sample.nulSchema sample.store1 10 ⟨sample.nulId⟩
        = (.error (GoError.driver "invalid byte sequence for encoding UTF8: 0x00"),
            sample.store1)
      ∧ handlers.parseErrorCode (GoError.driver "invalid byte sequence for encoding UTF8: 0x00")
          = "INTERNAL_ERROR"
      ∧ ¬ (∃ err, (service.MergePR sample.nulSchema sample.store1 10 ⟨sample.nulId⟩).1
            = .error err
          ∧ handlers.parseErrorCode err = ErrCodeNotFound) := by
  have hres : service.MergePR sample.nulSchema sample.store1 10 ⟨sample.nulId⟩
      = (.error (GoError.driver "invalid byte sequence for encoding UTF8: 0x00"),
          sample.store1) := by rfl
  refine ⟨by decide, hres, by decide, ?_⟩
  rintro ⟨err, herr, hcode⟩
  rw [hres] at herr
  simp only [Except.error.injEq] at herr
  rw [← herr] at hcode
  exact absurd hcode (by decide)

/-- C11, amended: when the database accepts the id as a query parameter, `MergePR` fails
with an error whose code is `NOT_FOUND` exactly when no PR with the id exists in the
store (it fails then with that error and in no other case); when the database refuses
the id, `MergePR` fails with the driver's error as it is.  When no PR with the id
exists the store is unchanged, and so it is when the id is refused. -/
theorem MergePR_notFound_iff (db : Schema) (st : Store) (now : Nat) (req : MergePRRequest) :
    (db.parameter req.PullRequestID = none →
        ((∃ err, (service.MergePR db st now req).1 = .error err
              ∧ handlers.parseErrorCode err = ErrCodeNotFound)
            ↔ ∀ row ∈ st.pull_requests, row.pull_request_id ≠ req.PullRequestID)
          ∧ ((∃ err, (service.MergePR db st now req).1 = .error err)
            ↔ ∀ row ∈ st.pull_requests, row.pull_request_id ≠ req.PullRequestID))
      ∧ (∀ msg, db.parameter req.PullRequestID = some msg →
          service.MergePR db st now req = (.error (GoError.driver msg), st))
      ∧ ((∀ row ∈ st.pull_requests, row.pull_request_id ≠ req.PullRequestID) →
          (service.MergePR db st now req).2 = st)
      ∧ ((∀ row ∈ sample.store1.pull_requests, row.pull_request_id ≠ "pr9")
          ∧ service.MergePR sample.anySchema sample.store1 now ⟨"pr9"⟩
            = (.error (GoError.Wrap (ErrCodeNotFound ++ ": ") GoError.ErrNotFound),
                sample.store1)) := by
  refine ⟨fun hacc => ?_, fun msg hmsg => MergePR_of_refused st now req msg hmsg,
    fun h => ?_, by decide, rfl⟩
  · have hsucc : (∃ err, (service.MergePR db st now req).1 = .error err) →
        ∀ row ∈ st.pull_requests, row.pull_request_id ≠ req.PullRequestID := by
      rintro ⟨err, herr⟩ row hrow hid
      obtain ⟨pr, st', hok⟩ := MergePR_ok_of_exists st now req hacc ⟨row, hrow, hid⟩
      rw [hok] at herr
      simp at herr
    refine ⟨⟨fun ⟨err, herr, _⟩ => hsucc ⟨err, herr⟩, fun h => ?_⟩, ⟨hsucc, fun h => ?_⟩⟩
    · rw [MergePR_of_noPR st now req hacc h]
      exact ⟨_, rfl, by decide⟩
    · rw [MergePR_of_noPR st now req hacc h]
      exact ⟨_, rfl⟩
  · cases hacc : db.parameter req.PullRequestID with
    | none => rw [MergePR_of_noPR st now req hacc h]
    | some msg => rw [MergePR_of_refused st now req msg hacc]

/-! ## PR creation -/

theorem GetUser_ok_of_exists {db : Schema} (st : Store) (userID : String)
    (hacc : db.parameter userID = none)
    (h : ∃ u ∈ st.users, u.UserID = userID) :
    ∃ user, repository.GetUser db st userID = .ok user := by
  rw [GetUser_accepted st userID hacc]
  cases hf : st.users.find? (fun u => u.UserID == userID) with
  | none =>
    rw [List.find?_eq_none] at hf
    obtain ⟨u, hu, hid⟩ := h
    have := hf u hu
    simp [hid] at this
  | some user => exact ⟨_, rfl⟩

theorem GetUser_ok_mem {db : Schema} (st : Store) (userID : String) (user : User)
    (h : repository.GetUser db st userID = .ok user) : user ∈ st.users :=
  List.mem_of_find?_eq_some (GetUser_ok_find st userID user h)

/-- The reviewer loop of `Repository.CreatePR` either stops at a row the schema rejects
or appends one row per reviewer, in order. -/
theorem insertReviewers_cases (db : Schema) (prID : String) (st : Store) (reviewers : List String) :
    (∃ msg, repository.insertReviewers db prID st reviewers = .error (GoError.driver msg))
      ∨ repository.insertReviewers db prID st reviewers
        = .ok { st with pull_request_reviewers :=
            (st.pull_request_reviewers
              ++ reviewers.map (fun r => { pull_request_id := prID, user_id := r })) } := by
  induction reviewers generalizing st with
  | nil =>
    right
    simp [repository.insertReviewers]
  | cons r rs ih =>
    unfold repository.insertReviewers repository.insertReviewer
    cases hdb : db.pull_request_reviewers st { pull_request_id := prID, user_id := r } with
    | some msg =>
      left
      exact ⟨msg, rfl⟩
    | none =>
      simp only
      rcases ih { st with pull_request_reviewers :=
          (st.pull_request_reviewers ++ [{ pull_request_id := prID, user_id := r }]) } with
        ⟨msg, hmsg⟩ | hok
      · left
        exact ⟨msg, hmsg⟩
      · right
        rw [hok]
        simp

theorem any_pull_request_iff (st : Store) (prID : String) :
    st.pull_requests.any (fun row => row.pull_request_id == prID) = true
      ↔ ∃ row ∈ st.pull_requests, row.pull_request_id = prID := by
  simp [List.any_eq_true]

/-- The outcomes of `Repository.CreatePR`: the id is taken; the schema rejects a row and
the transaction is rolled back; or the PR row and one row per reviewer are appended. -/
theorem repo_CreatePR_cases (db : Schema) (st : Store) (now : Nat) (pr : PullRequest)
    (reviewers : List String) :
    ((∃ row ∈ st.pull_requests, row.pull_request_id = pr.PullRequestID)
        ∧ repository.CreatePR db st now pr reviewers = (.error GoError.ErrAlreadyExists, st))
      ∨ ((∀ row ∈ st.pull_requests, row.pull_request_id ≠ pr.PullRequestID)
        ∧ ∃ msg, repository.CreatePR db st now pr reviewers = (.error (GoError.driver msg), st))
      ∨ ((∀ row ∈ st.pull_requests, row.pull_request_id ≠ pr.PullRequestID)
        ∧ db.parameter pr.PullRequestID = none
        ∧ repository.CreatePR db st now pr reviewers
          = (.ok (), { st with
              pull_requests := (st.pull_requests ++
                [{ pull_request_id := pr.PullRequestID, pull_request_name := pr.PullRequestName,
                   author_id := pr.AuthorID, status := StatusOpen, created_at := some now,
                   merged_at := none }])
              pull_request_reviewers := (st.pull_request_reviewers ++ reviewers.map
                (fun r => { pull_request_id := pr.PullRequestID, user_id := r })) })) := by
  by_cases hex : ∃ row ∈ st.pull_requests, row.pull_request_id = pr.PullRequestID
  · left
    refine ⟨hex, ?_⟩
    unfold repository.CreatePR withTx
    simp only [(any_pull_request_iff st pr.PullRequestID).2 hex, if_true]
  · right
    have hfresh : ∀ row ∈ st.pull_requests, row.pull_request_id ≠ pr.PullRequestID :=
      fun row hrow hid => hex ⟨row, hrow, hid⟩
    have hany : st.pull_requests.any (fun row => row.pull_request_id == pr.PullRequestID)
        = false := by
      rw [← Bool.not_eq_true, any_pull_request_iff]
      exact hex
    cases hdb : db.pull_requests st
        { pull_request_id := pr.PullRequestID, pull_request_name := pr.PullRequestName,
          author_id := pr.AuthorID, status := StatusOpen, created_at := some now,
          merged_at := none } with
    | some msg =>
      left
      refine ⟨hfresh, msg, ?_⟩
      unfold repository.CreatePR withTx repository.insertPullRequest
      simp only [hany, Bool.false_eq_true, if_false, hdb]
    | none =>
      rcases insertReviewers_cases db pr.PullRequestID
          { st with pull_requests := (st.pull_requests ++
              [{ pull_request_id := pr.PullRequestID, pull_request_name := pr.PullRequestName,
                 author_id := pr.AuthorID, status := StatusOpen, created_at := some now,
                 merged_at := none }]) } reviewers with ⟨msg, hmsg⟩ | hok
      · left
        refine ⟨hfresh, msg, ?_⟩
        unfold repository.CreatePR withTx repository.insertPullRequest
        simp only [hany, Bool.false_eq_true, if_false, hdb, hmsg]
      · right
        refine ⟨hfresh, db.pull_requests_parameter _ _ hdb, ?_⟩
        unfold repository.CreatePR withTx repository.insertPullRequest
        simp only [hany, Bool.false_eq_true, if_false, hdb, hok]

theorem CreatePR_of_noAuthor (db : Schema) (st : Store) (rnd : Source) (now : Nat)
    (req : CreatePRRequest)
    (hacc : db.parameter req.AuthorID = none)
    (h : ∀ u ∈ st.users, u.UserID ≠ req.AuthorID) :
    service.CreatePR db st rnd now req
      = (.error (GoError.Wrap (ErrCodeNotFound ++ ": author not found: ") GoError.ErrNotFound),
          st) := by
  unfold service.CreatePR
  rw [GetUser_notFound st _ hacc h]
  rfl

/-- An author id the database refuses makes `CreatePR` return the driver's error as it
is, with the store as it was. -/
theorem CreatePR_of_refusedAuthor (db : Schema) (st : Store) (rnd : Source) (now : Nat)
    (req : CreatePRRequest) (msg : String)
    (h : db.parameter req.AuthorID = some msg) :
    service.CreatePR db st rnd now req = (.error (GoError.driver msg), st) := by
  unfold service.CreatePR
  rw [GetUser_refused st _ msg h]
  rfl

/-- When the author is not read, `CreatePR` fails and leaves the store as it was. -/
theorem CreatePR_of_authorError (db : Schema) (st : Store) (rnd : Source) (now : Nat)
    (req : CreatePRRequest) (err : GoError)
    (h : repository.GetUser db st req.AuthorID = .error err) :
    ∃ e, service.CreatePR db st rnd now req = (.error e, st) := by
  unfold service.CreatePR
  rw [h]
  dsimp only
  split
  · exact ⟨_, rfl⟩
  · exact ⟨_, rfl⟩

/-- With the author found, `Service.CreatePR` is the call of `Repository.CreatePR` with
the selected reviewers, followed by `GetPR`. -/
theorem CreatePR_of_author (db : Schema) (st : Store) (rnd : Source) (now : Nat)
    (req : CreatePRRequest) (author : User)
    (hu : repository.GetUser db st req.AuthorID = .ok author) :
    service.CreatePR db st rnd now req
      = match repository.CreatePR db st now
          { PullRequestID := req.PullRequestID
            PullRequestName := req.PullRequestName
            AuthorID := req.AuthorID
            Status := StatusOpen
            AssignedReviewers := (service.selectRandomReviewers rnd (st.users.filter (fun u =>
              u.TeamName == author.TeamName && u.IsActive == true
                && u.UserID != author.UserID)) 2).map (fun r => r.UserID)
            CreatedAt := none
            MergedAt := none }
          ((service.selectRandomReviewers rnd (st.users.filter (fun u =>
              u.TeamName == author.TeamName && u.IsActive == true
                && u.UserID != author.UserID)) 2).map (fun r => r.UserID)) with
        | (.error err, st') =>
          if err.Is GoError.ErrAlreadyExists then
            (.error (GoError.Wrap (ErrCodePRExists ++ ": ") err), st')
          else
            (.error err, st')
        | (.ok _, st') => (repository.GetPR db st' req.PullRequestID, st') := by
  unfold service.CreatePR
  rw [hu]
  rfl

theorem CreatePR_of_exists (db : Schema) (st : Store) (rnd : Source) (now : Nat)
    (req : CreatePRRequest) (author : User)
    (hu : repository.GetUser db st req.AuthorID = .ok author)
    (hex : ∃ row ∈ st.pull_requests, row.pull_request_id = req.PullRequestID) :
    service.CreatePR db st rnd now req
      = (.error (GoError.Wrap (ErrCodePRExists ++ ": ") GoError.ErrAlreadyExists), st) := by
  rw [CreatePR_of_author db st rnd now req author hu]
  rcases repo_CreatePR_cases db st now
      { PullRequestID := req.PullRequestID
        PullRequestName := req.PullRequestName
        AuthorID := req.AuthorID
        Status := StatusOpen
        AssignedReviewers := (service.selectRandomReviewers rnd (st.users.filter (fun u =>
          u.TeamName == author.TeamName && u.IsActive == true
            && u.UserID != author.UserID)) 2).map (fun r => r.UserID)
        CreatedAt := none
        MergedAt := none }
      ((service.selectRandomReviewers rnd (st.users.filter (fun u =>
          u.TeamName == author.TeamName && u.IsActive == true
            && u.UserID != author.UserID)) 2).map (fun r => r.UserID)) with
    ⟨_, he⟩ | ⟨hfresh, _⟩ | ⟨hfresh, _, _⟩
  · rw [he]
    rfl
  · obtain ⟨row, hrow, hid⟩ := hex
    exact absurd hid (hfresh row hrow)
  · obtain ⟨row, hrow, hid⟩ := hex
    exact absurd hid (hfresh row hrow)

theorem find_append_fresh (rows : List PullRequestRow) (row : PullRequestRow)
    (hfresh : ∀ r ∈ rows, r.pull_request_id ≠ row.pull_request_id) :
    (rows ++ [row]).find? (fun r => r.pull_request_id == row.pull_request_id) = some row := by
  rw [List.find?_append]
  have hnone : rows.find? (fun r => r.pull_request_id == row.pull_request_id) = none := by
    rw [List.find?_eq_none]
    intro r hr
    simpa using hfresh r hr
  rw [hnone]
  simp

theorem selectReviewers_append (st : Store) (prs : List PullRequestRow) (prID : String)
    (ids : List String) (p : String) :
    repository.selectReviewers
        { st with
          pull_requests := prs
          pull_request_reviewers := (st.pull_request_reviewers
            ++ ids.map (fun r => { pull_request_id := prID, user_id := r })) } p
      = if p = prID then repository.selectReviewers st p ++ ids
        else repository.selectReviewers st p := by
  unfold repository.selectReviewers
  simp only [List.filter_append, List.map_append, List.filter_map, List.map_map]
  by_cases hp : p = prID
  · subst hp
    simp only [if_true]
    congr 1
    have hall : ∀ r ∈ ids, ((fun row : ReviewerRow => row.pull_request_id == p) ∘
        (fun r => ({ pull_request_id := p, user_id := r } : ReviewerRow))) r = true := by
      intro r _
      simp
    rw [List.filter_eq_self.2 hall]
    have hid : ((fun row : ReviewerRow => row.user_id) ∘
        (fun r => ({ pull_request_id := p, user_id := r } : ReviewerRow))) = id := rfl
    rw [hid, List.map_id]
  · simp only [hp, if_false]
    have hnone : ∀ r ∈ ids, ¬ ((fun row : ReviewerRow => row.pull_request_id == p) ∘
        (fun r => ({ pull_request_id := prID, user_id := r } : ReviewerRow))) r = true := by
      intro r _
      simp only [Function.comp, beq_iff_eq]
      exact fun e => hp e.symm
    rw [List.filter_eq_nil_iff.2 hnone]
    simp

/-- With the author found and the id fresh, `Service.CreatePR` fails only when the
schema rejects a row, leaving the store as it was; otherwise it appends the PR row and
one row per selected reviewer, and returns the PR as `GetPR` reads it. -/
theorem CreatePR_of_fresh (db : Schema) (st : Store) (rnd : Source) (now : Nat)
    (req : CreatePRRequest) (author : User)
    (hu : repository.GetUser db st req.AuthorID = .ok author)
    (hfresh : ∀ row ∈ st.pull_requests, row.pull_request_id ≠ req.PullRequestID) :
    (∃ msg, service.CreatePR db st rnd now req = (.error (GoError.driver msg), st))
      ∨ db.parameter req.PullRequestID = none
        ∧ service.CreatePR db st rnd now req
        = (.ok { PullRequestID := req.PullRequestID
                 PullRequestName := req.PullRequestName
                 AuthorID := req.AuthorID
                 Status := StatusOpen
                 AssignedReviewers := repository.selectReviewers st req.PullRequestID
                   ++ (service.selectRandomReviewers rnd (st.users.filter (fun u =>
                      u.TeamName == author.TeamName && u.IsActive == true
                        && u.UserID != author.UserID)) 2).map (fun r => r.UserID)
                 CreatedAt := some now
                 MergedAt := none },
            { st with
              pull_requests := (st.pull_requests ++
                [{ pull_request_id := req.PullRequestID,
                   pull_request_name := req.PullRequestName,
                   author_id := req.AuthorID, status := StatusOpen, created_at := some now,
                   merged_at := none }])
              pull_request_reviewers := (st.pull_request_reviewers ++
                ((service.selectRandomReviewers rnd (st.users.filter (fun u =>
                    u.TeamName == author.TeamName && u.IsActive == true
                      && u.UserID != author.UserID)) 2).map (fun r => r.UserID)).map
                  (fun r => { pull_request_id := req.PullRequestID, user_id := r })) }) := by
  rw [CreatePR_of_author db st rnd now req author hu]
  rcases repo_CreatePR_cases db st now
      { PullRequestID := req.PullRequestID
        PullRequestName := req.PullRequestName
        AuthorID := req.AuthorID
        Status := StatusOpen
        AssignedReviewers := (service.selectRandomReviewers rnd (st.users.filter (fun u =>
          u.TeamName == author.TeamName && u.IsActive == true
            && u.UserID != author.UserID)) 2).map (fun r => r.UserID)
        CreatedAt := none
        MergedAt := none }
      ((service.selectRandomReviewers rnd (st.users.filter (fun u =>
          u.TeamName == author.TeamName && u.IsActive == true
            && u.UserID != author.UserID)) 2).map (fun r => r.UserID)) with
    ⟨hex, _⟩ | ⟨_, msg, hmsg⟩ | ⟨_, hacc, hok⟩
  · obtain ⟨row, hrow, hid⟩ := hex
    exact absurd hid (hfresh row hrow)
  · left
    refine ⟨msg, ?_⟩
    rw [hmsg]
    rfl
  · right
    refine ⟨hacc, ?_⟩
    rw [hok]
    dsimp only
    congr 1
    rw [GetPR_accepted _ _ hacc]
    dsimp only
    rw [find_append_fresh st.pull_requests
      { pull_request_id := req.PullRequestID, pull_request_name := req.PullRequestName,
        author_id := req.AuthorID, status := StatusOpen, created_at := some now,
        merged_at := none } hfresh]
    simp only [selectReviewers_append, if_true]

/-- C12, as stated, fails on an author id the database refuses: no user of `store1`
has the id `nulId`, which holds U+0000, and `CreatePR` fails with the driver's error,
whose code is `INTERNAL_ERROR`, not with an error of code `NOT_FOUND`. -/
theorem CreatePR_author_missing_counterexample :
    (∀ u ∈ sample.store1.users, u.UserID ≠ sample.nulId)
      ∧ service.CreatePR sample.nulSchema sample.store1 (fun _ => 0) 9
          ⟨"pr9", "new", sample.nulId⟩
        = (.error (GoError.driver "invalid byte sequence for encoding UTF8: 0x00"),
            sample.store1)
      ∧ handlers.parseErrorCode (GoError.driver "invalid byte sequence for encoding UTF8: 0x00")
          = "INTERNAL_ERROR"
      ∧ ¬ (∃ err, (service.CreatePR sample.nulSchema sample.store1 (fun _ => 0) 9
            ⟨"pr9", "new", sample.nulId⟩).1 = .error err
          ∧ handlers.parseErrorCode err = ErrCodeNotFound) := by
  have hres : service.CreatePR sample.nulSchema sample.store1 (fun _ => 0) 9
      ⟨"pr9", "new", sample.nulId⟩
      = (.error (GoError.driver "invalid byte sequence for encoding UTF8: 0x00"),
          sample.store1) := by rfl
  refine ⟨by decide, hres, by decide, ?_⟩
  rintro ⟨err, herr, hcode⟩
  rw [hres] at herr
  simp only [Except.error.injEq] at herr
  rw [← herr] at hcode
  exact absurd hcode (by decide)

/-- C12, amended: when the author id is not the id of an existing user, then, if the
database accepts the author id as a query parameter, `CreatePR` fails with an error
whose code is `NOT_FOUND`, whether or not a PR with the id exists, and if the database
refuses it, `CreatePR` fails with the driver's error as it is.  In both cases the
store is unchanged: no pull-request row and no assignment row is added. -/
theorem CreatePR_author_missing (db : Schema) (st : Store) (rnd : Source) (now : Nat)
    (req : CreatePRRequest)
    (h : ∀ u ∈ st.users, u.UserID ≠ req.AuthorID) :
    (db.parameter req.AuthorID = none →
        ∃ err, (service.CreatePR db st rnd now req).1 = .error err
          ∧ handlers.parseErrorCode err = ErrCodeNotFound)
      ∧ (∀ msg, db.parameter req.AuthorID = some msg →
          (service.CreatePR db st rnd now req).1 = .error (GoError.driver msg))
      ∧ (service.CreatePR db st rnd now req).2 = st
      ∧ (service.CreatePR db st rnd now req).2.pull_requests = st.pull_requests
      ∧ (service.CreatePR db st rnd now req).2.pull_request_reviewers
          = st.pull_request_reviewers := by
  cases hacc : db.parameter req.AuthorID with
  | none =>
    rw [CreatePR_of_noAuthor db st rnd now req hacc h]
    exact ⟨fun _ => ⟨_, rfl, by decide⟩, fun msg hmsg => by simp at hmsg, rfl, rfl, rfl⟩
  | some msg0 =>
    rw [CreatePR_of_refusedAuthor db st rnd now req msg0 hacc]
    refine ⟨fun hn => by simp at hn, ?_, rfl, rfl, rfl⟩
    intro msg hmsg
    simp only [Option.some.injEq] at hmsg
    rw [hmsg]

theorem CreatePR_author_missing_witness :
    (∀ u ∈ sample.store1.users, u.UserID ≠ "nobody")
      ∧ (∃ row ∈ sample.store1.pull_requests, row.pull_request_id = "pr1")
      ∧ sample.anySchema.parameter "nobody" = none
      ∧ (∃ err, (service.CreatePR sample.anySchema sample.store1 (fun _ => 0) 9
            ⟨"pr1", "again", "nobody"⟩).1 = .error err
          ∧ handlers.parseErrorCode err = ErrCodeNotFound)
      ∧ (service.CreatePR sample.anySchema sample.store1 (fun _ => 0) 9
            ⟨"pr1", "again", "nobody"⟩).2 = sample.store1 :=
  ⟨by decide, by decide, rfl,
    (CreatePR_author_missing sample.anySchema sample.store1 (fun _ => 0) 9
      ⟨"pr1", "again", "nobody"⟩ (by decide)).1 rfl,
    (CreatePR_author_missing sample.anySchema sample.store1 (fun _ => 0) 9
      ⟨"pr1", "again", "nobody"⟩ (by decide)).2.2.1⟩

/-- C13: when the author exists and a PR with the requested id exists, `CreatePR` fails
with an error whose code is `PR_EXISTS` for every random source, and the store is
unchanged: the existing PR reads as before and no assignment row is added. -/
theorem CreatePR_existing_id (db : Schema) (st : Store) (rnd : Source) (now : Nat)
    (req : CreatePRRequest) (author : User)
    (hu : repository.GetUser db st req.AuthorID = .ok author)
    (hex : ∃ row ∈ st.pull_requests, row.pull_request_id = req.PullRequestID) :
    (∃ err, (service.CreatePR db st rnd now req).1 = .error err
        ∧ handlers.parseErrorCode err = ErrCodePRExists)
      ∧ (service.CreatePR db st rnd now req).2 = st
      ∧ repository.GetPR db (service.CreatePR db st rnd now req).2 req.PullRequestID
          = repository.GetPR db st req.PullRequestID
      ∧ (service.CreatePR db st rnd now req).2.pull_requests = st.pull_requests
      ∧ (service.CreatePR db st rnd now req).2.pull_request_reviewers
          = st.pull_request_reviewers := by
  rw [CreatePR_of_exists db st rnd now req author hu hex]
  exact ⟨⟨_, rfl, by decide⟩, rfl, rfl, rfl, rfl⟩

theorem CreatePR_existing_id_witness :
    repository.GetUser sample.anySchema sample.store1 "u4" = .ok (sample.mkUser "u4" true)
      ∧ (∃ row ∈ sample.store1.pull_requests, row.pull_request_id = "pr1")
      ∧ (∃ err, (service.CreatePR sample.anySchema sample.store1 (fun k => k) 9
            ⟨"pr1", "again", "u4"⟩).1 = .error err
          ∧ handlers.parseErrorCode err = ErrCodePRExists)
      ∧ (service.CreatePR sample.anySchema sample.store1 (fun k => k) 9
            ⟨"pr1", "again", "u4"⟩).2 = sample.store1 :=
  ⟨rfl, by decide,
    (CreatePR_existing_id sample.anySchema sample.store1 (fun k => k) 9
      ⟨"pr1", "again", "u4"⟩ (sample.mkUser "u4" true) rfl (by decide)).1,
    (CreatePR_existing_id sample.anySchema sample.store1 (fun k => k) 9
      ⟨"pr1", "again", "u4"⟩ (sample.mkUser "u4" true) rfl (by decide)).2.1⟩

/-- What a successful `Service.CreatePR` went through: the author was found, the id was
fresh, and the result and the store are those of `CreatePR_of_fresh`. -/
theorem CreatePR_ok_inv (db : Schema) (st st' : Store) (rnd : Source) (now : Nat)
    (req : CreatePRRequest) (pr : PullRequest)
    (h : service.CreatePR db st rnd now req = (.ok pr, st')) :
    ∃ author, repository.GetUser db st req.AuthorID = .ok author
      ∧ (∀ row ∈ st.pull_requests, row.pull_request_id ≠ req.PullRequestID)
      ∧ pr = { PullRequestID := req.PullRequestID
               PullRequestName := req.PullRequestName
               AuthorID := req.AuthorID
               Status := StatusOpen
               AssignedReviewers := repository.selectReviewers st req.PullRequestID
                 ++ (service.selectRandomReviewers rnd (st.users.filter (fun u =>
                    u.TeamName == author.TeamName && u.IsActive == true
                      && u.UserID != author.UserID)) 2).map (fun r => r.UserID)
               CreatedAt := some now
               MergedAt := none }
      ∧ st' = { st with
          pull_requests := (st.pull_requests ++
            [{ pull_request_id := req.PullRequestID,
               pull_request_name := req.PullRequestName,
               author_id := req.AuthorID, status := StatusOpen, created_at := some now,
               merged_at := none }])
          pull_request_reviewers := (st.pull_request_reviewers ++
            ((service.selectRandomReviewers rnd (st.users.filter (fun u =>
                u.TeamName == author.TeamName && u.IsActive == true
                  && u.UserID != author.UserID)) 2).map (fun r => r.UserID)).map
              (fun r => { pull_request_id := req.PullRequestID, user_id := r })) } := by
  cases hg : repository.GetUser db st req.AuthorID with
  | ok author =>
    have hu := hg
    by_cases hex : ∃ row ∈ st.pull_requests, row.pull_request_id = req.PullRequestID
    · rw [CreatePR_of_exists db st rnd now req author hu hex] at h
      simp at h
    · have hfresh : ∀ row ∈ st.pull_requests, row.pull_request_id ≠ req.PullRequestID :=
        fun row hrow hid => hex ⟨row, hrow, hid⟩
      rcases CreatePR_of_fresh db st rnd now req author hu hfresh with ⟨msg, hmsg⟩ | ⟨_, hok⟩
      · rw [hmsg] at h
        simp at h
      · rw [hok] at h
        simp only [Prod.mk.injEq, Except.ok.injEq] at h
        exact ⟨author, rfl, hfresh, h.1.symm, h.2.symm⟩
  | error err =>
    obtain ⟨e, he⟩ := CreatePR_of_authorError db st rnd now req err hg
    rw [he] at h
    simp at h

/-- A successful `Service.CreatePR` has a PR id the database accepts as a parameter. -/
theorem CreatePR_ok_accepted (db : Schema) (st st' : Store) (rnd : Source) (now : Nat)
    (req : CreatePRRequest) (pr : PullRequest)
    (h : service.CreatePR db st rnd now req = (.ok pr, st')) :
    db.parameter req.PullRequestID = none := by
  obtain ⟨author, hu, hfresh, _, _⟩ := CreatePR_ok_inv db st st' rnd now req pr h
  rcases CreatePR_of_fresh db st rnd now req author hu hfresh with ⟨msg, hmsg⟩ | ⟨hacc, _⟩
  · rw [hmsg] at h
    simp at h
  · exact hacc

/-- Every selected reviewer of `CreatePR` is an active user of the author's team other
than the author. -/
theorem mem_selected_reviewers (st : Store) (rnd : Source) (author : User) (r : String)
    (hr : r ∈ (service.selectRandomReviewers rnd (st.users.filter (fun u =>
        u.TeamName == author.TeamName && u.IsActive == true
          && u.UserID != author.UserID)) 2).map (fun r => r.UserID)) :
    r ≠ author.UserID
      ∧ ∃ u ∈ st.users, u.UserID = r ∧ u.IsActive = true ∧ u.TeamName = author.TeamName := by
  rcases List.mem_map.1 hr with ⟨u, hu, rfl⟩
  have hc := (selectRandomReviewers_subperm rnd _ 2).subset hu
  rw [List.mem_filter] at hc
  obtain ⟨hmem, hf⟩ := hc
  simp only [Bool.and_eq_true, beq_iff_eq, bne_iff_ne, ne_eq] at hf
  exact ⟨hf.2, u, hmem, rfl, hf.1.2, hf.1.1⟩

/-- C14: when `CreatePR` succeeds, for every random source: the author exists and the id
was fresh; the stored PR has the given id, name and author, status `OPEN` and creation
timestamp `now`; every reviewer it assigns is an active user of the author's team
whose id differs from the author id; and the reviewer list of the returned PR is the
list of the persisted assignment rows of the PR. -/
theorem CreatePR_success (db : Schema) (st st' : Store) (rnd : Source) (now : Nat)
    (req : CreatePRRequest) (pr : PullRequest)
    (h : service.CreatePR db st rnd now req = (.ok pr, st')) :
    ∃ author ids, repository.GetUser db st req.AuthorID = .ok author
      ∧ (∀ row ∈ st.pull_requests, row.pull_request_id ≠ req.PullRequestID)
      ∧ st'.pull_requests = st.pull_requests ++
          [{ pull_request_id := req.PullRequestID, pull_request_name := req.PullRequestName,
             author_id := req.AuthorID, status := StatusOpen, created_at := some now,
             merged_at := none }]
      ∧ st'.pull_request_reviewers = st.pull_request_reviewers ++
          ids.map (fun r => { pull_request_id := req.PullRequestID, user_id := r })
      ∧ (∀ r ∈ ids, r ≠ req.AuthorID
          ∧ ∃ u ∈ st.users, u.UserID = r ∧ u.IsActive = true ∧ u.TeamName = author.TeamName)
      ∧ repository.GetPR db st' req.PullRequestID = .ok pr
      ∧ pr.PullRequestID = req.PullRequestID
      ∧ pr.PullRequestName = req.PullRequestName
      ∧ pr.AuthorID = req.AuthorID
      ∧ pr.Status = StatusOpen
      ∧ pr.CreatedAt = some now
      ∧ pr.MergedAt = none
      ∧ pr.AssignedReviewers = repository.selectReviewers st' req.PullRequestID
      ∧ pr.AssignedReviewers = repository.selectReviewers st req.PullRequestID ++ ids
      ∧ st'.teams = st.teams
      ∧ st'.users = st.users := by
  obtain ⟨author, hu, hfresh, hpr, hst⟩ := CreatePR_ok_inv db st st' rnd now req pr h
  have hid := GetUser_ok_id st _ _ hu
  have hsel : repository.selectReviewers st' req.PullRequestID
      = repository.selectReviewers st req.PullRequestID
        ++ (service.selectRandomReviewers rnd (st.users.filter (fun u =>
            u.TeamName == author.TeamName && u.IsActive == true
              && u.UserID != author.UserID)) 2).map (fun r => r.UserID) := by
    rw [hst, selectReviewers_append]
    simp
  have hget : repository.GetPR db st' req.PullRequestID = .ok pr := by
    rw [hpr, ← hsel, hst]
    rw [GetPR_accepted _ _ (CreatePR_ok_accepted db st st' rnd now req pr h)]
    dsimp only
    rw [find_append_fresh st.pull_requests
      { pull_request_id := req.PullRequestID, pull_request_name := req.PullRequestName,
        author_id := req.AuthorID, status := StatusOpen, created_at := some now,
        merged_at := none } hfresh]
  refine ⟨author, _, hu, hfresh, by rw [hst], by rw [hst], ?_, hget, by rw [hpr], by rw [hpr],
    by rw [hpr], by rw [hpr], by rw [hpr], by rw [hpr], ?_, by rw [hpr], by rw [hst],
    by rw [hst]⟩
  · intro r hr
    have := mem_selected_reviewers st rnd author r hr
    rw [hid] at this
    exact this
  · rw [hsel, hpr]

theorem CreatePR_success_witness :
    service.CreatePR sample.anySchema sample.backendStore (fun _ => 0) 7 sample.pr1Request
        = (.ok sample.createdPR1, sample.backendStoreWithPR1)
      ∧ ∃ (author : User) (ids : List String),
        repository.GetUser sample.anySchema sample.backendStore "A" = .ok author
        ∧ (∀ row ∈ sample.backendStore.pull_requests, row.pull_request_id ≠ "PR1")
        ∧ sample.backendStoreWithPR1.pull_requests = sample.backendStore.pull_requests ++
            [{ pull_request_id := "PR1", pull_request_name := "first",
               author_id := "A", status := StatusOpen, created_at := some 7,
               merged_at := none }]
        ∧ sample.backendStoreWithPR1.pull_request_reviewers
            = sample.backendStore.pull_request_reviewers ++
              ids.map (fun r => { pull_request_id := "PR1", user_id := r }) :=
  ⟨by rfl,
    (CreatePR_success sample.anySchema sample.backendStore sample.backendStoreWithPR1
      (fun _ => 0) 7 sample.pr1Request sample.createdPR1 (by rfl)).imp
      (fun _ ha => ha.imp (fun _ hb => ⟨hb.1, hb.2.1, hb.2.2.1, hb.2.2.2.1⟩))⟩

theorem selectRandomReviewers_perm_of_le (rnd : Source) (candidates : List User)
    (maxCount : Nat) (hle : candidates.length ≤ maxCount) :
    (service.selectRandomReviewers rnd candidates maxCount).Perm candidates := by
  unfold service.selectRandomReviewers
  split
  · rename_i h
    simp only [beq_iff_eq, List.length_eq_zero] at h
    rw [h]
  · have hlen := (Shuffle_perm rnd candidates.length candidates).length_eq
    have htake : (Shuffle rnd candidates.length service.swap candidates).take
        (if candidates.length < maxCount then candidates.length else maxCount)
        = Shuffle rnd candidates.length service.swap candidates := by
      apply List.take_of_length_le
      split <;> omega
    simp only [htake]
    exact Shuffle_perm rnd _ candidates

theorem selectRandomReviewers_length_eq (rnd : Source) (candidates : List User)
    (maxCount : Nat) :
    (service.selectRandomReviewers rnd candidates maxCount).length
      = min maxCount candidates.length := by
  unfold service.selectRandomReviewers
  split
  · rename_i h
    simp only [beq_iff_eq] at h
    simp [h]
  · simp only [List.length_take, (Shuffle_perm rnd _ candidates).length_eq]
    split <;> omega

/-- C15: for every random source, a successful `CreatePR` assigns exactly `min 2 n`
reviewers, where `n` counts the active users of the author's team other than the
author; for `n ≤ 2` the assigned ids are exactly the ids of those users.  With no such
user the creation succeeds, whenever the schema accepts the PR row, and assigns
nobody.  In the scenario (team `backend` with `A`, `B` active and `C` inactive) the
PR of `A` gets the reviewer list `[B]`. -/
theorem CreatePR_reviewer_count (db : Schema) (st : Store) (rnd : Source) (now : Nat)
    (req : CreatePRRequest) :
    (∀ pr st', service.CreatePR db st rnd now req = (.ok pr, st') →
        ∃ author candidates ids, repository.GetUser db st req.AuthorID = .ok author
          ∧ candidates = st.users.filter (fun u =>
              u.TeamName == author.TeamName && u.IsActive == true
                && u.UserID != req.AuthorID)
          ∧ st'.pull_request_reviewers = st.pull_request_reviewers ++
              ids.map (fun r => { pull_request_id := req.PullRequestID, user_id := r })
          ∧ pr.AssignedReviewers = repository.selectReviewers st req.PullRequestID ++ ids
          ∧ ids.length = min 2 candidates.length
          ∧ (candidates.length ≤ 2 → ids.Perm (candidates.map (fun u => u.UserID)))
          ∧ (candidates.length ≤ 2 → ∀ x, x ∈ ids ↔ ∃ u ∈ candidates, u.UserID = x)
          ∧ (candidates = [] → ids = []))
      ∧ (∀ author, repository.GetUser db st req.AuthorID = .ok author →
          (∀ row ∈ st.pull_requests, row.pull_request_id ≠ req.PullRequestID) →
          st.users.filter (fun u =>
              u.TeamName == author.TeamName && u.IsActive == true
                && u.UserID != req.AuthorID) = [] →
          db.pull_requests st
            { pull_request_id := req.PullRequestID, pull_request_name := req.PullRequestName,
              author_id := req.AuthorID, status := StatusOpen, created_at := some now,
              merged_at := none } = none →
          ∃ pr st', service.CreatePR db st rnd now req = (.ok pr, st')
            ∧ st'.pull_request_reviewers = st.pull_request_reviewers
            ∧ pr.AssignedReviewers = repository.selectReviewers st req.PullRequestID)
      ∧ (service.CreateTeam sample.anySchema emptyStore sample.backendRequest).2
          = sample.backendStore
      ∧ service.CreatePR sample.anySchema sample.backendStore rnd 7 sample.pr1Request
          = (.ok sample.createdPR1, sample.backendStoreWithPR1)
      ∧ sample.createdPR1.AssignedReviewers = ["B"] := by
  refine ⟨?_, ?_, by rfl, by rfl, rfl⟩
  · intro pr st' h
    obtain ⟨author, hu, _, hpr, hst⟩ := CreatePR_ok_inv db st st' rnd now req pr h
    have hid := GetUser_ok_id st _ _ hu
    rw [hid] at hpr hst
    refine ⟨author, _, _, hu, rfl, by rw [hst], by rw [hpr], ?_, ?_, ?_, ?_⟩
    · rw [List.length_map, selectRandomReviewers_length_eq]
    · intro hle
      exact (selectRandomReviewers_perm_of_le rnd _ 2 hle).map _
    · intro hle x
      rw [((selectRandomReviewers_perm_of_le rnd _ 2 hle).map _).mem_iff]
      simp only [List.mem_map]
    · intro hnil
      rw [hnil]
      rfl
  · intro author hu hfresh hnil hdb
    have hid := GetUser_ok_id st _ _ hu
    have hunf := CreatePR_of_author db st rnd now req author hu
    rw [hid, hnil] at hunf
    have hsel : service.selectRandomReviewers rnd [] 2 = [] := rfl
    rw [hsel] at hunf
    have hany : st.pull_requests.any (fun row => row.pull_request_id == req.PullRequestID)
        = false := by
      rw [← Bool.not_eq_true, any_pull_request_iff]
      rintro ⟨row, hrow, hidr⟩
      exact hfresh row hrow hidr
    have hrepo : repository.CreatePR db st now
        { PullRequestID := req.PullRequestID
          PullRequestName := req.PullRequestName
          AuthorID := req.AuthorID
          Status := StatusOpen
          AssignedReviewers := List.map (fun r : User => r.UserID) []
          CreatedAt := none
          MergedAt := none } (List.map (fun r : User => r.UserID) [])
        = (.ok (), { st with pull_requests := (st.pull_requests ++
            [{ pull_request_id := req.PullRequestID,
               pull_request_name := req.PullRequestName,
               author_id := req.AuthorID, status := StatusOpen, created_at := some now,
               merged_at := none }]) }) := by
      unfold repository.CreatePR withTx repository.insertPullRequest
      simp only [hany, Bool.false_eq_true, if_false, hdb, List.map_nil,
        repository.insertReviewers]
    rw [hrepo] at hunf
    dsimp only at hunf
    have hget : repository.GetPR db { st with pull_requests := (st.pull_requests ++
        [{ pull_request_id := req.PullRequestID, pull_request_name := req.PullRequestName,
           author_id := req.AuthorID, status := StatusOpen, created_at := some now,
           merged_at := none }]) } req.PullRequestID
        = .ok { PullRequestID := req.PullRequestID
                PullRequestName := req.PullRequestName
                AuthorID := req.AuthorID
                Status := StatusOpen
                AssignedReviewers := repository.selectReviewers st req.PullRequestID
                CreatedAt := some now
                MergedAt := none } := by
      have hacc : db.parameter req.PullRequestID = none :=
        db.pull_requests_parameter _ _ hdb
      rw [GetPR_accepted _ _ hacc]
      dsimp only
      rw [find_append_fresh st.pull_requests
        { pull_request_id := req.PullRequestID, pull_request_name := req.PullRequestName,
          author_id := req.AuthorID, status := StatusOpen, created_at := some now,
          merged_at := none } hfresh]
      rfl
    rw [hget] at hunf
    exact ⟨_, _, hunf, rfl, rfl⟩

/-! ## Health check and error mapping -/

/-- C16, on a failed round trip: when the health check's query fails with `err`,
`Service.HealthCheck` drops the error and returns `nil`, so the handler answers `200`
with status `healthy` and not `503` with code `UNHEALTHY`; it answers the same when the
round trip succeeds. -/
theorem HealthCheck_ignores_failed_round_trip (err : GoError) (st : Store) :
    repository.probeActiveTeamMembers (.error err) "__healthcheck__" "__healthcheck__"
        = .error err
      ∧ service.HealthCheck (.error err) = .ok ()
      ∧ handlers.HealthCheck (.error err) = (200, "healthy")
      ∧ handlers.HealthCheck (.error err) ≠ (503, "UNHEALTHY")
      ∧ handlers.HealthCheck (.ok st) = (200, "healthy") := by
  refine ⟨rfl, rfl, rfl, ?_, rfl⟩
  intro h
  have h2 : handlers.HealthCheck (.error err) = (200, "healthy") := rfl
  rw [h2] at h
  simp at h

theorem code_prefix_unique :
    ∀ c ∈ [ErrCodeTeamExists, ErrCodePRExists, ErrCodePRMerged, ErrCodeNotAssigned,
        ErrCodeNoCandidate, ErrCodeNotFound],
      ∀ c' ∈ [ErrCodeTeamExists, ErrCodePRExists, ErrCodePRMerged, ErrCodeNotAssigned,
          ErrCodeNoCandidate, ErrCodeNotFound],
        c.data.isPrefixOf c'.data = true → c = c' := by
  decide

theorem parseErrorCode_of_prefix (err : GoError) (c : String)
    (hc : c ∈ [ErrCodeTeamExists, ErrCodePRExists, ErrCodePRMerged, ErrCodeNotAssigned,
        ErrCodeNoCandidate, ErrCodeNotFound])
    (hp : handlers.HasPrefix err.Error c = true) :
    handlers.parseErrorCode err = c := by
  unfold handlers.parseErrorCode
  cases hf : [ErrCodeTeamExists, ErrCodePRExists, ErrCodePRMerged, ErrCodeNotAssigned,
      ErrCodeNoCandidate, ErrCodeNotFound].find?
      (fun code => handlers.HasPrefix err.Error code) with
  | none =>
    rw [List.find?_eq_none] at hf
    exact absurd hp (hf c hc)
  | some c' =>
    simp only [hf, Option.getD_some]
    have hc' := List.mem_of_find?_eq_some hf
    have hp' : handlers.HasPrefix err.Error c' = true := List.find?_some hf
    unfold handlers.HasPrefix at hp hp'
    rw [List.isPrefixOf_iff_prefix] at hp hp'
    rcases List.prefix_or_prefix_of_prefix hp hp' with h1 | h1
    · exact (code_prefix_unique c hc c' hc' (List.isPrefixOf_iff_prefix.2 h1)).symm
    · exact code_prefix_unique c' hc' c hc (List.isPrefixOf_iff_prefix.2 h1)

theorem parseErrorCode_of_no_prefix (err : GoError)
    (hp : ∀ c ∈ [ErrCodeTeamExists, ErrCodePRExists, ErrCodePRMerged, ErrCodeNotAssigned,
        ErrCodeNoCandidate, ErrCodeNotFound], handlers.HasPrefix err.Error c = false) :
    handlers.parseErrorCode err = "INTERNAL_ERROR" := by
  unfold handlers.parseErrorCode
  have hf : [ErrCodeTeamExists, ErrCodePRExists, ErrCodePRMerged, ErrCodeNotAssigned,
      ErrCodeNoCandidate, ErrCodeNotFound].find?
      (fun code => handlers.HasPrefix err.Error code) = none := by
    rw [List.find?_eq_none]
    intro c hc
    rw [hp c hc]
    simp
  simp only [hf, Option.getD_none]

theorem parseErrorCode_mem (err : GoError) :
    handlers.parseErrorCode err ∈ [ErrCodeTeamExists, ErrCodePRExists, ErrCodePRMerged,
        ErrCodeNotAssigned, ErrCodeNoCandidate, ErrCodeNotFound]
      ∨ handlers.parseErrorCode err = "INTERNAL_ERROR" := by
  unfold handlers.parseErrorCode
  cases hf : [ErrCodeTeamExists, ErrCodePRExists, ErrCodePRMerged, ErrCodeNotAssigned,
      ErrCodeNoCandidate, ErrCodeNotFound].find?
      (fun code => handlers.HasPrefix err.Error code) with
  | none =>
    right
    simp only [hf, Option.getD_none]
  | some c =>
    left
    simp only [hf, Option.getD_some]
    exact List.mem_of_find?_eq_some hf

/-- C17: for every error, `parseErrorCode` returns the code among `TEAM_EXISTS`,
`PR_EXISTS`, `PR_MERGED`, `NOT_ASSIGNED`, `NO_CANDIDATE`, `NOT_FOUND` that the message
starts with, and `INTERNAL_ERROR` when it starts with none.  The status the handler
`CreatePR` sends with the code is `400` for `TEAM_EXISTS`, `409` for `PR_EXISTS`, `404`
for `NOT_FOUND`, `409` for `PR_MERGED`, `NOT_ASSIGNED` and `NO_CANDIDATE`, and `500`
for an unclassified error; the other handlers send the same status for every code but
`PR_EXISTS`, which `getHTTPStatusForError` alone maps to `400`. -/
theorem error_mapping (err : GoError) :
    (∀ c ∈ [ErrCodeTeamExists, ErrCodePRExists, ErrCodePRMerged, ErrCodeNotAssigned,
          ErrCodeNoCandidate, ErrCodeNotFound],
        handlers.HasPrefix err.Error c = true → handlers.parseErrorCode err = c)
      ∧ ((∀ c ∈ [ErrCodeTeamExists, ErrCodePRExists, ErrCodePRMerged, ErrCodeNotAssigned,
            ErrCodeNoCandidate, ErrCodeNotFound], handlers.HasPrefix err.Error c = false) →
          handlers.parseErrorCode err = "INTERNAL_ERROR")
      ∧ (handlers.parseErrorCode err ∈ [ErrCodeTeamExists, ErrCodePRExists, ErrCodePRMerged,
            ErrCodeNotAssigned, ErrCodeNoCandidate, ErrCodeNotFound]
          ∨ handlers.parseErrorCode err = "INTERNAL_ERROR")
      ∧ (handlers.CreatePRErrorResponse err).2 = handlers.parseErrorCode err
      ∧ (handlers.parseErrorCode err = ErrCodeTeamExists →
          (handlers.CreatePRErrorResponse err).1 = 400)
      ∧ (handlers.parseErrorCode err = ErrCodePRExists →
          (handlers.CreatePRErrorResponse err).1 = 409)
      ∧ (handlers.parseErrorCode err = ErrCodeNotFound →
          (handlers.CreatePRErrorResponse err).1 = 404)
      ∧ (handlers.parseErrorCode err = ErrCodePRMerged →
          (handlers.CreatePRErrorResponse err).1 = 409)
      ∧ (handlers.parseErrorCode err = ErrCodeNotAssigned →
          (handlers.CreatePRErrorResponse err).1 = 409)
      ∧ (handlers.parseErrorCode err = ErrCodeNoCandidate →
          (handlers.CreatePRErrorResponse err).1 = 409)
      ∧ (handlers.parseErrorCode err = "INTERNAL_ERROR" →
          (handlers.CreatePRErrorResponse err).1 = 500)
      ∧ (handlers.errorResponse err).2 = handlers.parseErrorCode err
      ∧ (handlers.parseErrorCode err ≠ ErrCodePRExists →
          (handlers.errorResponse err).1 = (handlers.CreatePRErrorResponse err).1)
      ∧ handlers.getHTTPStatusForError ErrCodePRExists = 400 := by
  refine ⟨fun c hc hp => parseErrorCode_of_prefix err c hc hp,
    parseErrorCode_of_no_prefix err, parseErrorCode_mem err, rfl, ?_, ?_, ?_, ?_, ?_, ?_, ?_,
    rfl, ?_, by decide⟩
  · intro h
    unfold handlers.CreatePRErrorResponse
    rw [h]
    decide
  · intro h
    unfold handlers.CreatePRErrorResponse
    rw [h]
    decide
  · intro h
    unfold handlers.CreatePRErrorResponse
    rw [h]
    decide
  · intro h
    unfold handlers.CreatePRErrorResponse
    rw [h]
    decide
  · intro h
    unfold handlers.CreatePRErrorResponse
    rw [h]
    decide
  · intro h
    unfold handlers.CreatePRErrorResponse
    rw [h]
    decide
  · intro h
    unfold handlers.CreatePRErrorResponse
    rw [h]
    decide
  · intro h
    unfold handlers.errorResponse handlers.CreatePRErrorResponse
    have hb : (handlers.parseErrorCode err == ErrCodePRExists) = false := by simpa using h
    simp only [hb, Bool.false_eq_true, if_false]

/-! ## The reassignment transaction -/

theorem mem_selectReviewers_iff (st : Store) (prID userID : String) :
    userID ∈ repository.selectReviewers st prID
      ↔ ({ pull_request_id := prID, user_id := userID } : ReviewerRow)
          ∈ st.pull_request_reviewers := by
  unfold repository.selectReviewers
  simp only [List.mem_map, List.mem_filter, beq_iff_eq]
  constructor
  · rintro ⟨row, ⟨hrow, h1⟩, h2⟩
    cases row
    simp only at h1 h2
    subst h1 h2
    exact hrow
  · intro h
    exact ⟨_, ⟨h, rfl⟩, rfl⟩

/-- C18: `Repository.ReassignReviewer` is an atomic delete and insert.  When
`(prID, old)` is not an assignment row it returns an error and the store is unchanged,
so `(prID, new)` is not inserted; when the schema rejects the insert of `(prID, new)`
after the delete, the delete is rolled back and the store is unchanged; on success
the assignment rows are those from before without `(prID, old)`, followed by
`(prID, new)`, and the other tables are unchanged. -/
theorem repo_ReassignReviewer_atomic (db : Schema) (st : Store)
    (prID oldUserID newUserID : String) :
    (({ pull_request_id := prID, user_id := oldUserID } : ReviewerRow)
          ∉ st.pull_request_reviewers →
        repository.ReassignReviewer db st prID oldUserID newUserID
          = (.error (GoError.Errorf "reviewer not found in PR"), st))
      ∧ (({ pull_request_id := prID, user_id := oldUserID } : ReviewerRow)
          ∈ st.pull_request_reviewers →
        ∀ msg,
          db.pull_request_reviewers
              { st with pull_request_reviewers := (st.pull_request_reviewers.filter
                  (fun row => !(row.pull_request_id == prID && row.user_id == oldUserID))) }
              { pull_request_id := prID, user_id := newUserID } = some msg →
          repository.ReassignReviewer db st prID oldUserID newUserID
            = (.error (GoError.driver msg), st))
      ∧ (({ pull_request_id := prID, user_id := oldUserID } : ReviewerRow)
          ∈ st.pull_request_reviewers →
        db.pull_request_reviewers
            { st with pull_request_reviewers := (st.pull_request_reviewers.filter
                (fun row => !(row.pull_request_id == prID && row.user_id == oldUserID))) }
            { pull_request_id := prID, user_id := newUserID } = none →
        ∃ st', repository.ReassignReviewer db st prID oldUserID newUserID = (.ok (), st')
          ∧ st'.pull_request_reviewers
              = st.pull_request_reviewers.filter
                  (fun row => row ≠ { pull_request_id := prID, user_id := oldUserID })
                ++ [{ pull_request_id := prID, user_id := newUserID }]
          ∧ (∀ row, row ∈ st'.pull_request_reviewers
              ↔ (row ∈ st.pull_request_reviewers
                  ∧ row ≠ { pull_request_id := prID, user_id := oldUserID })
                ∨ row = { pull_request_id := prID, user_id := newUserID })
          ∧ st'.teams = st.teams ∧ st'.users = st.users
          ∧ st'.pull_requests = st.pull_requests)
      ∧ (∀ err st', repository.ReassignReviewer db st prID oldUserID newUserID
            = (.error err, st') → st' = st) := by
  have hfilter : st.pull_request_reviewers.filter
      (fun row => !(row.pull_request_id == prID && row.user_id == oldUserID))
      = st.pull_request_reviewers.filter
          (fun row => row ≠ { pull_request_id := prID, user_id := oldUserID }) := by
    apply List.filter_congr
    intro row _
    cases row with
    | mk p u =>
      by_cases h1 : p = prID
      · by_cases h2 : u = oldUserID
        · simp [h1, h2]
        · simp [h1, h2]
      · simp [h1]
  refine ⟨?_, ?_, ?_, ?_⟩
  · intro hno
    have hz := (rowsAffected_eq_zero_iff st prID oldUserID).2
      (fun hmem => hno ((mem_selectReviewers_iff st prID oldUserID).1 hmem))
    unfold repository.ReassignReviewer withTx
    simp only [hz, if_true]
  · intro hin msg hdb
    have hz := (rowsAffected_eq_zero_iff st prID oldUserID).not.2
      (not_not.2 ((mem_selectReviewers_iff st prID oldUserID).2 hin))
    unfold repository.ReassignReviewer withTx repository.insertReviewer
    simp only [hz, if_false, Bool.false_eq_true, hdb]
  · intro hin hdb
    have hz := (rowsAffected_eq_zero_iff st prID oldUserID).not.2
      (not_not.2 ((mem_selectReviewers_iff st prID oldUserID).2 hin))
    refine ⟨{ st with pull_request_reviewers := (st.pull_request_reviewers.filter
        (fun row => !(row.pull_request_id == prID && row.user_id == oldUserID))
        ++ [{ pull_request_id := prID, user_id := newUserID }]) }, ?_, ?_, ?_, rfl, rfl, rfl⟩
    · unfold repository.ReassignReviewer withTx repository.insertReviewer
      simp only [hz, if_false, Bool.false_eq_true, hdb]
    · simp only [hfilter]
    · intro row
      simp only [hfilter, List.mem_append, List.mem_filter, List.mem_singleton,
        decide_eq_true_eq]
  · intro err st' h
    rcases repo_ReassignReviewer_cases db st prID oldUserID newUserID with
      ⟨_, he⟩ | ⟨_, msg, he⟩ | ⟨_, hok⟩
    · rw [he] at h
      simp only [Prod.mk.injEq] at h
      exact h.2.symm
    · rw [he] at h
      simp only [Prod.mk.injEq] at h
      exact h.2.symm
    · rw [hok] at h
      simp at h

theorem repo_ReassignReviewer_atomic_witness :
    repository.ReassignReviewer sample.keyedSchema sample.store1 "pr1" "u9" "u4"
        = (.error (GoError.Errorf "reviewer not found in PR"), sample.store1)
      ∧ repository.ReassignReviewer sample.keyedSchema sample.store1 "pr1" "u2" "u3"
        = (.error (GoError.driver "duplicate key value violates unique constraint"),
            sample.store1)
      ∧ repository.ReassignReviewer sample.keyedSchema sample.store1 "pr1" "u2" "u5"
        = (.ok (), sample.store1After) :=
  ⟨(repo_ReassignReviewer_atomic sample.keyedSchema sample.store1 "pr1" "u9" "u4").1
      (by decide),
    (repo_ReassignReviewer_atomic sample.keyedSchema sample.store1 "pr1" "u2" "u3").2.1
      (by decide) _ (by rfl),
    by rfl⟩

/-! ## The invariant of the store -/

theorem selectReviewers_congr (st st' : Store)
    (hr : st'.pull_request_reviewers = st.pull_request_reviewers) (prID : String) :
    repository.selectReviewers st' prID = repository.selectReviewers st prID := by
  unfold repository.selectReviewers
  rw [hr]

/-- The invariant only looks at the user ids, the PR ids and authors, and the
assignment rows. -/
theorem Consistent_of_same_assignments (st st' : Store) (h : Consistent st)
    (hp : st'.pull_requests = st.pull_requests)
    (hr : st'.pull_request_reviewers = st.pull_request_reviewers)
    (hu : (st'.users.map (fun u => u.UserID)).Nodup) : Consistent st' := by
  refine ⟨by rw [hp]; exact h.prIds, hu, ?_, ?_, ?_⟩
  · rw [hp, hr]
    exact h.noOrphan
  · intro p hpm
    rw [hp] at hpm
    rw [selectReviewers_congr st st' hr]
    exact h.noSelfReview p hpm
  · intro prID
    rw [selectReviewers_congr st st' hr]
    exact h.reviewerSets prID

theorem upsertUser_ok (db : Schema) (st st' : Store) (row : User)
    (h : repository.upsertUser db st row = .ok st') :
    st'.pull_requests = st.pull_requests
      ∧ st'.pull_request_reviewers = st.pull_request_reviewers
      ∧ ((st.users.map (fun u => u.UserID)).Nodup →
          (st'.users.map (fun u => u.UserID)).Nodup) := by
  unfold repository.upsertUser at h
  split at h
  · simp at h
  · split at h
    · simp only [Except.ok.injEq] at h
      subst h
      refine ⟨rfl, rfl, fun hnd => ?_⟩
      have hmap : (st.users.map (fun u => if u.UserID == row.UserID then row else u)).map
          (fun u => u.UserID) = st.users.map (fun u => u.UserID) := by
        rw [List.map_map]
        apply List.map_congr_left
        intro u _
        by_cases hu : u.UserID = row.UserID
        · simp [Function.comp, hu]
        · simp [Function.comp, hu]
      exact hmap ▸ hnd
    · rename_i hany
      simp only [Except.ok.injEq] at h
      subst h
      refine ⟨rfl, rfl, fun hnd => ?_⟩
      simp only [List.map_append, List.map_cons, List.map_nil]
      refine List.Nodup.append hnd (List.nodup_singleton _) ?_
      intro x hx1 hx2
      rw [List.mem_singleton] at hx2
      subst hx2
      apply hany
      rcases List.mem_map.1 hx1 with ⟨u, hu, hid⟩
      rw [List.any_eq_true]
      exact ⟨u, hu, by simpa using hid⟩

theorem upsertMembers_ok (db : Schema) (teamName : String) (members : List TeamMember)
    (st st' : Store)
    (h : repository.upsertMembers db teamName st members = .ok st') :
    st'.pull_requests = st.pull_requests
      ∧ st'.pull_request_reviewers = st.pull_request_reviewers
      ∧ ((st.users.map (fun u => u.UserID)).Nodup →
          (st'.users.map (fun u => u.UserID)).Nodup) := by
  induction members generalizing st with
  | nil =>
    simp only [repository.upsertMembers, Except.ok.injEq] at h
    subst h
    exact ⟨rfl, rfl, id⟩
  | cons m ms ih =>
    unfold repository.upsertMembers at h
    split at h
    · simp at h
    · rename_i st1 h1
      obtain ⟨a1, a2, a3⟩ := upsertUser_ok db st st1 _ h1
      obtain ⟨b1, b2, b3⟩ := ih st1 h
      exact ⟨b1.trans a1, b2.trans a2, fun hnd => b3 (a3 hnd)⟩

theorem withTx_store (st : Store) (body : Store → Except GoError Store) :
    (withTx st body).2 = st ∨ body st = .ok (withTx st body).2 := by
  unfold withTx
  split
  · rename_i st' h
    right
    exact h
  · left
    rfl

theorem repo_CreateTeam_store (db : Schema) (st : Store) (teamName : String)
    (members : List TeamMember) :
    (repository.CreateTeam db st teamName members).2.pull_requests = st.pull_requests
      ∧ (repository.CreateTeam db st teamName members).2.pull_request_reviewers
          = st.pull_request_reviewers
      ∧ ((st.users.map (fun u => u.UserID)).Nodup →
          ((repository.CreateTeam db st teamName members).2.users.map
            (fun u => u.UserID)).Nodup) := by
  unfold repository.CreateTeam
  rcases withTx_store st _ with h | h
  · rw [h]
    exact ⟨rfl, rfl, id⟩
  · split at h
    · simp at h
    · split at h
      · simp at h
      · have hm := upsertMembers_ok db teamName members _ _ h
        exact hm

theorem repo_UpdateTeam_store (db : Schema) (st : Store) (teamName : String)
    (members : List TeamMember) :
    (repository.UpdateTeam db st teamName members).2.pull_requests = st.pull_requests
      ∧ (repository.UpdateTeam db st teamName members).2.pull_request_reviewers
          = st.pull_request_reviewers
      ∧ ((st.users.map (fun u => u.UserID)).Nodup →
          ((repository.UpdateTeam db st teamName members).2.users.map
            (fun u => u.UserID)).Nodup) := by
  unfold repository.UpdateTeam
  rcases withTx_store st _ with h | h
  · rw [h]
    exact ⟨rfl, rfl, id⟩
  · split at h
    · simp at h
    · split at h
      · simp at h
      · exact upsertMembers_ok db teamName members _ _ h

theorem service_CreateTeam_store (db : Schema) (st : Store) (req : CreateTeamRequest) :
    (service.CreateTeam db st req).2 = (repository.CreateTeam db st req.TeamName req.Members).2 := by
  unfold service.CreateTeam
  split <;> rename_i h <;> rw [h]

theorem service_UpdateTeam_store (db : Schema) (st : Store) (req : CreateTeamRequest) :
    (service.UpdateTeam db st req).2 = (repository.UpdateTeam db st req.TeamName req.Members).2 := by
  unfold service.UpdateTeam
  split <;> rename_i h <;> rw [h]

theorem service_SetUserActive_store (db : Schema) (st : Store) (req : SetIsActiveRequest) :
    (service.SetUserActive db st req).2 = st
      ∨ (service.SetUserActive db st req).2
        = { st with users := st.users.map (fun u =>
            if u.UserID == req.UserID then { u with IsActive := req.IsActive } else u) } := by
  cases hp : db.parameter req.UserID with
  | some msg =>
    left
    unfold service.SetUserActive repository.SetUserActive
    rw [hp]
    dsimp only
    split <;> rfl
  | none =>
    right
    unfold service.SetUserActive repository.SetUserActive
    rw [hp]
    dsimp only
    split <;> rename_i h
    · split at h
      · simp only [Prod.mk.injEq] at h
        split <;> rw [← h.2]
      · simp at h
    · split at h
      · simp at h
      · simp only [Prod.mk.injEq] at h
        rw [← h.2]

theorem Consistent_CreateTeam (db : Schema) (st : Store) (req : CreateTeamRequest)
    (h : Consistent st) : Consistent (service.CreateTeam db st req).2 := by
  rw [service_CreateTeam_store]
  obtain ⟨a1, a2, a3⟩ := repo_CreateTeam_store db st req.TeamName req.Members
  exact Consistent_of_same_assignments st _ h a1 a2 (a3 h.userIds)

theorem Consistent_UpdateTeam (db : Schema) (st : Store) (req : CreateTeamRequest)
    (h : Consistent st) : Consistent (service.UpdateTeam db st req).2 := by
  rw [service_UpdateTeam_store]
  obtain ⟨a1, a2, a3⟩ := repo_UpdateTeam_store db st req.TeamName req.Members
  exact Consistent_of_same_assignments st _ h a1 a2 (a3 h.userIds)

theorem Consistent_SetUserActive (db : Schema) (st : Store) (req : SetIsActiveRequest)
    (h : Consistent st) : Consistent (service.SetUserActive db st req).2 := by
  rcases service_SetUserActive_store db st req with he | he
  · rw [he]
    exact h
  rw [he]
  refine Consistent_of_same_assignments st _ h rfl rfl ?_
  have hmap : (st.users.map (fun u =>
      if u.UserID == req.UserID then { u with IsActive := req.IsActive } else u)).map
      (fun u => u.UserID) = st.users.map (fun u => u.UserID) := by
    rw [List.map_map]
    apply List.map_congr_left
    intro u _
    by_cases hu : u.UserID = req.UserID
    · simp [Function.comp, hu]
    · simp [Function.comp, hu]
  exact hmap ▸ h.userIds

theorem service_MergePR_store (db : Schema) (st : Store) (now : Nat) (req : MergePRRequest) :
    (service.MergePR db st now req).2 = st
      ∨ (service.MergePR db st now req).2
        = { st with pull_requests := st.pull_requests.map (fun row =>
            if row.pull_request_id == req.PullRequestID then
              { row with status := StatusMerged, merged_at := some now }
            else row) } := by
  cases hacc : db.parameter req.PullRequestID with
  | some msg =>
    left
    rw [MergePR_of_refused st now req msg hacc]
  | none =>
    by_cases hex : ∃ row ∈ st.pull_requests, row.pull_request_id = req.PullRequestID
    · obtain ⟨pr0, hpr⟩ := GetPR_ok_of_exists st _ hacc hex
      by_cases hm : pr0.Status = StatusMerged
      · left
        rw [MergePR_of_merged st now req pr0 hpr hm]
      · right
        rw [MergePR_of_not_merged st now req pr0 hpr hm]
    · left
      rw [MergePR_of_noPR st now req hacc (fun row hrow hid => hex ⟨row, hrow, hid⟩)]

theorem Consistent_MergePR (db : Schema) (st : Store) (now : Nat) (req : MergePRRequest)
    (h : Consistent st) : Consistent (service.MergePR db st now req).2 := by
  rcases service_MergePR_store db st now req with he | he
  · rw [he]
    exact h
  · rw [he]
    have hids : (st.pull_requests.map (fun row =>
        if row.pull_request_id == req.PullRequestID then
          { row with status := StatusMerged, merged_at := some now }
        else row)).map (fun p => p.pull_request_id)
        = st.pull_requests.map (fun p => p.pull_request_id) := by
      rw [List.map_map]
      apply List.map_congr_left
      intro p _
      by_cases hp : p.pull_request_id = req.PullRequestID
      · simp [Function.comp, hp]
      · simp [Function.comp, hp]
    refine ⟨hids ▸ h.prIds, h.userIds, ?_, ?_, h.reviewerSets⟩
    · intro r hr
      obtain ⟨p, hp, hid⟩ := h.noOrphan r hr
      refine ⟨_, List.mem_map.2 ⟨p, hp, rfl⟩, ?_⟩
      by_cases hp2 : p.pull_request_id = req.PullRequestID
      · simp [hp2, ← hid]
      · simp [hp2, ← hid]
    · intro p' hp'
      rcases List.mem_map.1 hp' with ⟨p, hp, rfl⟩
      have hs := h.noSelfReview p hp
      by_cases hp2 : p.pull_request_id = req.PullRequestID
      · simpa [hp2, repository.selectReviewers] using hs
      · simpa [hp2, repository.selectReviewers] using hs

theorem service_CreatePR_store (db : Schema) (st : Store) (rnd : Source) (now : Nat)
    (req : CreatePRRequest) :
    (service.CreatePR db st rnd now req).2 = st
      ∨ ∃ author, repository.GetUser db st req.AuthorID = .ok author
        ∧ (∀ row ∈ st.pull_requests, row.pull_request_id ≠ req.PullRequestID)
        ∧ (service.CreatePR db st rnd now req).2
          = { st with
              pull_requests := (st.pull_requests ++
                [{ pull_request_id := req.PullRequestID,
                   pull_request_name := req.PullRequestName,
                   author_id := req.AuthorID, status := StatusOpen, created_at := some now,
                   merged_at := none }])
              pull_request_reviewers := (st.pull_request_reviewers ++
                ((service.selectRandomReviewers rnd (st.users.filter (fun u =>
                    u.TeamName == author.TeamName && u.IsActive == true
                      && u.UserID != author.UserID)) 2).map (fun r => r.UserID)).map
                  (fun r => { pull_request_id := req.PullRequestID, user_id := r })) } := by
  cases hg : repository.GetUser db st req.AuthorID with
  | ok author =>
    have hu := hg
    by_cases hex : ∃ row ∈ st.pull_requests, row.pull_request_id = req.PullRequestID
    · left
      rw [CreatePR_of_exists db st rnd now req author hu hex]
    · have hfresh : ∀ row ∈ st.pull_requests, row.pull_request_id ≠ req.PullRequestID :=
        fun row hrow hid => hex ⟨row, hrow, hid⟩
      rcases CreatePR_of_fresh db st rnd now req author hu hfresh with ⟨msg, hmsg⟩ | ⟨_, hok⟩
      · left
        rw [hmsg]
      · right
        exact ⟨author, rfl, hfresh, by rw [hok]⟩
  | error err =>
    left
    obtain ⟨e, he⟩ := CreatePR_of_authorError db st rnd now req err hg
    rw [he]

theorem selectReviewers_nil_of_fresh (st : Store) (prID : String) (h : Consistent st)
    (hfresh : ∀ row ∈ st.pull_requests, row.pull_request_id ≠ prID) :
    repository.selectReviewers st prID = [] := by
  unfold repository.selectReviewers
  rw [List.map_eq_nil_iff, List.filter_eq_nil_iff]
  intro r hr hid
  obtain ⟨p, hp, hpid⟩ := h.noOrphan r hr
  have : r.pull_request_id = prID := by simpa using hid
  exact hfresh p hp (hpid.trans this)

theorem selected_ids_nodup (st : Store) (rnd : Source) (author : User)
    (hnd : (st.users.map (fun u => u.UserID)).Nodup) :
    ((service.selectRandomReviewers rnd (st.users.filter (fun u =>
        u.TeamName == author.TeamName && u.IsActive == true
          && u.UserID != author.UserID)) 2).map (fun r => r.UserID)).Nodup := by
  obtain ⟨l, hp, hs⟩ := selectRandomReviewers_subperm rnd (st.users.filter (fun u =>
        u.TeamName == author.TeamName && u.IsActive == true
          && u.UserID != author.UserID)) 2
  have h1 : (st.users.filter (fun u =>
        u.TeamName == author.TeamName && u.IsActive == true
          && u.UserID != author.UserID)).map (fun u => u.UserID) |>.Nodup :=
    ((List.filter_sublist _).map _).nodup hnd
  exact ((hp.map _).nodup_iff).1 ((hs.map _).nodup h1)

theorem Consistent_CreatePR (db : Schema) (st : Store) (rnd : Source) (now : Nat)
    (req : CreatePRRequest) (h : Consistent st) :
    Consistent (service.CreatePR db st rnd now req).2 := by
  rcases service_CreatePR_store db st rnd now req with he | ⟨author, hu, hfresh, he⟩
  · rw [he]
    exact h
  · rw [he]
    have hid := GetUser_ok_id st _ _ hu
    have hnil := selectReviewers_nil_of_fresh st req.PullRequestID h hfresh
    refine ⟨?_, h.userIds, ?_, ?_, ?_⟩
    · simp only [List.map_append, List.map_cons, List.map_nil]
      refine List.Nodup.append h.prIds (List.nodup_singleton _) ?_
      intro x hx1 hx2
      rw [List.mem_singleton] at hx2
      subst hx2
      rcases List.mem_map.1 hx1 with ⟨p, hp, hpid⟩
      exact hfresh p hp hpid
    · intro r hr
      simp only [List.mem_append, List.mem_map] at hr
      rcases hr with hr | ⟨x, _, rfl⟩
      · obtain ⟨p, hp, hpid⟩ := h.noOrphan r hr
        exact ⟨p, List.mem_append_left _ hp, hpid⟩
      · exact ⟨_, List.mem_append_right _ (List.mem_singleton.2 rfl), rfl⟩
    · intro p hp
      simp only [List.mem_append, List.mem_singleton] at hp
      rw [selectReviewers_append]
      rcases hp with hp | hp
      · have hne : p.pull_request_id ≠ req.PullRequestID := hfresh p hp
        simp only [hne, if_false]
        exact h.noSelfReview p hp
      · subst hp
        simp only [if_true, hnil, List.nil_append]
        intro hmem
        have := (mem_selected_reviewers st rnd author _ hmem).1
        exact this hid.symm
    · intro prID
      rw [selectReviewers_append]
      by_cases hp : prID = req.PullRequestID
      · subst hp
        simp only [if_true, hnil, List.nil_append]
        refine ⟨selected_ids_nodup st rnd author h.userIds, ?_⟩
        rw [List.length_map, selectRandomReviewers_length_eq]
        exact Nat.min_le_left _ _
      · simp only [hp, if_false]
        exact h.reviewerSets prID

/-- The store `ReassignReviewer` leaves: the one it got, or the one in which the row of
the old reviewer of an existing PR is replaced by the row of a user who is not the
author and was not a reviewer of the PR. -/
theorem service_ReassignReviewer_store (db : Schema) (st : Store) (rnd : Source)
    (req : ReassignRequest) :
    (service.ReassignReviewer db st rnd req).2 = st
      ∨ ∃ pr0 n, repository.GetPR db st req.PullRequestID = .ok pr0
        ∧ req.OldUserID ∈ repository.selectReviewers st req.PullRequestID
        ∧ n ≠ pr0.AuthorID
        ∧ n ∉ repository.selectReviewers st req.PullRequestID
        ∧ (service.ReassignReviewer db st rnd req).2
          = { st with pull_request_reviewers :=
              (st.pull_request_reviewers.filter (fun row =>
                  !(row.pull_request_id == req.PullRequestID && row.user_id == req.OldUserID))
                ++ [{ pull_request_id := req.PullRequestID, user_id := n }]) } := by
  cases hacc : db.parameter req.PullRequestID with
  | some msg =>
    left
    rw [ReassignReviewer_of_refusedPR db st rnd req msg hacc]
  | none =>
  by_cases hex : ∃ row ∈ st.pull_requests, row.pull_request_id = req.PullRequestID
  · obtain ⟨pr0, hpr⟩ := GetPR_ok_of_exists st _ hacc hex
    by_cases hm : pr0.Status = StatusMerged
    · left
      rw [ReassignReviewer_of_merged db st rnd req pr0 hpr hm]
    · cases hold : db.parameter req.OldUserID with
      | some msg =>
        left
        rw [ReassignReviewer_of_refusedUser db st rnd req pr0 msg hpr hm hold]
      | none =>
      by_cases ha : req.OldUserID ∈ repository.selectReviewers st req.PullRequestID
      · by_cases hue : ∃ u ∈ st.users, u.UserID = req.OldUserID
        · obtain ⟨oldReviewer, hu⟩ := GetUser_ok_of_exists st _ hold hue
          have hc := GetActiveTeamMembers_ok st oldReviewer.TeamName ""
          by_cases hf : service.filterCandidates
              (service.excludeMap req.OldUserID pr0.AuthorID pr0.AssignedReviewers)
              (st.users.filter (fun u =>
                u.TeamName == oldReviewer.TeamName && u.IsActive == true && u.UserID != ""))
              = []
          · left
            rw [ReassignReviewer_of_noCandidate db st rnd req pr0 oldReviewer _ hpr hm ha hu
              hc hf]
          · obtain ⟨newReviewer, hmem, hcase⟩ :=
              ReassignReviewer_of_candidates db st rnd req pr0 oldReviewer _ hpr hm ha hu hc hf
            rw [mem_filterCandidates] at hmem
            obtain ⟨_, _, h2, h3⟩ := hmem
            rcases hcase with ⟨msg, hmsg⟩ | ⟨st', hst', hok⟩
            · left
              rw [hmsg]
            · right
              refine ⟨pr0, newReviewer.UserID, hpr, ha, h2, ?_, ?_⟩
              · rw [← GetPR_ok_reviewers st _ pr0 hpr]
                exact h3
              · rw [hok, hst']
        · left
          rw [ReassignReviewer_of_noUser db st rnd req pr0 hpr hm hold ha
            (fun u hu hid => hue ⟨u, hu, hid⟩)]
      · left
        rw [ReassignReviewer_of_notAssigned db st rnd req pr0 hpr hm hold ha]
  · left
    rw [ReassignReviewer_of_noPR db st rnd req hacc (fun row hrow hid => hex ⟨row, hrow, hid⟩)]

theorem GetPR_author_of_mem {db : Schema} (st : Store) (h : Consistent st) (p : PullRequestRow)
    (hp : p ∈ st.pull_requests) (pr0 : PullRequest)
    (hpr : repository.GetPR db st p.pull_request_id = .ok pr0) :
    pr0.AuthorID = p.author_id := by
  obtain ⟨row, hrow, hid, hpr0⟩ := GetPR_ok_row st _ pr0 hpr
  have hmem := List.mem_of_find?_eq_some hrow
  have heq : row = p :=
    List.inj_on_of_nodup_map h.prIds hmem hp hid
  rw [hpr0, heq]

theorem Consistent_ReassignReviewer (db : Schema) (st : Store) (rnd : Source)
    (req : ReassignRequest) (h : Consistent st) :
    Consistent (service.ReassignReviewer db st rnd req).2 := by
  rcases service_ReassignReviewer_store db st rnd req with he | ⟨pr0, n, hpr, hold, hna, hnr, he⟩
  · rw [he]
    exact h
  · rw [he]
    obtain ⟨row, hrow, hid, _⟩ := GetPR_ok_row st _ pr0 hpr
    have hrowmem := List.mem_of_find?_eq_some hrow
    refine ⟨h.prIds, h.userIds, ?_, ?_, ?_⟩
    · intro r hr
      simp only [List.mem_append, List.mem_filter, List.mem_singleton] at hr
      rcases hr with ⟨hr, _⟩ | hr
      · exact h.noOrphan r hr
      · subst hr
        exact ⟨row, hrowmem, hid⟩
    · intro p hp
      rw [selectReviewers_after_reassign]
      by_cases hpid : p.pull_request_id = req.PullRequestID
      · simp only [hpid, if_true]
        have hauth : pr0.AuthorID = p.author_id :=
          GetPR_author_of_mem st h p hp pr0 (hpid ▸ hpr)
        have hs := h.noSelfReview p hp
        rw [hpid] at hs
        simp only [List.mem_append, List.mem_filter, List.mem_singleton, not_or, not_and]
        exact ⟨fun hm _ => hs hm, fun e => hna (e ▸ hauth.symm)⟩
      · simp only [hpid, if_false]
        exact h.noSelfReview p hp
    · intro prID
      rw [selectReviewers_after_reassign]
      by_cases hpid : prID = req.PullRequestID
      · rw [hpid]
        simp only [if_true]
        obtain ⟨hnd, hlen⟩ := h.reviewerSets req.PullRequestID
        have hnd2 : ((repository.selectReviewers st req.PullRequestID).filter
            (fun x => x != req.OldUserID) ++ [n]).Nodup := by
          refine List.Nodup.append (hnd.filter _) (List.nodup_singleton n) ?_
          intro x hx1 hx2
          rw [List.mem_singleton] at hx2
          subst hx2
          exact hnr (List.mem_filter.1 hx1).1
        refine ⟨hnd2, ?_⟩
        have hcard := card_after_replace _ req.OldUserID n hold hnr
        rw [List.toFinset_card_of_nodup hnd2, List.toFinset_card_of_nodup hnd] at hcard
        omega
      · simp only [hpid, if_false]
        exact h.reviewerSets prID

theorem Consistent_emptyStore : Consistent emptyStore := by
  refine ⟨List.nodup_nil, List.nodup_nil, ?_, ?_, ?_⟩
  · intro r hr
    simp [emptyStore] at hr
  · intro p hp
    simp [emptyStore] at hp
  · intro prID
    simp [emptyStore, repository.selectReviewers]

theorem Consistent_step (db : Schema) (st : Store) (op : Op) (h : Consistent st) :
    Consistent (step db st op) := by
  cases op with
  | CreateTeam req => exact Consistent_CreateTeam db st req h
  | UpdateTeam req => exact Consistent_UpdateTeam db st req h
  | SetUserActive req => exact Consistent_SetUserActive db st req h
  | CreatePR rnd now req => exact Consistent_CreatePR db st rnd now req h
  | MergePR now req => exact Consistent_MergePR db st now req h
  | ReassignReviewer rnd req => exact Consistent_ReassignReviewer db st rnd req h

theorem Consistent_run (db : Schema) (st : Store) (ops : List Op) (h : Consistent st) :
    Consistent (run db st ops) := by
  induction ops generalizing st with
  | nil => exact h
  | cons op rest ih => exact ih (step db st op) (Consistent_step db st op h)

/-- C19: in every store reached from the empty store by a sequence of `CreateTeam`,
`UpdateTeam`, `SetUserActive`, `CreatePR`, `MergePR` and `ReassignReviewer` calls,
with any random sources and clock readings, no pull request has its author among its
assigned reviewers: no assignment row of a PR names the author of the PR, and no PR
read by `GetPR` lists its author as reviewer.  (The scenario run shows a reached store
with an assigned reviewer.) -/
theorem no_self_review_reachable (db : Schema) (ops : List Op) :
    NoSelfReview (run db emptyStore ops)
      ∧ (∀ p ∈ (run db emptyStore ops).pull_requests,
          ∀ r ∈ (run db emptyStore ops).pull_request_reviewers,
            r.pull_request_id = p.pull_request_id → r.user_id ≠ p.author_id)
      ∧ (∀ prID pr, repository.GetPR db (run db emptyStore ops) prID = .ok pr →
          pr.AuthorID ∉ pr.AssignedReviewers)
      ∧ run sample.anySchema emptyStore
          [Op.CreateTeam sample.backendRequest, Op.CreatePR (fun _ => 0) 7 sample.pr1Request]
        = sample.backendStoreWithPR1 := by
  have h := Consistent_run db emptyStore ops Consistent_emptyStore
  refine ⟨h.noSelfReview, ?_, ?_, by rfl⟩
  · intro p hp r hr hid hauth
    apply h.noSelfReview p hp
    rw [mem_selectReviewers_iff]
    have hrow : r = { pull_request_id := p.pull_request_id, user_id := p.author_id } := by
      cases r
      simp only at hid hauth
      subst hid hauth
      rfl
    rw [← hrow]
    exact hr
  · intro prID pr hpr
    obtain ⟨row, hrow, hid, hpr0⟩ := GetPR_ok_row _ prID pr hpr
    have hmem := List.mem_of_find?_eq_some hrow
    have hs := h.noSelfReview row hmem
    rw [hid] at hs
    rw [hpr0]
    exact hs

/-- What a successful `ReassignReviewer` did to the store. -/
theorem ReassignReviewer_ok_store (db : Schema) (st st' : Store) (rnd : Source)
    (req : ReassignRequest) (pr : PullRequest) (n : String)
    (h : service.ReassignReviewer db st rnd req = (.ok (pr, n), st')) :
    req.OldUserID ∈ repository.selectReviewers st req.PullRequestID
      ∧ n ∉ repository.selectReviewers st req.PullRequestID
      ∧ repository.selectReviewers st' req.PullRequestID
          = (repository.selectReviewers st req.PullRequestID).filter
              (fun x => x != req.OldUserID) ++ [n] := by
  obtain ⟨pr0, oldReviewer, candidates, newReviewer, hpr, _, hassigned, _, _, hmem, hn, hrepo,
    _⟩ := ReassignReviewer_ok_inv db st st' rnd req pr n h
  rw [mem_filterCandidates] at hmem
  obtain ⟨_, _, _, hnotin⟩ := hmem
  rw [hn, GetPR_ok_reviewers st _ pr0 hpr] at hnotin
  have hold : req.OldUserID ∈ repository.selectReviewers st req.PullRequestID := by
    have hb := (IsReviewerAssigned_ok st _ _ true hassigned).2.2
    simpa using hb.symm
  refine ⟨hold, hnotin, ?_⟩
  rcases repo_ReassignReviewer_cases db st req.PullRequestID req.OldUserID n with
    ⟨_, he⟩ | ⟨_, msg, he⟩ | ⟨_, hok⟩
  · rw [he] at hrepo
    simp at hrepo
  · rw [he] at hrepo
    simp at hrepo
  · rw [hok] at hrepo
    simp only [Prod.mk.injEq, true_and] at hrepo
    rw [← hrepo, selectReviewers_after_reassign]
    simp

/-- C20: in every store reached from the empty store by a sequence of the service
operations, each reviewer list holds no user id twice and at most two ids, as a list
of assignment rows and as `GetPR` returns it.  From such a store `CreatePR` leads to a
store with the property, and so does `ReassignReviewer`; when `ReassignReviewer`
succeeds the replacement was not a reviewer of the PR and the PR has as many
reviewers as before. -/
theorem reviewer_sets_reachable (db : Schema) (ops : List Op) :
    ReviewerSetsOk (run db emptyStore ops)
      ∧ (∀ prID pr, repository.GetPR db (run db emptyStore ops) prID = .ok pr →
          pr.AssignedReviewers.Nodup ∧ pr.AssignedReviewers.length ≤ 2)
      ∧ (∀ rnd now req,
          ReviewerSetsOk (service.CreatePR db (run db emptyStore ops) rnd now req).2)
      ∧ (∀ rnd req,
          ReviewerSetsOk (service.ReassignReviewer db (run db emptyStore ops) rnd req).2)
      ∧ (∀ rnd req pr n st',
          service.ReassignReviewer db (run db emptyStore ops) rnd req = (.ok (pr, n), st') →
          n ∉ repository.selectReviewers (run db emptyStore ops) req.PullRequestID
            ∧ (repository.selectReviewers st' req.PullRequestID).Nodup
            ∧ (repository.selectReviewers st' req.PullRequestID).length
              = (repository.selectReviewers (run db emptyStore ops) req.PullRequestID).length)
      ∧ run sample.anySchema emptyStore
          [Op.CreateTeam sample.backendRequest, Op.CreatePR (fun _ => 0) 7 sample.pr1Request,
           Op.UpdateTeam ⟨"backend", [⟨"D", "D", true⟩]⟩,
           Op.ReassignReviewer (fun _ => 0) ⟨"PR1", "B"⟩]
        = { sample.backendStoreWithPR1 with
            users := sample.backendStore.users ++ [sample.mkUser "D" true]
            pull_request_reviewers := [{ pull_request_id := "PR1", user_id := "D" }] } := by
  have h := Consistent_run db emptyStore ops Consistent_emptyStore
  refine ⟨h.reviewerSets, ?_, ?_, ?_, ?_, by rfl⟩
  · intro prID pr hpr
    rw [GetPR_ok_reviewers _ prID pr hpr]
    exact h.reviewerSets prID
  · intro rnd now req
    exact (Consistent_CreatePR db _ rnd now req h).reviewerSets
  · intro rnd req
    exact (Consistent_ReassignReviewer db _ rnd req h).reviewerSets
  · intro rnd req pr n st' hok
    obtain ⟨hold, hnr, hsel⟩ := ReassignReviewer_ok_store db _ st' rnd req pr n hok
    obtain ⟨hnd, _⟩ := h.reviewerSets req.PullRequestID
    have hnd2 : ((repository.selectReviewers (run db emptyStore ops) req.PullRequestID).filter
        (fun x => x != req.OldUserID) ++ [n]).Nodup := by
      refine List.Nodup.append (hnd.filter _) (List.nodup_singleton n) ?_
      intro x hx1 hx2
      rw [List.mem_singleton] at hx2
      subst hx2
      exact hnr (List.mem_filter.1 hx1).1
    have hcard := card_after_replace _ req.OldUserID n hold hnr
    rw [List.toFinset_card_of_nodup hnd2, List.toFinset_card_of_nodup hnd] at hcard
    rw [hsel]
    exact ⟨hnr, hnd2, hcard⟩

/-! ## Merged is terminal -/

theorem GetPR_congr {db : Schema} (st st' : Store)
    (hp : st'.pull_requests = st.pull_requests)
    (hr : st'.pull_request_reviewers = st.pull_request_reviewers) (prID : String) :
    repository.GetPR db st' prID = repository.GetPR db st prID := by
  unfold repository.GetPR
  rw [hp, selectReviewers_congr st st' hr]

/-- The `UPDATE` of `Repository.MergePR` for another id leaves the first row with the id
as it is. -/
theorem find_merged_rows_other (rows : List PullRequestRow) (now : Nat) (prID other : String)
    (hne : other ≠ prID) :
    (rows.map (fun row =>
        if row.pull_request_id == other then
          { row with status := StatusMerged, merged_at := some now }
        else row)).find? (fun row => row.pull_request_id == prID)
      = rows.find? (fun row => row.pull_request_id == prID) := by
  induction rows with
  | nil => rfl
  | cons r rs ih =>
    by_cases h : r.pull_request_id = prID
    · have h2 : ¬ r.pull_request_id = other := fun e => hne (e ▸ h)
      simp only [List.map_cons, List.find?_cons]
      have hb : (r.pull_request_id == other) = false := by simpa using h2
      have hb2 : (r.pull_request_id == prID) = true := by simpa using h
      simp only [hb, Bool.false_eq_true, if_false, hb2]
    · by_cases h2 : r.pull_request_id = other
      · simp only [List.map_cons, List.find?_cons]
        have hb : (r.pull_request_id == other) = true := by simpa using h2
        have hb2 : (r.pull_request_id == prID) = false := by simpa using h
        simp only [hb, if_true, hb2]
        exact ih
      · simp only [List.map_cons, List.find?_cons]
        have hb : (r.pull_request_id == other) = false := by simpa using h2
        have hb2 : (r.pull_request_id == prID) = false := by simpa using h
        simp only [hb, Bool.false_eq_true, if_false, hb2]
        exact ih

theorem find_append_of_some (rows : List PullRequestRow) (extra : PullRequestRow)
    (prID : String) (row : PullRequestRow)
    (h : rows.find? (fun r => r.pull_request_id == prID) = some row) :
    (rows ++ [extra]).find? (fun r => r.pull_request_id == prID) = some row := by
  rw [List.find?_append, h]
  rfl

/-- One call of a service operation leaves a merged PR as `GetPR` read it before: the
same status, merge timestamp, reviewers, name, author and creation timestamp. -/
theorem merged_step (db : Schema) (st : Store) (op : Op) (prID : String) (pr : PullRequest)
    (hpr : repository.GetPR db st prID = .ok pr) (hm : pr.Status = StatusMerged) :
    repository.GetPR db (step db st op) prID = .ok pr := by
  obtain ⟨row, hrow, hid, hpr0⟩ := GetPR_ok_row st prID pr hpr
  have hrowmem := List.mem_of_find?_eq_some hrow
  cases op with
  | CreateTeam req =>
    simp only [step]
    rw [service_CreateTeam_store]
    obtain ⟨a1, a2, _⟩ := repo_CreateTeam_store db st req.TeamName req.Members
    rw [GetPR_congr st _ a1 a2]
    exact hpr
  | UpdateTeam req =>
    simp only [step]
    rw [service_UpdateTeam_store]
    obtain ⟨a1, a2, _⟩ := repo_UpdateTeam_store db st req.TeamName req.Members
    rw [GetPR_congr st _ a1 a2]
    exact hpr
  | SetUserActive req =>
    simp only [step]
    rcases service_SetUserActive_store db st req with he | he
    · rw [he]
      exact hpr
    · rw [he]
      refine Eq.trans (GetPR_congr st _ ?_ ?_ prID) hpr <;> rfl
  | CreatePR rnd now req =>
    simp only [step]
    rcases service_CreatePR_store db st rnd now req with he | ⟨author, _, hfresh, he⟩
    · rw [he]
      exact hpr
    · rw [he]
      have hne : prID ≠ req.PullRequestID := fun e => hfresh row hrowmem (hid.trans e)
      rw [GetPR_accepted _ _ (GetPR_ok_accepted st prID pr hpr)]
      dsimp only
      rw [find_append_of_some st.pull_requests _ prID row hrow, selectReviewers_append]
      simp only [hne, if_false]
      rw [hpr0]
  | MergePR now req =>
    simp only [step]
    by_cases hreq : req.PullRequestID = prID
    · rw [MergePR_of_merged st now req pr (hreq ▸ hpr) hm]
      exact hpr
    · rcases service_MergePR_store db st now req with he | he
      · rw [he]
        exact hpr
      · rw [he]
        rw [GetPR_accepted _ _ (GetPR_ok_accepted st prID pr hpr)]
        dsimp only
        rw [find_merged_rows_other st.pull_requests now prID req.PullRequestID hreq, hrow, hpr0]
        rfl
  | ReassignReviewer rnd req =>
    simp only [step]
    by_cases hreq : req.PullRequestID = prID
    · rw [ReassignReviewer_of_merged db st rnd req pr (hreq ▸ hpr) hm]
      exact hpr
    · rcases service_ReassignReviewer_store db st rnd req with he | ⟨_, n, _, _, _, _, he⟩
      · rw [he]
        exact hpr
      · rw [he, GetPR_with_reviewers st _ prID pr hpr, selectReviewers_after_reassign]
        have hne : prID ≠ req.PullRequestID := fun e => hreq e.symm
        simp only [hne, if_false]
        rw [← GetPR_ok_reviewers st prID pr hpr]

theorem merged_run (db : Schema) (ops : List Op) (st : Store) (prID : String)
    (pr : PullRequest)
    (hpr : repository.GetPR db st prID = .ok pr) (hm : pr.Status = StatusMerged) :
    repository.GetPR db (run db st ops) prID = .ok pr := by
  induction ops generalizing st with
  | nil => exact hpr
  | cons op rest ih => exact ih (step db st op) (merged_step db st op prID pr hpr hm)

/-- C21: once a pull request is merged, after any further sequence of `CreateTeam`,
`UpdateTeam`, `SetUserActive`, `CreatePR`, `MergePR` and `ReassignReviewer` calls it
is read exactly as before: still `MERGED` and not `OPEN`, with the same merge
timestamp and the same assigned reviewers; and no single operation from the store so
reached changes how it is read. -/
theorem merged_is_terminal (db : Schema) (st : Store) (ops : List Op) (prID : String)
    (pr : PullRequest)
    (hpr : repository.GetPR db st prID = .ok pr) (hm : pr.Status = StatusMerged) :
    (∃ pr', repository.GetPR db (run db st ops) prID = .ok pr'
        ∧ pr'.Status = StatusMerged
        ∧ pr'.Status ≠ StatusOpen
        ∧ pr'.MergedAt = pr.MergedAt
        ∧ pr'.AssignedReviewers = pr.AssignedReviewers
        ∧ pr' = pr)
      ∧ repository.selectReviewers (run db st ops) prID = repository.selectReviewers st prID
      ∧ (∀ op, repository.GetPR db (step db (run db st ops) op) prID = .ok pr) := by
  have hrun := merged_run db ops st prID pr hpr hm
  refine ⟨⟨pr, hrun, hm, ?_, rfl, rfl, rfl⟩, ?_, ?_⟩
  · rw [hm]
    decide
  · rw [← GetPR_ok_reviewers _ prID pr hrun, GetPR_ok_reviewers st prID pr hpr]
  · intro op
    exact merged_step db _ op prID pr hrun hm

theorem merged_is_terminal_witness :
    repository.GetPR sample.keyedSchema sample.store2 "pr2" = .ok sample.pr2
      ∧ sample.pr2.Status = StatusMerged
      ∧ (run sample.keyedSchema sample.store2
          [Op.MergePR 20 ⟨"pr2"⟩, Op.ReassignReviewer (fun _ => 0) ⟨"pr2", "u2"⟩,
           Op.CreatePR (fun _ => 0) 30 ⟨"pr9", "ninth", "u2"⟩,
           Op.SetUserActive ⟨"u2", false⟩,
           Op.UpdateTeam ⟨"backend", [⟨"u9", "u9", true⟩]⟩]).pull_request_reviewers
          = [{ pull_request_id := "pr2", user_id := "u2" },
             { pull_request_id := "pr9", user_id := "u3" },
             { pull_request_id := "pr9", user_id := "u4" }]
      ∧ ∃ pr', repository.GetPR sample.keyedSchema (run sample.keyedSchema sample.store2
          [Op.MergePR 20 ⟨"pr2"⟩, Op.ReassignReviewer (fun _ => 0) ⟨"pr2", "u2"⟩,
           Op.CreatePR (fun _ => 0) 30 ⟨"pr9", "ninth", "u2"⟩,
           Op.SetUserActive ⟨"u2", false⟩,
           Op.UpdateTeam ⟨"backend", [⟨"u9", "u9", true⟩]⟩]) "pr2" = .ok pr'
        ∧ pr'.Status = StatusMerged
        ∧ pr'.Status ≠ StatusOpen
        ∧ pr'.MergedAt = sample.pr2.MergedAt
        ∧ pr'.AssignedReviewers = sample.pr2.AssignedReviewers
        ∧ pr' = sample.pr2 :=
  ⟨rfl, rfl, by rfl,
    (merged_is_terminal sample.keyedSchema sample.store2
      [Op.MergePR 20 ⟨"pr2"⟩, Op.ReassignReviewer (fun _ => 0) ⟨"pr2", "u2"⟩,
       Op.CreatePR (fun _ => 0) 30 ⟨"pr9", "ninth", "u2"⟩,
       Op.SetUserActive ⟨"u2", false⟩,
       Op.UpdateTeam ⟨"backend", [⟨"u9", "u9", true⟩]⟩] "pr2" sample.pr2 rfl rfl).1⟩

/-! ## Selection depends on the random source -/

/-- C22: reviewer selection is not a function of the candidates and the count alone.
For the five candidates `u1`..`u5` of the test, with distinct ids, and `maxCount = 2`,
the source that always draws `0` gives `[u2, u3]` and the source that always draws `1`
gives `[u1, u3]`: two sources with different ordered results, also as the test's key
of the two ids. -/
theorem selectRandomReviewers_depends_on_source :
    2 < sample.u1to5.length
      ∧ (sample.u1to5.map (fun u => u.UserID)).Nodup
      ∧ (service.selectRandomReviewers (fun _ => 0) sample.u1to5 2).map (fun u => u.UserID)
          = ["u2", "u3"]
      ∧ (service.selectRandomReviewers (fun _ => 1) sample.u1to5 2).map (fun u => u.UserID)
          = ["u1", "u3"]
      ∧ service.selectRandomReviewers (fun _ => 0) sample.u1to5 2
          ≠ service.selectRandomReviewers (fun _ => 1) sample.u1to5 2
      ∧ (∃ rnd1 rnd2 : Source, service.selectRandomReviewers rnd1 sample.u1to5 2
          ≠ service.selectRandomReviewers rnd2 sample.u1to5 2)
      ∧ ¬ (∃ f : List User → Nat → List User,
            ∀ (rnd : Source) (candidates : List User) (maxCount : Nat),
              service.selectRandomReviewers rnd candidates maxCount = f candidates maxCount) := by
  have hne : service.selectRandomReviewers (fun _ => 0) sample.u1to5 2
      ≠ service.selectRandomReviewers (fun _ => 1) sample.u1to5 2 := by decide
  refine ⟨by decide, by decide, by decide, by decide, hne, ⟨_, _, hne⟩, ?_⟩
  rintro ⟨f, hf⟩
  exact hne ((hf (fun _ => 0) sample.u1to5 2).trans (hf (fun _ => 1) sample.u1to5 2).symm)
